import Mathlib

/-!
# Navtech radar SDK: CA-CFAR, radar features, FFT buffer, peak finder, server, client, time

A shallow embedding of parts of the Navtech radar SDK (cpp_17): the cell-averaging CFAR
(utility/math/CFAR_algorithms.h), the radar feature bitmap (Radar_features.h), the FFT quanta
(utility/units/FFT_types.h), the FFT buffer (navigation/FFT_Buffer.cpp), the peak finder
(navigation/CFAR_Peak_finder.cpp), the start and stop of the Colossus TCP server
(Colossus_TCP_server.cpp), the rotation and lost-packet checks of the Colossus client
application (apps/Colossus_client_main.cpp), the operators on durations and observations
(utility/time/Time_ops.h), the conversions of durations to and from `timeval` and `timespec`
(utility/time/Duration.h, Duration.cpp) and the call that joins CFAR and the peak finder in
the example applications (apps/Pointcloud_target_writer_main.cpp,
apps/Staring_range_finder_main.cpp).

Modelling conventions.

* `Unit::dB` and `Unit::Metre` are `float` in the source.  A finite `float` is modelled by
  the rational number (`ℚ`) that it denotes.  In the CFAR and in the FFT quanta every `float`
  operation of the source is the exact operation followed by `round_to_float`, the rounding
  of IEEE 754 binary32 to the nearest value, ties to even.  In the FFT buffer and in the peak
  finder the arithmetic is exact: what is proved of them is their control flow, or is stated
  for exact arithmetic.  The one special value that the control flow of the source can
  produce from finite input, the NaN of `0.0f / 0`, is modelled explicitly (a comparison
  with NaN is false).
* `Unit::Bin` is an unsigned integer type whose declaration (Units.h) is not part of the
  sources at hand; a bin is a natural number and the width `bits` of the type is a parameter
  of the functions that do `Bin` arithmetic.
* An iterator is modelled by its offset (an `Int`) from the `data` pointer, and the memory
  around `data` by a total function from offsets to values.  A cell outside the processed
  range is therefore read as whatever the memory holds there.
* A call that need not return a value has an `Outcome`: the value returned, or the fault (a
  loop that never ends, an access outside an array, a result that is not a finite number).
* Function-local statics are modelled by a state that each call takes and returns.
-/

set_option autoImplicit false

namespace Navtech

/-! ## Arithmetic of the type `float` -/

/-- Rounding of a rational to the nearest integer, a tie going to the even one. -/
def round_half_even (x : ℚ) : ℤ :=
  if x - (⌊x⌋ : ℚ) < 1 / 2 then ⌊x⌋
  else if 1 / 2 < x - (⌊x⌋ : ℚ) then ⌊x⌋ + 1
  else if ⌊x⌋ % 2 = 0 then ⌊x⌋ else ⌊x⌋ + 1

/-- Exponent of the unit in the last place of the binary32 numbers around `q > 0`: a
significand of 24 bits, and the least exponent -126 for the subnormal numbers. -/
def float_exponent (q : ℚ) : ℤ := max (Int.log 2 q) (-126) - 23

/-- Rounding of `q >= 0` to the nearest multiple of its unit in the last place. -/
def round_magnitude (q : ℚ) : ℚ :=
  (round_half_even (q / (2 : ℚ) ^ float_exponent q) : ℚ) * (2 : ℚ) ^ float_exponent q

/-- The result in the type `float` (IEEE 754 binary32, rounding to nearest, ties to even) of
an operation whose exact result is `q`: every `+`, `/` and `*` on `float` operands in the
source, and every conversion to `float`, is the exact operation followed by this rounding.
The result is exact below the overflow threshold `2 ^ 128 - 2 ^ 103`; an exact result at or
above it is an infinity in the source, and the theorems on `float` data of any size bound
the data away from it. -/
def round_to_float (q : ℚ) : ℚ :=
  if q < 0 then - round_magnitude (-q) else round_magnitude q

/-- The literal `0.1f`. -/
def float_0_1 : ℚ := 13421773 / 134217728

/-- The literal `0.2f`. -/
def float_0_2 : ℚ := 13421773 / 67108864

/-- The literal `0.3f`. -/
def float_0_3 : ℚ := 5033165 / 16777216

namespace CA_CFAR

/-- CFAR window: total size, guard cells on each side of the cell under test, threshold. -/
structure Window where
  size : ℕ
  guard_cells : ℕ
  threshold_delta : ℚ
deriving DecidableEq, Repr

/-- Source: `Window::force_odd`, `(sz % 2) != 0 ? sz : sz + 1`, the sum converted back to `Bin`. -/
def force_odd (bits : ℕ) (sz : ℕ) : ℕ :=
  if sz % 2 ≠ 0 then sz else (sz + 1) % 2 ^ bits

/-- Source: `Window::resize`. -/
def Window.resize (bits : ℕ) (w : Window) : Window :=
  let min_training_cells : ℕ := 1
  let min_window_sz : ℕ := ((2 * w.guard_cells) + (2 * min_training_cells) + 1) % 2 ^ bits
  let adj_sz : ℕ := force_odd bits w.size
  { w with size := max adj_sz min_window_sz }

/-- Source: `Window(window_sz, num_guard_cells)`; the threshold keeps its default `0.0_dB`. -/
def Window.create (bits : ℕ) (window_sz num_guard_cells : ℕ) : Window :=
  Window.resize bits { size := window_sz, guard_cells := num_guard_cells, threshold_delta := 0 }

/-- Source: `Window(window_sz, num_guard_cells, delta)`. -/
def Window.create_delta (bits : ℕ) (window_sz num_guard_cells : ℕ) (delta : ℚ) : Window :=
  Window.resize bits { size := window_sz, guard_cells := num_guard_cells, threshold_delta := delta }

/-- Range of bins to process, `start <= bin < end`. -/
structure Range where
  start : ℕ
  end_ : ℕ
deriving DecidableEq, Repr

/-- Source: `Range(first, last)`, which swaps so that `start <= end`. -/
def Range.create (first last : ℕ) : Range :=
  { start := min first last, end_ := max first last }

/-- Source: `Range(last)`. -/
def Range.upto (last : ℕ) : Range :=
  { start := 0, end_ := last }

/-- Source: `Range(std::size_t last)`, `end { static_cast<Unit::Bin>(last) }`. -/
def Range.upto_size (bits : ℕ) (last : ℕ) : Range :=
  { start := 0, end_ := last % 2 ^ bits }

/-- Source: `Range::size`, `static_cast<std::size_t>(end - start)`: the difference when
`start <= end`, and the wrapped value of a negative difference in a 64-bit `size_t`
otherwise. -/
def Range.size (r : Range) : ℕ :=
  if r.start ≤ r.end_ then r.end_ - r.start else 2 ^ 64 - (r.start - r.end_)

/-- Output point. -/
structure Point where
  range : ℚ
  power : ℚ
deriving DecidableEq, Repr

/-- Default bin-to-metre mapping of the source, `b * 0.175238f`. -/
def default_to_metre (b : ℕ) : ℚ := (b : ℚ) * (175238 / 1000000)

/-- Source: `Implementation::Slider_traits<T>`, together with the arithmetic that the two
sliders do on values of type `T`.

* `zero` is `Value_Ty { }`, the initial value handed to `std::accumulate`;
* `add` is one step `init = init + *first` of `std::accumulate`, whose accumulator has the
  type of the initial value, that is `Value_Ty`;
* `sum_dB lower upper` is `static_cast<Unit::dB>(lower_sum + upper_sum)`, both sums having
  been stored in a `Sum_Ty`;
* `to_dB` and `from_dB` are the members of the source;
* `raw_exceeds lower upper elems cell threshold` is lines 485-488 of the source:
  `average = static_cast<Value_Ty>((lower_sum + upper_sum) / elems)` followed by the test
  `cell_value > (average + threshold)`; `none` when the quotient is an integer division
  by zero. -/
structure Slider_traits (V : Type) where
  zero : V
  add : V → V → V
  sum_dB : V → V → ℚ
  to_dB : V → ℚ
  from_dB : ℚ → V
  raw_exceeds : V → V → ℤ → V → V → Option Bool

/-- The primary template at `T = float`: `Value_Ty = Sum_Ty = float`, conversions are casts.
Each sum, the quotient by `elems` (converted to `float`) and `average + threshold` are
`float` operations.  The quotient `0.0f / 0` of the raw slider is NaN and the comparison
with it is false. -/
def float_traits : Slider_traits ℚ where
  zero := 0
  add := fun a b => round_to_float (a + b)
  sum_dB := fun l u => round_to_float (l + u)
  to_dB := fun p => p
  from_dB := fun p => p
  raw_exceeds := fun l u elems cell threshold =>
    if elems = 0 then some false
    else some (decide (cell
      > round_to_float
          (round_to_float (round_to_float (l + u) / round_to_float (elems : ℚ)) + threshold)))

/-- Truncation of a rational toward zero, the value conversion `float` to integer. -/
def trunc (q : ℚ) : ℤ := Int.tdiv q.num (q.den : ℤ)

/-- Source: `Slider_traits<std::uint8_t>`: `Value_Ty = std::uint8_t`, `Sum_Ty = std::uint32_t`,
`to_dB(p) = static_cast<Unit::dB>(p) / 2.0f`, `from_dB(p) = static_cast<std::uint8_t>(p * 2)`.  The accumulator of
`std::accumulate` is a `std::uint8_t`, so each step is reduced modulo 256.  The conversion
of a `float` outside `[0, 256)` is undefined in C++; the model reduces it modulo 256.  In the
raw slider the quotient is a division of integers (`std::uint32_t` by `std::ptrdiff_t`). -/
def uint8_traits : Slider_traits ℕ where
  zero := 0
  add := fun a b => (a + b) % 256
  sum_dB := fun l u => round_to_float (((l + u) % 2 ^ 32 : ℕ) : ℚ)
  to_dB := fun p => round_to_float (round_to_float (p : ℚ) / 2)
  from_dB := fun p => (trunc (round_to_float (p * 2)) % 256).toNat
  raw_exceeds := fun l u elems cell threshold =>
    if elems = 0 then none
    else some (decide (cell > (Int.tdiv (((l + u) % 2 ^ 32 : ℕ) : ℤ) elems % 256).toNat + threshold))

/-- Source: `scale_factor { max_dB / full_scale }`, the `float` quotient `96.5f / 141.5f`,
in `Slider_traits<std::uint16_t>` and in `Unit::FFT_16bit`. -/
def scale_factor : ℚ := round_to_float ((965 / 10) / (1415 / 10))

/-- Source: `Slider_traits<std::uint16_t>`: `Value_Ty = std::uint16_t`, `Sum_Ty = std::uint32_t`,
`to_dB(p) = static_cast<Unit::dB>(p) * scale_factor`,
`from_dB(p) = static_cast<std::uint16_t>(p / scale_factor)`. -/
def uint16_traits : Slider_traits ℕ where
  zero := 0
  add := fun a b => (a + b) % 65536
  sum_dB := fun l u => round_to_float (((l + u) % 2 ^ 32 : ℕ) : ℚ)
  to_dB := fun p => round_to_float (round_to_float (p : ℚ) * scale_factor)
  from_dB := fun p => (trunc (round_to_float (p / scale_factor)) % 65536).toNat
  raw_exceeds := fun l u elems cell threshold =>
    if elems = 0 then none
    else some (decide (cell > (Int.tdiv (((l + u) % 2 ^ 32 : ℕ) : ℤ) elems % 65536).toNat + threshold))

/-- Source: `std::accumulate(first, last, init)` over the cells `first, ..., last - 1` of the
memory, the accumulator having the type of `init`.  (`first <= last` at every call.) -/
def accumulate {V : Type} (plus : V → V → V) (mem : ℤ → V) (first last : ℤ) (init : V) : V :=
  (List.range (last - first).toNat).foldl
    (fun (acc : V) (k : ℕ) => plus acc (mem (first + (k : ℤ)))) init

/-- The four iterators of `process_cell` after the edge handling (lines 365-392). -/
structure Training_bounds where
  lower_begin : ℤ
  lower_end : ℤ
  upper_begin : ℤ
  upper_end : ℤ
deriving DecidableEq, Repr

/-- Source: lines 365-392 of `Window_slider::process_cell` (the same lines open
`Raw_window_slider::process_cell`), each assignment given a fresh name. -/
def training_bounds (window : Window) (range_start range_end elem_ptr : ℤ) : Training_bounds :=
  let lower_begin0 : ℤ := elem_ptr - ((window.size / 2 : ℕ) : ℤ)
  let lower_end0 : ℤ := elem_ptr - (window.guard_cells : ℤ)
  let upper_begin0 : ℤ := elem_ptr + (window.guard_cells : ℤ) + 1
  let upper_end0 : ℤ := elem_ptr + ((window.size / 2 : ℕ) : ℤ) + 1
  -- if (lower_begin < range_start)
  let lower_begin1 : ℤ := if lower_begin0 < range_start then range_start else lower_begin0
  let upper_end1 : ℤ :=
    if lower_begin0 < range_start then range_start + (window.size : ℤ) else upper_end0
  -- if (upper_end > range_end)
  let upper_end2 : ℤ := if upper_end1 > range_end then range_end else upper_end1
  let lower_begin2 : ℤ :=
    if upper_end1 > range_end then range_end - (window.size : ℤ) else lower_begin1
  -- if (lower_end < range_start)
  let lower_end1 : ℤ := if lower_end0 < range_start then range_start else lower_end0
  -- if (lower_begin > lower_end)
  let lower_begin3 : ℤ := if lower_begin2 > lower_end1 then lower_end1 else lower_begin2
  -- if (upper_begin > upper_end)
  let upper_begin1 : ℤ := if upper_begin0 > upper_end2 then upper_end2 else upper_begin0
  { lower_begin := lower_begin3, lower_end := lower_end1,
    upper_begin := upper_begin1, upper_end := upper_end2 }

/-- Number of training cells, `elems` of the source. -/
def Training_bounds.elems (b : Training_bounds) : ℤ :=
  (b.lower_end - b.lower_begin) + (b.upper_end - b.upper_begin)

/-- State of a `Window_slider`. -/
structure Window_slider where
  window : Window
  range_start : ℤ
  range_end : ℤ
  threshold_exceeded_count : ℕ
deriving DecidableEq, Repr

/-- Source: the constructor `Window_slider(window_defn, min_bin, max_bin)`. -/
def Window_slider.create (window_defn : Window) (min_bin max_bin : ℤ) : Window_slider :=
  { window := window_defn, range_start := min_bin, range_end := max_bin,
    threshold_exceeded_count := 0 }

/-- Source: `Window_slider::process_cell`.  Returns the pair of the source and the slider
after the call.  The average is the `float` quotient of the sum by `elems` (converted to
`float`), and it is compared after the `float` addition of the threshold.  With no training
cell both sums are `Value_Ty { }`, the average is the NaN of `0 / 0`, and the comparison is
false. -/
def Window_slider.process_cell {V : Type} (T : Slider_traits V) (mem : ℤ → V)
    (s : Window_slider) (elem_ptr : ℤ) : (ℚ × ℕ) × Window_slider :=
  let b := training_bounds s.window s.range_start s.range_end elem_ptr
  let lower_sum := accumulate T.add mem b.lower_begin b.lower_end T.zero
  let upper_sum := accumulate T.add mem b.upper_begin b.upper_end T.zero
  let elems : ℤ := b.elems
  let cell_value : ℚ := T.to_dB (mem elem_ptr)
  let average : ℚ := round_to_float (T.sum_dB lower_sum upper_sum / round_to_float (elems : ℚ))
  if elems ≠ 0 ∧ cell_value > round_to_float (average + s.window.threshold_delta) then
    ((cell_value, s.threshold_exceeded_count + 1),
      { s with threshold_exceeded_count := s.threshold_exceeded_count + 1 })
  else
    (((0 : ℚ), s.threshold_exceeded_count), s)

/-- State of a `Raw_window_slider`. -/
structure Raw_window_slider (V : Type) where
  window : Window
  range_start : ℤ
  range_end : ℤ
  threshold : V
  threshold_exceeded_count : ℕ

/-- Source: the constructor `Raw_window_slider(window_defn, min_bin, max_bin)`, with the
member initialiser `threshold { Traits::from_dB(window.threshold_delta) }`. -/
def Raw_window_slider.create {V : Type} (T : Slider_traits V) (window_defn : Window)
    (min_bin max_bin : ℤ) : Raw_window_slider V :=
  { window := window_defn, range_start := min_bin, range_end := max_bin,
    threshold := T.from_dB window_defn.threshold_delta, threshold_exceeded_count := 0 }

/-- Source: `Raw_window_slider::process_cell`; `none` when the average is an integer
division by zero. -/
def Raw_window_slider.process_cell {V : Type} (T : Slider_traits V) (mem : ℤ → V)
    (s : Raw_window_slider V) (elem_ptr : ℤ) : Option ((V × ℕ) × Raw_window_slider V) :=
  let b := training_bounds s.window s.range_start s.range_end elem_ptr
  let lower_sum := accumulate T.add mem b.lower_begin b.lower_end T.zero
  let upper_sum := accumulate T.add mem b.upper_begin b.upper_end T.zero
  let elems : ℤ := b.elems
  let cell_value : V := mem elem_ptr
  match T.raw_exceeds lower_sum upper_sum elems cell_value s.threshold with
  | none => none
  | some true =>
      some ((cell_value, s.threshold_exceeded_count + 1),
        { s with threshold_exceeded_count := s.threshold_exceeded_count + 1 })
  | some false => some ((T.zero, s.threshold_exceeded_count), s)

/-- The loop of `first_n_points`, `for (Bin bin { range.start }; bin < range.end; ++bin)`,
with `todo` iterations left. -/
def first_n_points_loop {V : Type} (T : Slider_traits V) (mem : ℤ → V) (max_points : ℕ)
    (to_metre : ℕ → ℚ) : Window_slider → ℕ → ℕ → List Point
  | _, _, 0 => []
  | slider, bin, todo + 1 =>
    let r := slider.process_cell T mem (bin : ℤ)
    let power := r.1.1
    let count := r.1.2
    let emitted : List Point := if power > 0 then [{ range := to_metre bin, power := power }] else []
    if count = max_points then emitted
    else emitted ++ first_n_points_loop T mem max_points to_metre r.2 (bin + 1) todo

/-- Source: `first_n_points(data, range, window, max_points, to_metre)`; `mem` is the memory
seen from `data`. -/
def first_n_points {V : Type} (T : Slider_traits V) (mem : ℤ → V) (range : Range)
    (window : Window) (max_points : ℕ) (to_metre : ℕ → ℚ) : List Point :=
  first_n_points_loop T mem max_points to_metre
    (Window_slider.create window (range.start : ℤ) (range.end_ : ℤ))
    range.start (range.end_ - range.start)

/-- Source: `points(data, range, window, to_metre)`. -/
def points {V : Type} (T : Slider_traits V) (mem : ℤ → V) (range : Range)
    (window : Window) (to_metre : ℕ → ℚ) : List Point :=
  first_n_points T mem range window range.size to_metre

/-- The loop of `process`, `for (auto itr { first }; itr != last; ++itr)`. -/
def process_loop {V : Type} (T : Slider_traits V) (mem : ℤ → V) :
    Window_slider → ℤ → ℕ → List ℚ
  | _, _, 0 => []
  | slider, itr, todo + 1 =>
    let r := slider.process_cell T mem itr
    r.1.1 :: process_loop T mem r.2 (itr + 1) todo

/-- Source: `process(first, last, window)` for a valid iterator range `first <= last`. -/
def process {V : Type} (T : Slider_traits V) (mem : ℤ → V) (first last : ℤ)
    (window : Window) : List ℚ :=
  process_loop T mem (Window_slider.create window first last) first (last - first).toNat

/-- The loop of `process_as_raw`. -/
def process_as_raw_loop {V : Type} (T : Slider_traits V) (mem : ℤ → V) :
    Raw_window_slider V → ℤ → ℕ → Option (List V)
  | _, _, 0 => some []
  | slider, itr, todo + 1 =>
    match slider.process_cell T mem itr with
    | none => none
    | some r =>
      match process_as_raw_loop T mem r.2 (itr + 1) todo with
      | none => none
      | some rest => some (r.1.1 :: rest)

/-- Source: `process_as_raw(first, last, window)` for a valid iterator range. -/
def process_as_raw {V : Type} (T : Slider_traits V) (mem : ℤ → V) (first last : ℤ)
    (window : Window) : Option (List V) :=
  process_as_raw_loop T mem (Raw_window_slider.create T window first last) first
    (last - first).toNat

/-- The memory seen from `vec.begin()`: the elements of the vector at offsets
`0 .. vec.size() - 1`, and whatever lies around the vector (`outside`) elsewhere. -/
def vector_memory {V : Type} (vec : List V) (outside : ℤ → V) : ℤ → V :=
  fun i => if i < 0 then outside i else vec.getD i.toNat (outside i)

/-- Source: `process(vec, window)`, that is `process(vec.begin(), vec.end(), window)`. -/
def process_vector {V : Type} (T : Slider_traits V) (vec : List V) (outside : ℤ → V)
    (window : Window) : List ℚ :=
  process T (vector_memory vec outside) 0 (vec.length : ℤ) window

/-- Source: `process_as_raw(vec, window)`. -/
def process_as_raw_vector {V : Type} (T : Slider_traits V) (vec : List V) (outside : ℤ → V)
    (window : Window) : Option (List V) :=
  process_as_raw T (vector_memory vec outside) 0 (vec.length : ℤ) window

/-- Source: `points(data, window, to_metre)` on a whole vector:
`first_n_points(data.begin(), Range { data.size() }, window, data.size(), to_metre)`. -/
def points_vector {V : Type} (T : Slider_traits V) (bits : ℕ) (vec : List V) (outside : ℤ → V)
    (window : Window) (to_metre : ℕ → ℚ) : List Point :=
  first_n_points T (vector_memory vec outside) (Range.upto_size bits vec.length) window
    vec.length to_metre

/-- The level that `process_cell` returns for a cell; it does not depend on the count of the
slider. -/
def cell_power {V : Type} (T : Slider_traits V) (mem : ℤ → V) (window : Window)
    (range_start range_end elem_ptr : ℤ) : ℚ :=
  ((Window_slider.create window range_start range_end).process_cell T mem elem_ptr).1.1

/-- The test of `process_cell`, `cell_value > (average + window.threshold_delta)`, false
when there is no training cell (the average is then NaN). -/
def cell_exceeds {V : Type} (T : Slider_traits V) (mem : ℤ → V) (window : Window)
    (range_start range_end elem_ptr : ℤ) : Prop :=
  (training_bounds window range_start range_end elem_ptr).elems ≠ 0
    ∧ T.to_dB (mem elem_ptr)
      > round_to_float
          (round_to_float
            (T.sum_dB
                (accumulate T.add mem
                  (training_bounds window range_start range_end elem_ptr).lower_begin
                  (training_bounds window range_start range_end elem_ptr).lower_end T.zero)
                (accumulate T.add mem
                  (training_bounds window range_start range_end elem_ptr).upper_begin
                  (training_bounds window range_start range_end elem_ptr).upper_end T.zero)
              / round_to_float
                  (((training_bounds window range_start range_end elem_ptr).elems : ℤ) : ℚ))
            + window.threshold_delta)

instance cell_exceeds_decidable {V : Type} (T : Slider_traits V) (mem : ℤ → V) (window : Window)
    (range_start range_end elem_ptr : ℤ) :
    Decidable (cell_exceeds T mem window range_start range_end elem_ptr) := by
  unfold cell_exceeds
  exact inferInstance

/-- The point that `first_n_points` emits for a bin, if any. -/
def cell_point {V : Type} (T : Slider_traits V) (mem : ℤ → V) (window : Window)
    (range_start range_end : ℤ) (to_metre : ℕ → ℚ) (bin : ℕ) : Option Point :=
  if cell_power T mem window range_start range_end (bin : ℤ) > 0 then
    some { range := to_metre bin,
           power := cell_power T mem window range_start range_end (bin : ℤ) }
  else none

/-! ## The detection rule in the words of the specification -/

/-- Specification: first cell of the `S`-wide window around cell `i` of a sequence of `n`
cells, the centred window `[i - S/2, i + S/2]` shifted by the least amount that keeps it
inside `[0, n)`. -/
def spec_window_start (S n i : ℕ) : ℤ :=
  min (max ((i : ℤ) - ((S / 2 : ℕ) : ℤ)) 0) ((n : ℤ) - (S : ℤ))

/-- Specification: the training cells of `i`, the cells of the window that are neither `i`
itself nor within `G` positions of `i`. -/
def spec_training_cells (S G n i : ℕ) : Finset ℤ :=
  (Finset.Ico (spec_window_start S n i) (spec_window_start S n i + (S : ℤ))).filter
    (fun j => j ≠ (i : ℤ) ∧ ¬ ((i : ℤ) - (G : ℤ) ≤ j ∧ j ≤ (i : ℤ) + (G : ℤ)))

/-- Specification: `A = (sum of training cells) / |training cells|`. -/
def spec_average (x : List ℚ) (S G i : ℕ) : ℚ :=
  (∑ j in spec_training_cells S G x.length i, x.getD j.toNat 0)
    / ((spec_training_cells S G x.length i).card : ℚ)

/-- Specification: the cell passes if `cell_value > A + delta`, otherwise it is zeroed. -/
def spec_process_cell (x : List ℚ) (w : Window) (i : ℕ) : ℚ :=
  if x.getD i 0 > spec_average x w.size w.guard_cells i + w.threshold_delta then x.getD i 0 else 0

/-- The training cells of `i` that lie below `i`, in index order. -/
def spec_training_below (S G n i : ℕ) : List ℕ :=
  (List.range n).filter (fun j => decide ((j : ℤ) ∈ spec_training_cells S G n i ∧ j < i))

/-- The training cells of `i` that lie above `i`, in index order. -/
def spec_training_above (S G n i : ℕ) : List ℕ :=
  (List.range n).filter (fun j => decide ((j : ℤ) ∈ spec_training_cells S G n i ∧ i < j))

/-- The `float` sum of the cells of a list: from `0.0f` on, the cells are added one by one
in the order of the list, each sum being rounded. -/
def float_sum (x : List ℚ) (cells : List ℕ) : ℚ :=
  cells.foldl (fun acc j => round_to_float (acc + x.getD j 0)) 0

/-- The mean of the training cells in `float` arithmetic: the `float` sum of the training
cells below `i`, the `float` sum of those above `i`, their `float` sum, and its `float`
quotient by the number of training cells. -/
def spec_float_average (x : List ℚ) (S G i : ℕ) : ℚ :=
  round_to_float
    (round_to_float
        (float_sum x (spec_training_below S G x.length i)
          + float_sum x (spec_training_above S G x.length i))
      / round_to_float ((spec_training_cells S G x.length i).card : ℚ))

/-- The detection rule in `float` arithmetic: the cell passes if it is greater than the
`float` sum of the `float` mean and the threshold, otherwise it is zeroed. -/
def spec_float_process_cell (x : List ℚ) (w : Window) (i : ℕ) : ℚ :=
  if x.getD i 0 > round_to_float (spec_float_average x w.size w.guard_cells i + w.threshold_delta)
  then x.getD i 0 else 0

/-! ## Concrete inputs, from the unit tests (unittests/given_a_cfar_algorithm.cpp) and smaller -/

/-- Three `float` cells, `0.3f` between two cells of `0.1f`. -/
def tenth_spike_input : List ℚ := [float_0_1, float_0_3, float_0_1]

/-- Three `float` cells, `0.3f` before two cells of `0.1f`. -/
def tenth_edge_input : List ℚ := [float_0_3, float_0_1, float_0_1]

/-- Input of the test `Spike`: a level of 10 with a spike of 90 at bin 15. -/
def spike_input : List ℚ := List.replicate 15 10 ++ [90] ++ List.replicate 14 10

/-- Input of the test `TestWith8bitData`, the same spike in 8-bit counts. -/
def spike_input_8bit : List ℕ := List.replicate 15 10 ++ [90] ++ List.replicate 14 10

/-- The test callback `bins_as_metres`, `static_cast<Metre>(b)`. -/
def bins_as_metres (b : ℕ) : ℚ := (b : ℚ)

/-- A three-cell buffer with a peak in its first cell. -/
def peak_first_input : List ℚ := [90, 10, 10]

/-- A level of -50 dB that starts with a cell of 0 dB and ends with a peak of 90 dB. -/
def late_peak_input : List ℚ := [0, -50, -50, 90]

/-- An 8-bit azimuth of five cells: a level of 200 counts with a cell of 150 counts in the
middle. -/
def loud_level_8bit : List ℕ := [200, 200, 150, 200, 200]

/-- A 16-bit azimuth of five cells: a level of 40000 counts with a cell of 30000 counts in
the middle. -/
def loud_level_16bit : List ℕ := [40000, 40000, 30000, 40000, 40000]

/-- A four-cell buffer: level 10 with a 50 in cell 2, and 0 in cell 0. -/
def quiet_buffer : List ℚ := [0, 10, 50, 10]

/-- The same buffer with a strong return in cell 1. -/
def loud_buffer : List ℚ := [0, 1000, 50, 10]

/-- A level of 10 with a spike of 90 in the last of three cells. -/
def short_spike_input : List ℚ := [10, 10, 90]

/-- A level of -50 dB with a spike of 0 dB in the last of three cells. -/
def zero_spike_input : List ℚ := [-50, -50, 0]

/-- A level of -50 dB with a spike of 0 dB in the first of three cells. -/
def zero_edge_input : List ℚ := [0, -50, -50]

/-- An 8-bit spike of 75 counts between two cells of 10 counts. -/
def strong_spike_input_8bit : List ℕ := [10, 75, 10]

/-- An 8-bit azimuth of 30 cells that all hold the count 200 (100 dB). -/
def constant_200_input : List ℕ := List.replicate 30 200

/-- An 8-bit azimuth: a level of 10 counts with a spike of 50 counts at bin 15. -/
def weak_spike_input_8bit : List ℕ := List.replicate 15 10 ++ [50] ++ List.replicate 14 10

end CA_CFAR

/-! ## Radar feature bitmap (network/protocols/Colossus/UDP/messages/Radar_features.h)

The constructor from a word and `to_uint32` go through a union of the bit-field structure
and a `std::uint32_t`.  The bit-fields are allocated in declaration order starting at the
least significant bit of the word, which is the layout that the unit tests
(unittests/given_radar_features.cpp) rely on.  The 17 unnamed bits are not represented: only
words below `2 ^ 15` are carried through a `Radar_features` unchanged. -/

/-- Source: `struct Radar_features`; a bit-field of width 1 is a `Fin 2`, of width 2 a
`Fin 4`. -/
structure Radar_features where
  auto_tune : Fin 2
  secondary_processing_module : Fin 2
  non_contour_data : Fin 2
  contour_map_defined : Fin 2
  sector_blanking : Fin 2
  fft_protocol : Fin 4
  low_precision_output : Fin 2
  high_precision_output : Fin 2
  point_data_output : Fin 4
  modbus_mode : Fin 4
  motor_enabled : Fin 2
  safeguard_enabled : Fin 2
deriving DecidableEq, Repr

/-- Source: `enum Point_data { none, ca_cfar, nav_mode }`. -/
def Radar_features.Point_data.nav_mode : ℕ := 2

/-- Source: `enum Point_data { none, ca_cfar, nav_mode }`. -/
def Radar_features.Point_data.ca_cfar : ℕ := 1

/-- Source: `enum Protocol { undefined, colossus, cat_240 }`. -/
def Radar_features.Protocol.colossus : ℕ := 1

/-- Source: `enum Protocol { undefined, colossus, cat_240 }`. -/
def Radar_features.Protocol.cat_240 : ℕ := 2

/-- Source: `enum Modbus_mode { disabled, master, slave, relay }`. -/
def Radar_features.Modbus_mode.disabled : ℕ := 0

/-- Source: `enum Modbus_mode { disabled, master, slave, relay }`. -/
def Radar_features.Modbus_mode.master : ℕ := 1

/-- The next bit-field of `width` bits of a word: its low `width` bits. -/
def take_bits (width word : ℕ) : Fin (2 ^ width) :=
  ⟨word % 2 ^ width, Nat.mod_lt _ (Nat.pos_pow_of_pos width (by decide))⟩

/-- The word that is left once a bit-field of `width` bits has been taken. -/
def drop_bits (width word : ℕ) : ℕ := word / 2 ^ width

/-- Source: `Radar_features(std::uint32_t init)`: the word is read through the union, each
bit-field taking the next bits of the word in declaration order. -/
def Radar_features.of_uint32 (init : ℕ) : Radar_features :=
  let w0 := init % 2 ^ 32
  let w1 := drop_bits 1 w0
  let w2 := drop_bits 1 w1
  let w3 := drop_bits 1 w2
  let w4 := drop_bits 1 w3
  let w5 := drop_bits 1 w4
  let w6 := drop_bits 2 w5
  let w7 := drop_bits 1 w6
  let w8 := drop_bits 1 w7
  let w9 := drop_bits 2 w8
  let w10 := drop_bits 2 w9
  let w11 := drop_bits 1 w10
  { auto_tune := take_bits 1 w0
    secondary_processing_module := take_bits 1 w1
    non_contour_data := take_bits 1 w2
    contour_map_defined := take_bits 1 w3
    sector_blanking := take_bits 1 w4
    fft_protocol := take_bits 2 w5
    low_precision_output := take_bits 1 w6
    high_precision_output := take_bits 1 w7
    point_data_output := take_bits 2 w8
    modbus_mode := take_bits 2 w9
    motor_enabled := take_bits 1 w10
    safeguard_enabled := take_bits 1 w11 }

/-- A bit-field of `width` bits put below the bits of `rest`. -/
def put_bits (width : ℕ) (field : Fin (2 ^ width)) (rest : ℕ) : ℕ :=
  field.val + 2 ^ width * rest

/-- Source: `Radar_features::to_uint32`: the word of a zeroed union into which the
structure has been copied. -/
def Radar_features.to_uint32 (r : Radar_features) : ℕ :=
  put_bits 1 r.auto_tune
  (put_bits 1 r.secondary_processing_module
  (put_bits 1 r.non_contour_data
  (put_bits 1 r.contour_map_defined
  (put_bits 1 r.sector_blanking
  (put_bits 2 r.fft_protocol
  (put_bits 1 r.low_precision_output
  (put_bits 1 r.high_precision_output
  (put_bits 2 r.point_data_output
  (put_bits 2 r.modbus_mode
  (put_bits 1 r.motor_enabled
  (put_bits 1 r.safeguard_enabled 0)))))))))))

/-- Source: `Radar_features features { }`, every bit zero. -/
def Radar_features.zeroed : Radar_features :=
  { auto_tune := 0, secondary_processing_module := 0, non_contour_data := 0,
    contour_map_defined := 0, sector_blanking := 0, fft_protocol := 0,
    low_precision_output := 0, high_precision_output := 0, point_data_output := 0,
    modbus_mode := 0, motor_enabled := 0, safeguard_enabled := 0 }

/-- Source: an assignment `features.auto_tune = v` to the bit-field, which keeps the low bit
of `v`. -/
def Radar_features.set_auto_tune (r : Radar_features) (v : ℕ) : Radar_features :=
  { r with auto_tune := take_bits 1 v }

/-- Source: an assignment `features.contour_map_defined = v`. -/
def Radar_features.set_contour_map_defined (r : Radar_features) (v : ℕ) : Radar_features :=
  { r with contour_map_defined := take_bits 1 v }

/-- Source: an assignment `features.sector_blanking = v`. -/
def Radar_features.set_sector_blanking (r : Radar_features) (v : ℕ) : Radar_features :=
  { r with sector_blanking := take_bits 1 v }

/-- Source: an assignment `features.fft_protocol = v`, which keeps the two low bits of `v`. -/
def Radar_features.set_fft_protocol (r : Radar_features) (v : ℕ) : Radar_features :=
  { r with fft_protocol := take_bits 2 v }

/-- Source: an assignment `features.modbus_mode = v`. -/
def Radar_features.set_modbus_mode (r : Radar_features) (v : ℕ) : Radar_features :=
  { r with modbus_mode := take_bits 2 v }

/-- What a call does: it returns a value, or it runs a loop that never ends, or it reads or
writes outside an array, or it divides by zero (the `float` result is then an infinity or a
NaN). -/
inductive Outcome (α : Type) where
  | returns (a : α)
  | loops_forever
  | out_of_bounds
  | not_finite
deriving DecidableEq, Repr

/-- Sequencing of calls: the first fault ends the computation. -/
def Outcome.bind {α β : Type} (o : Outcome α) (f : α → Outcome β) : Outcome β :=
  match o with
  | Outcome.returns a => f a
  | Outcome.loops_forever => Outcome.loops_forever
  | Outcome.out_of_bounds => Outcome.out_of_bounds
  | Outcome.not_finite => Outcome.not_finite

/-- The value of a call, with the fault kept. -/
def Outcome.map {α β : Type} (f : α → β) (o : Outcome α) : Outcome β :=
  o.bind (fun a => Outcome.returns (f a))

namespace Utility

/-! ## Fixed-point numbers (utility/math/Fixed_point.h) -/

/-- Source: `Fixed<bits, dec_places>`, an unsigned integer of `bits` bits of which the low
`dec_places` bits are the fraction. -/
structure Fixed (bits dec_places : ℕ) where
  value : ℕ
deriving DecidableEq, Repr

/-- Source: `Fixed::from_raw(Type src)`. -/
def Fixed.from_raw (bits dec_places : ℕ) (src : ℕ) : Fixed bits dec_places :=
  { value := src % 2 ^ bits }

/-- Source: `Fixed::to_float`, `static_cast<float>(value) / (1 << dec_places)`. -/
def Fixed.to_float {bits dec_places : ℕ} (f : Fixed bits dec_places) : ℚ :=
  round_to_float (round_to_float (f.value : ℚ) / ((2 ^ dec_places : ℕ) : ℚ))

/-- Source: `Fixed::raw`. -/
def Fixed.raw {bits dec_places : ℕ} (f : Fixed bits dec_places) : ℕ := f.value

end Utility

namespace Unit

/-! ## FFT quanta (utility/units/FFT_types.h) -/

/-- Source: `class FFT_8bit`, a `Fixed<8, 1>`. -/
structure FFT_8bit where
  value : Utility.Fixed 8 1
deriving DecidableEq, Repr

/-- Source: `FFT_8bit(std::uint8_t data)`. -/
def FFT_8bit.create (data : ℕ) : FFT_8bit := { value := Utility.Fixed.from_raw 8 1 data }

/-- Source: `FFT_8bit::to_dB`. -/
def FFT_8bit.to_dB (f : FFT_8bit) : ℚ := f.value.to_float

/-- Source: `class FFT_16bit`, a `Fixed<16, 8>`. -/
structure FFT_16bit where
  value : Utility.Fixed 16 8
deriving DecidableEq, Repr

/-- Source: `FFT_16bit(std::uint16_t data)`. -/
def FFT_16bit.create (data : ℕ) : FFT_16bit := { value := Utility.Fixed.from_raw 16 8 data }

/-- Source: `FFT_16bit::full_scale`. -/
def FFT_16bit.full_scale : ℚ := 1415 / 10

/-- Source: `FFT_16bit::max_dB`. -/
def FFT_16bit.max_dB : ℚ := 965 / 10

/-- Source: `FFT_16bit::scale_factor`, the `float` quotient `max_dB / full_scale`. -/
def FFT_16bit.scale_factor : ℚ := round_to_float (FFT_16bit.max_dB / FFT_16bit.full_scale)

/-- Source: `FFT_16bit::to_dB`, `static_cast<dB>(value.to_float() * scale_factor)`. -/
def FFT_16bit.to_dB (f : FFT_16bit) : ℚ :=
  round_to_float (f.value.to_float * FFT_16bit.scale_factor)

end Unit

namespace Navigation

/-! ## FFT buffer (navigation/FFT_Buffer.cpp)

`Buffer_mode.h` is not among the sources; the enumerators are those that FFT_Buffer.cpp
names.  The library functions `std::pow(10.0f, .)` and `std::log10` of the averaging are
parameters `exp10` and `log10` of the model. -/

/-- Buffering modes. -/
inductive Buffer_mode where
  | off
  | average
  | max
deriving DecidableEq, Repr

/-- Source: the data members `mode`, `samples` and `buffered_data` of `FFT_Buffer`. -/
structure FFT_Buffer where
  mode : Buffer_mode
  samples : ℕ
  buffered_data : List (List ℚ)
deriving DecidableEq, Repr

/-- Source: `FFT_Buffer(Buffer_mode mode, std::size_t sample_sz)`. -/
def FFT_Buffer.create (buffer_mode : Buffer_mode) (sample_sz : ℕ) : FFT_Buffer :=
  { mode := buffer_mode, samples := sample_sz, buffered_data := [] }

/-- The loops over the bins count with a `std::uint16_t bin` up to `fft_data.size()` and
read `azimuth[bin]` of every buffered spoke: a buffered spoke that is shorter than the bins
visited is read outside its bounds, and a spoke of 65536 bins or more is never finished,
the counter wrapping to 0. -/
def bin_loop_fault {α : Type} (size : ℕ) (buffered : List (List ℚ)) : Option (Outcome α) :=
  if buffered.any (fun azimuth => decide (azimuth.length < min size 65536)) then
    some Outcome.out_of_bounds
  else if 65536 ≤ size then some Outcome.loops_forever
  else none

/-- Source: lines 97-102 of `buffer_data`, the averaged value of one bin. -/
def average_bin (exp10 log10 : ℚ → ℚ) (buffered : List (List ℚ)) (bin : ℕ) : ℚ :=
  let total : ℚ :=
    buffered.foldl (fun (total : ℚ) (azimuth : List ℚ) =>
      total + exp10 ((azimuth.getD bin 0 / 2) / 10)) 0
  log10 (total / (buffered.length : ℚ)) * 10

/-- Source: lines 113-116 of `buffer_data`, the scan of the buffered spokes at one bin,
which raises the running `max`. -/
def max_scan (buffered : List (List ℚ)) (bin : ℕ) (max : ℚ) : ℚ :=
  buffered.foldl (fun (max : ℚ) (azimuth : List ℚ) =>
    if azimuth.getD bin 0 / 2 > max then azimuth.getD bin 0 / 2 else max) max

/-- Source: lines 112-118 of `buffer_data`, the loop over the bins of the max mode; `max`
is declared before the loop and carried from bin to bin. -/
def max_loop (buffered : List (List ℚ)) : ℕ → ℕ → ℚ → List ℚ
  | _, 0, _ => []
  | bin, todo + 1, max =>
    max_scan buffered bin max :: max_loop buffered (bin + 1) todo (max_scan buffered bin max)

/-- Source: `FFT_Buffer::buffer_data`.  The result is the returned `std::optional` and the
buffer after the call. -/
def FFT_Buffer.buffer_data (exp10 log10 : ℚ → ℚ) (b : FFT_Buffer) (fft_data : List ℚ) :
    Outcome (Option (List ℚ) × FFT_Buffer) :=
  match b.mode with
  | Buffer_mode.off => Outcome.returns (some fft_data, b)
  | Buffer_mode.average =>
    if (b.buffered_data ++ [fft_data]).length < b.samples then
      Outcome.returns (none, { b with buffered_data := b.buffered_data ++ [fft_data] })
    else
      match bin_loop_fault fft_data.length (b.buffered_data ++ [fft_data]) with
      | some fault => fault
      | none =>
        Outcome.returns
          (some ((List.range fft_data.length).map
              (average_bin exp10 log10 (b.buffered_data ++ [fft_data]))),
            { b with buffered_data := [] })
  | Buffer_mode.max =>
    match bin_loop_fault fft_data.length b.buffered_data with
    | some fault => fault
    | none => Outcome.returns (some (max_loop b.buffered_data 0 fft_data.length 0), b)

/-- Source: `FFT_Buffer::process_fft(const std::vector<float>&)`. -/
def FFT_Buffer.process_fft (exp10 log10 : ℚ → ℚ) (b : FFT_Buffer) (fft_data : List ℚ) :
    Outcome (Option (List ℚ) × FFT_Buffer) :=
  b.buffer_data exp10 log10 fft_data

/-- Source: `FFT_Buffer::default_conversion`, `f * 0.5f` for every byte. -/
def default_conversion (fft_data : List ℕ) : List ℚ :=
  fft_data.map (fun f => (f : ℚ) * (1 / 2))

/-- Source: `FFT_Buffer::process_fft(const std::vector<std::uint8_t>&)` with the default
conversion. -/
def FFT_Buffer.process_fft_bytes (exp10 log10 : ℚ → ℚ) (b : FFT_Buffer) (fft_data : List ℕ) :
    Outcome (Option (List ℚ) × FFT_Buffer) :=
  b.buffer_data exp10 log10 (default_conversion fft_data)

/-- Successive calls of `process_fft`, one for each spoke: the values returned, in order,
and the buffer after the last call. -/
def FFT_Buffer.run (exp10 log10 : ℚ → ℚ) :
    FFT_Buffer → List (List ℚ) → Outcome (List (Option (List ℚ)) × FFT_Buffer)
  | b, [] => Outcome.returns ([], b)
  | b, spoke :: rest =>
    (b.process_fft exp10 log10 spoke).bind (fun r =>
      (FFT_Buffer.run exp10 log10 r.2 rest).bind (fun rs =>
        Outcome.returns (r.1 :: rs.1, rs.2)))

/-! ## Peak finder (navigation/CFAR_Peak_finder.cpp)

An iterator of a range is the index of its cell counted from `begin`; `end` is the length
of the range. -/

/-- Source: `enum class Peak_mode { max, first }`. -/
inductive Peak_mode where
  | max
  | first
deriving DecidableEq, Repr

/-- Source: `std::max_element(begin, end)`: the first of the largest cells, `end` for an
empty range. -/
def max_element (data : List ℚ) : ℕ :=
  if data.length = 0 then data.length
  else
    (List.range (data.length - 1)).foldl
      (fun (largest k : ℕ) => if data.getD largest 0 < data.getD (k + 1) 0 then k + 1 else largest)
      0

/-- Source: `std::find_if(begin, end, [] (float f) { return f > 0.0f; })`, `end` when no
cell is positive. -/
def first_non_zero (data : List ℚ) : ℕ :=
  data.findIdx (fun f => decide (f > 0))

/-- Source: the loop `for (auto itr { first_non_zero }; itr < end - 1; ++itr)` of
`select_peak` with the `return end - 1` that follows it.  The first argument bounds the
number of iterations; the loop ends within `end - first_non_zero` iterations. -/
def rising_loop (data : List ℚ) : ℕ → ℕ → ℕ
  | 0, itr => itr
  | fuel + 1, itr =>
    if itr + 1 < data.length then
      if data.getD (itr + 1) 0 > data.getD itr 0 then rising_loop data fuel (itr + 1)
      else itr
    else data.length - 1

/-- Source: `CFAR_Peak_finder::select_peak(begin, end)`, on the cells of the range. -/
def select_peak (peak_mode : Peak_mode) (data : List ℚ) : ℕ :=
  match peak_mode with
  | Peak_mode.max => max_element data
  | Peak_mode.first =>
    if first_non_zero data = data.length then data.length
    else rising_loop data data.length (first_non_zero data)

/-- A sequence of positive values that rises to an apex at index 3 and falls after it. -/
def apex_input : List ℚ := [1, 3, 7, 12, 9, 4, 2]

/-- Modelled from the spec: `Vector_maths::scalar_sum(in, n, out)`, whose definition
(Vector_maths.h) is not among the sources at hand: `out` is the sum of the first `n`
elements of `in`, as the sums of the quadratic fit require. -/
def Vector_maths.scalar_sum (v : List ℚ) (n : ℕ) : ℚ :=
  ((List.range n).map (fun (i : ℕ) => v.getD i 0)).sum

/-- Modelled from the spec: `Vector_maths::scalar_square(in, n, out)` (Vector_maths.h is not
among the sources at hand): `out` is the sum of the squares of the first `n` elements of
`in`; `peak_resolve` takes it for the sum `Sx2`. -/
def Vector_maths.scalar_square (v : List ℚ) (n : ℕ) : ℚ :=
  ((List.range n).map (fun (i : ℕ) => v.getD i 0 * v.getD i 0)).sum

/-- Modelled from the spec: `Vector_maths::vector_square(in, n, out)` (Vector_maths.h is not
among the sources at hand): `out[i] = in[i] * in[i]` for the first `n` elements. -/
def Vector_maths.vector_square (v : List ℚ) (n : ℕ) : List ℚ :=
  (List.range n).map (fun (i : ℕ) => v.getD i 0 * v.getD i 0)

/-- Modelled from the spec: `Vector_maths::vector_cube(in, n, out)` (Vector_maths.h is not
among the sources at hand): `out[i] = in[i] * in[i] * in[i]` for the first `n` elements. -/
def Vector_maths.vector_cube (v : List ℚ) (n : ℕ) : List ℚ :=
  (List.range n).map (fun (i : ℕ) => v.getD i 0 * v.getD i 0 * v.getD i 0)

/-- Modelled from the spec: `Vector_maths::vector_multiply(a, b, n, out)` (Vector_maths.h is
not among the sources at hand): `out[i] = a[i] * b[i]` for the first `n` elements. -/
def Vector_maths.vector_multiply (u v : List ℚ) (n : ℕ) : List ℚ :=
  (List.range n).map (fun (i : ℕ) => u.getD i 0 * v.getD i 0)

/-- Source: `CFAR_Peak_finder::max_bins_to_operate_on`, the size of the arrays of
`peak_resolve`. -/
def max_bins_to_operate_on : ℕ := 15

/-- The values that the elimination of `peak_resolve` divides by, `A[0]`, `B[1]` and `C[2]`
as they are at the time of the division, and its results `b1` and `b2`. -/
structure Elimination where
  A0 : ℚ
  B1 : ℚ
  C2 : ℚ
  b1 : ℚ
  b2 : ℚ
deriving DecidableEq, Repr

/-- Source: lines 275-301 of `peak_resolve`: the rows `A`, `B`, `C` of the normal equations
and the elimination on them. -/
def eliminate (window_sz Sx Sx2 Sx3 Sx4 Sy Sxy Sx2y : ℚ) : Elimination :=
  let A0 := Sx2
  let A1 := Sx3
  let A2 := Sx4
  let A3 := Sx2y
  let F₁ := window_sz / A0
  let C1 := Sx - F₁ * A1
  let C2 := Sx2 - F₁ * A2
  let C3 := Sy - F₁ * A3
  let F₂ := Sx / A0
  let B1 := Sx2 - F₂ * A1
  let B2 := Sx3 - F₂ * A2
  let B3 := Sxy - F₂ * A3
  let F₃ := C1 / B1
  let C2 := C2 - F₃ * B2
  let C3 := C3 - F₃ * B3
  let b2 := C3 / C2
  let b1 := (B3 - B2 * b2) / B1
  { A0 := A0, B1 := B1, C2 := C2, b1 := b1, b2 := b2 }

/-- Source: `CFAR_Peak_finder::peak_resolve(data, peak_bin, window_sz)`.  The arrays `x`,
`y`, ... of `max_bins_to_operate_on` elements are modelled by their first `window_sz`
elements, the only ones that are read; a window wider than the arrays is written outside
them.  `startBin` is `peak_bin - bins_to_offset`: when it is negative, or when the window
passes the end of `data`, `data` is read outside its bounds.  A division by zero makes the
result an infinity or a NaN. -/
def peak_resolve (data : List ℚ) (peak_bin window_sz : ℕ) : Outcome ℚ :=
  if window_sz = 0 then Outcome.returns (peak_bin : ℚ)
  else
    let window_sz : ℕ := if window_sz ≤ 5 then 5 else window_sz
    let bins_to_offset : ℕ := ((window_sz - 1) / 2) % 256
    if max_bins_to_operate_on < window_sz then Outcome.out_of_bounds
    else
      let x : List ℚ :=
        (List.range window_sz).map
          (fun (index : ℕ) => (((0 - (bins_to_offset : ℤ) + (index : ℤ) : ℤ)) : ℚ))
      let startBin : ℤ := (peak_bin : ℤ) - (bins_to_offset : ℤ)
      if startBin < 0 ∨ (data.length : ℤ) < startBin + (window_sz : ℤ) then
        Outcome.out_of_bounds
      else
        let y : List ℚ :=
          (List.range window_sz).map
            (fun (index : ℕ) => data.getD (startBin + (index : ℤ)).toNat 0)
        let Sx := Vector_maths.scalar_sum x window_sz
        let Sx2 := Vector_maths.scalar_square x window_sz
        let x3 := Vector_maths.vector_cube x window_sz
        let Sx3 := Vector_maths.scalar_sum x3 window_sz
        let x2 := Vector_maths.vector_square x window_sz
        let x4 := Vector_maths.vector_multiply x2 x2 window_sz
        let Sx4 := Vector_maths.scalar_sum x4 window_sz
        let Sy := Vector_maths.scalar_sum y window_sz
        let xy := Vector_maths.vector_multiply x y window_sz
        let Sxy := Vector_maths.scalar_sum xy window_sz
        let x2y := Vector_maths.vector_multiply x2 y window_sz
        let Sx2y := Vector_maths.scalar_sum x2y window_sz
        let fit := eliminate (window_sz : ℚ) Sx Sx2 Sx3 Sx4 Sy Sxy Sx2y
        if fit.A0 = 0 ∨ fit.B1 = 0 ∨ fit.C2 = 0 ∨ fit.b2 = 0 then Outcome.not_finite
        else
          Outcome.returns (-fit.b1 / (2 * fit.b2) + (startBin : ℚ) + (bins_to_offset : ℚ))

/-- The elimination of `peak_resolve` on the window of the `n` cells `s, ..., s + n - 1` of
`data`, the abscissa of the cell `s + i` being `i - off`: the sums that `peak_resolve` takes
over its arrays, written as sums over the indices. -/
def window_elimination (data : List ℚ) (s n off : ℕ) : Elimination :=
  eliminate (n : ℚ)
    (∑ i in Finset.range n, ((i : ℚ) - (off : ℚ)))
    (∑ i in Finset.range n, ((i : ℚ) - (off : ℚ)) * ((i : ℚ) - (off : ℚ)))
    (∑ i in Finset.range n,
      ((i : ℚ) - (off : ℚ)) * ((i : ℚ) - (off : ℚ)) * ((i : ℚ) - (off : ℚ)))
    (∑ i in Finset.range n,
      (((i : ℚ) - (off : ℚ)) * ((i : ℚ) - (off : ℚ)))
        * (((i : ℚ) - (off : ℚ)) * ((i : ℚ) - (off : ℚ))))
    (∑ i in Finset.range n, data.getD (s + i) 0)
    (∑ i in Finset.range n, ((i : ℚ) - (off : ℚ)) * data.getD (s + i) 0)
    (∑ i in Finset.range n,
      (((i : ℚ) - (off : ℚ)) * ((i : ℚ) - (off : ℚ))) * data.getD (s + i) 0)

/-- The sum of the squares of the residuals of the quadratic `y = a + b * x + c * x ^ 2` on
the cells `first, ..., first + n - 1` of `data`, the abscissa of a cell being its index. -/
def spec_residual_sum (data : List ℚ) (first n : ℕ) (a b c : ℚ) : ℚ :=
  ((List.range n).map (fun (i : ℕ) =>
    (data.getD (first + i) 0
      - (a + b * ((first + i : ℕ) : ℚ) + c * ((first + i : ℕ) : ℚ) ^ 2)) ^ 2)).sum

/-- The quadratic `y = a + b * x + c * x ^ 2` is a least-squares fit of the cells
`first, ..., first + n - 1` of `data`: no quadratic has a smaller sum of squared
residuals. -/
def spec_least_squares (data : List ℚ) (first n : ℕ) (a b c : ℚ) : Prop :=
  ∀ a' b' c' : ℚ, spec_residual_sum data first n a b c ≤ spec_residual_sum data first n a' b' c'

/-- The input of the specification's curve-fit scenario. -/
def curve_fit_input : List ℚ := [0, 0, 0, 0, 0, 10, 30, 90, 30, 10, 0, 0, 0, 0, 0]

/-- A window that is symmetric about its middle cell, the largest one, and on which the
fitted quadratic has no curvature. -/
def flat_fit_input : List ℚ := [5, 4, 6, 4, 5]

/-! ## Targets of the peak finder (navigation/CFAR_Peak_finder.cpp, `send_target`)

The resolved bin that `send_target` receives need not be finite, so the `float` values of
this part carry the infinities and the NaN.  The arithmetic on finite values is exact: no
rounding, no overflow to an infinity. -/

/-- A `float`: a finite value, an infinity with its sign, or a NaN. -/
inductive Float_value where
  | finite (q : ℚ)
  | infinity (negative : Bool)
  | nan
deriving DecidableEq, Repr

/-- Source: `std::isinf`. -/
def Float_value.isinf : Float_value → Bool
  | Float_value.infinity _ => true
  | _ => false

/-- Source: `std::isnan`. -/
def Float_value.isnan : Float_value → Bool
  | Float_value.nan => true
  | _ => false

/-- The product of two `float`s: a NaN gives a NaN, an infinity times zero is a NaN. -/
def Float_value.mul : Float_value → Float_value → Float_value
  | Float_value.nan, _ => Float_value.nan
  | _, Float_value.nan => Float_value.nan
  | Float_value.finite a, Float_value.finite b => Float_value.finite (a * b)
  | Float_value.finite a, Float_value.infinity s =>
    if a = 0 then Float_value.nan else Float_value.infinity (xor s (decide (a < 0)))
  | Float_value.infinity s, Float_value.finite b =>
    if b = 0 then Float_value.nan else Float_value.infinity (xor s (decide (b < 0)))
  | Float_value.infinity s, Float_value.infinity t => Float_value.infinity (xor s t)

/-- The sum of two `float`s: a NaN gives a NaN, as do two infinities of opposite signs. -/
def Float_value.add : Float_value → Float_value → Float_value
  | Float_value.nan, _ => Float_value.nan
  | _, Float_value.nan => Float_value.nan
  | Float_value.finite a, Float_value.finite b => Float_value.finite (a + b)
  | Float_value.finite _, Float_value.infinity s => Float_value.infinity s
  | Float_value.infinity s, Float_value.finite _ => Float_value.infinity s
  | Float_value.infinity s, Float_value.infinity t =>
    if s = t then Float_value.infinity s else Float_value.nan

/-- The comparison `a < b` of two `float`s, false when one of them is a NaN. -/
def Float_value.lt : Float_value → Float_value → Bool
  | Float_value.nan, _ => false
  | _, Float_value.nan => false
  | Float_value.finite a, Float_value.finite b => decide (a < b)
  | Float_value.finite _, Float_value.infinity s => !s
  | Float_value.infinity s, Float_value.finite _ => s
  | Float_value.infinity s, Float_value.infinity t => s && !t

/-- Source: `struct CFAR_Target`. -/
structure CFAR_Target where
  bearing : Float_value
  range : Float_value
deriving DecidableEq, Repr

/-- The members of `CFAR_Peak_finder` that `send_target` uses, after `configure`.
`to_degrees` is the `std::function` member of that name; `has_target_callback` tells whether
`target_callback` holds a function. -/
structure CFAR_Peak_finder where
  range_gain : Float_value
  range_offset : Float_value
  range_resolution : Float_value
  min_range : Float_value
  max_range : Float_value
  to_degrees : Float_value → Float_value
  has_target_callback : Bool

/-- Source: the member `to_metre` as `configure` sets it,
`(b * range_gain * range_resolution) + range_offset`. -/
def CFAR_Peak_finder.to_metre (p : CFAR_Peak_finder) (b : Float_value) : Float_value :=
  ((b.mul p.range_gain).mul p.range_resolution).add p.range_offset

/-- Source: `CFAR_Peak_finder::send_target`: the target that the callback is called with,
or `none` when it is not called. -/
def CFAR_Peak_finder.send_target (p : CFAR_Peak_finder)
    (resolved_bin resolved_azimuth : Float_value) : Option CFAR_Target :=
  let range := p.to_metre resolved_bin
  let bearing := p.to_degrees resolved_azimuth
  if range.isinf || range.lt p.min_range || p.max_range.lt range then none
  else if p.has_target_callback then some { bearing := bearing, range := range }
  else none

/-- A peak finder with the range gain 1, the resolution 0.1752 m, no offset, and the ranges
from 0 to 500 m, with a callback installed. -/
def staring_finder : CFAR_Peak_finder :=
  { range_gain := Float_value.finite 1
    range_offset := Float_value.finite 0
    range_resolution := Float_value.finite (1752 / 10000)
    min_range := Float_value.finite 0
    max_range := Float_value.finite 500
    to_degrees := fun a => a
    has_target_callback := true }

/-! ## The peak finder on a spoke (navigation/CFAR_Peak_finder.cpp, `process_data`) -/

/-- Source: `resized_data.resize(range_in_bins)`: the first `range_in_bins` values of the
CFAR data, zeros being appended to a shorter vector. -/
def resized (cfar_data : List ℚ) (range_in_bins : ℕ) : List ℚ :=
  cfar_data.take range_in_bins ++ List.replicate (range_in_bins - cfar_data.length) 0

/-- Modelled from the spec: `Utility::essentially_equal(f, 0.0f)` (float_equality.h is not
among the sources at hand), the test that a value is zero. -/
def essentially_zero (f : ℚ) : Bool := decide (f = 0)

/-- Source: the loop `while (forward_it < resized_data.end() - 1)` of `process_data`.  The
first argument bounds the number of iterations; the loop ends within `size` iterations. -/
def forward_loop (resized_data : List ℚ) : ℕ → ℕ → ℕ
  | 0, forward_it => forward_it
  | fuel + 1, forward_it =>
    if forward_it + 1 < resized_data.length then
      if resized_data.getD (forward_it + 1) 0 ≤ 0 then forward_it
      else forward_loop resized_data fuel (forward_it + 1)
    else forward_it

/-- Source: the loop `while (reverse_it >= (min_it + 1))` of `process_data`.  The first
argument bounds the number of iterations; the loop ends within `size` iterations. -/
def reverse_loop (resized_data : List ℚ) (min_it : ℕ) : ℕ → ℕ → ℕ
  | 0, reverse_it => reverse_it
  | fuel + 1, reverse_it =>
    if min_it + 1 ≤ reverse_it then
      if resized_data.getD (reverse_it - 1) 0 ≤ 0 then reverse_it
      else reverse_loop resized_data min_it fuel (reverse_it - 1)
    else reverse_it

/-- The iterators of `process_data` before the `switch`, as indices of `resized_data`, and
the two values computed from them. -/
structure Peak_window where
  max_it : ℕ
  forward_it : ℕ
  reverse_it : ℕ
  window_sz : ℕ
  peak_bin : ℕ
deriving DecidableEq, Repr

/-- Source: lines 112-139 of `process_data`.  `select_peak` is called on the range from
`min_it = cbegin() + minimum_bin` to `end()`; its result is dereferenced in the next
statement, outside the vector when it is `end()`. -/
def peak_window (peak_mode : Peak_mode) (cfar_data : List ℚ) (range_in_bins minimum_bin : ℕ) :
    Outcome Peak_window :=
  let resized_data := resized cfar_data range_in_bins
  let max_it : ℕ := minimum_bin + select_peak peak_mode (resized_data.drop minimum_bin)
  if resized_data.length ≤ max_it then Outcome.out_of_bounds
  else
    let forward_it := forward_loop resized_data resized_data.length max_it
    let reverse_it := reverse_loop resized_data minimum_bin resized_data.length max_it
    Outcome.returns
      { max_it := max_it, forward_it := forward_it, reverse_it := reverse_it,
        window_sz := forward_it - reverse_it, peak_bin := max_it }

/-- Source: `process_data` in the mode `Subresolution_mode::curve_fit`: the resolved bin
that is handed to `send_target`, `none` when the spoke is left by the early `return`. -/
def process_data_curve_fit (peak_mode : Peak_mode) (cfar_data : List ℚ)
    (range_in_bins minimum_bin : ℕ) : Outcome (Option ℚ) :=
  (peak_window peak_mode cfar_data range_in_bins minimum_bin).bind (fun w =>
    if essentially_zero ((resized cfar_data range_in_bins).getD w.max_it 0) then
      Outcome.returns none
    else
      (peak_resolve (resized cfar_data range_in_bins) w.peak_bin w.window_sz).map some)

/-- Source: `process_data` in the mode `Subresolution_mode::centre_of_mass`: the indices
`window_start` and `window_end` of the window handed to `Utility::centre_of_mass`, `none`
when the spoke is left by the early `return`. -/
def centre_of_mass_window (peak_mode : Peak_mode) (cfar_data : List ℚ)
    (range_in_bins minimum_bin : ℕ) : Outcome (Option (ℕ × ℕ)) :=
  (peak_window peak_mode cfar_data range_in_bins minimum_bin).bind (fun w =>
    if essentially_zero ((resized cfar_data range_in_bins).getD w.max_it 0) then
      Outcome.returns none
    else
      let first_bin := w.reverse_it
      let window_start := first_bin
      let window_end := window_start + w.window_sz
      Outcome.returns (some (window_start, window_end)))

/-- Source: line 233 of `peak_resolve`, `window_sz = (window_sz <= 5) ? 5 : window_sz`: the
number of points that are fitted. -/
def fitted_points (window_sz : ℕ) : ℕ := if window_sz ≤ 5 then 5 else window_sz

/-- Modelled from the spec: `cfg_msg.encoder_size()` and `azimuth_samples` are unsigned
integers (the Configuration message is not among the sources at hand), so that the
quotient of `configure`, `static_cast<float>(cfg_msg.encoder_size() / azimuth_samples)`, is
the integer quotient.  The same statement is in `process_config` of the example
applications.  A zero `azimuth_samples` is a division by zero. -/
def configured_steps_per_azimuth (encoder_size azimuth_samples : ℕ) : Outcome ℚ :=
  if azimuth_samples = 0 then Outcome.not_finite
  else Outcome.returns ((encoder_size / azimuth_samples : ℕ) : ℚ)

/-! ## Two-scan accumulation (`process_data`, mode `centre_of_mass_2d`) -/

/-- The members of `CFAR_Peak_finder` that the mode `centre_of_mass_2d` uses: `counter` (a
`std::uint32_t`), `last_azimuth` (a `std::uint16_t`) and `rotation_data`. -/
structure Rotation_store where
  counter : ℕ
  last_azimuth : ℕ
  rotation_data : List (List ℚ)
deriving DecidableEq, Repr

/-- The store after `configure` with `azimuth_samples` azimuths:
`rotation_data.resize(azimuth_samples)`. -/
def Rotation_store.configured (azimuth_samples : ℕ) : Rotation_store :=
  { counter := 0, last_azimuth := 0, rotation_data := List.replicate azimuth_samples [] }

/-- Source: the loop `for (auto i { minimum_bin }; i < resized_data.size(); i++)` that
fills `reduced_points`, with `todo` indices left. -/
def reduced_points_loop (resized_data : List ℚ) (max_peaks : ℕ) :
    ℕ → ℕ → ℕ → List ℚ → List ℚ
  | 0, _, _, reduced_points => reduced_points
  | todo + 1, i, peaks, reduced_points =>
    if essentially_zero (resized_data.getD i 0) then
      reduced_points_loop resized_data max_peaks todo (i + 1) peaks reduced_points
    else if max_peaks ≤ peaks + 1 then reduced_points.set i (resized_data.getD i 0)
    else
      reduced_points_loop resized_data max_peaks todo (i + 1) (peaks + 1)
        (reduced_points.set i (resized_data.getD i 0))

/-- Source: `reduced_points` of `process_data`: the first `max_peaks` non-zero values from
`minimum_bin` on, zeros elsewhere. -/
def reduced_points (resized_data : List ℚ) (minimum_bin max_peaks : ℕ) : List ℚ :=
  reduced_points_loop resized_data max_peaks (resized_data.length - minimum_bin) minimum_bin 0
    (List.replicate resized_data.length 0)

/-- What a call of `process_data` in the mode `centre_of_mass_2d` does besides updating the
members: the rotation data that `find_shapes` is invoked with, if it is invoked, and the
azimuth at which the spoke is stored in `rotation_data`, if it is stored. -/
structure Rotation_event where
  find_shapes : Option (List (List ℚ))
  stored : Option ℕ
deriving DecidableEq, Repr

/-- Source: the case `Subresolution_mode::centre_of_mass_2d` of the `switch` of
`process_data` (lines 157-180).  The store `rotation_data[azi_idx] = reduced_points` is
outside the vector when `azi_idx` is not below its size. -/
def store_rotation (minimum_bin max_peaks : ℕ) (st : Rotation_store) (azi_idx : ℕ)
    (resized_data : List ℚ) : Outcome (Rotation_event × Rotation_store) :=
  let wrapped : Bool := decide (azi_idx < st.last_azimuth)
  let counter : ℕ := if wrapped then (st.counter + 1) % 2 ^ 32 else st.counter
  let find_shapes : Option (List (List ℚ)) :=
    if wrapped ∧ 2 ≤ counter then some st.rotation_data else none
  if 1 ≤ counter then
    if st.rotation_data.length ≤ azi_idx then Outcome.out_of_bounds
    else
      Outcome.returns
        ({ find_shapes := find_shapes, stored := some azi_idx },
          { counter := counter, last_azimuth := azi_idx % 65536,
            rotation_data :=
              st.rotation_data.set azi_idx (reduced_points resized_data minimum_bin max_peaks) })
  else
    Outcome.returns
      ({ find_shapes := find_shapes, stored := none },
        { counter := counter, last_azimuth := azi_idx % 65536,
          rotation_data := st.rotation_data })

/-- Source: `process_data` in the mode `Subresolution_mode::centre_of_mass_2d`: the
statements before the `switch` (lines 110-139), which resize the data, select the peak and
dereference it in every mode, and then the case of the mode (lines 157-180) on the resized
data.  The test of line 120 does not leave the function in this mode. -/
def process_data_2d (peak_mode : Peak_mode) (range_in_bins minimum_bin max_peaks : ℕ)
    (st : Rotation_store) (azi_idx : ℕ) (cfar_data : List ℚ) :
    Outcome (Rotation_event × Rotation_store) :=
  (peak_window peak_mode cfar_data range_in_bins minimum_bin).bind (fun _ =>
    store_rotation minimum_bin max_peaks st azi_idx (resized cfar_data range_in_bins))

/-- Successive calls of `process_data` in the mode `centre_of_mass_2d`, one for each pair of
an azimuth and a spoke: what each call does, in order, and the members after the last
call. -/
def feed_rotations (peak_mode : Peak_mode) (range_in_bins minimum_bin max_peaks : ℕ) :
    Rotation_store → List (ℕ × List ℚ) → Outcome (List Rotation_event × Rotation_store)
  | st, [] => Outcome.returns ([], st)
  | st, call :: rest =>
    (process_data_2d peak_mode range_in_bins minimum_bin max_peaks st call.1 call.2).bind
      (fun r =>
        (feed_rotations peak_mode range_in_bins minimum_bin max_peaks r.2 rest).bind (fun rs =>
          Outcome.returns (r.1 :: rs.1, rs.2)))

/-- Successive cases `centre_of_mass_2d` of the `switch`, one for each pair of an azimuth
and a resized spoke: the calls of `feed_rotations` once the peak of each spoke is
selected. -/
def feed_stores (minimum_bin max_peaks : ℕ) :
    Rotation_store → List (ℕ × List ℚ) → Outcome (List Rotation_event × Rotation_store)
  | st, [] => Outcome.returns ([], st)
  | st, call :: rest =>
    (store_rotation minimum_bin max_peaks st call.1 call.2).bind (fun r =>
      (feed_stores minimum_bin max_peaks r.2 rest).bind (fun rs =>
        Outcome.returns (r.1 :: rs.1, rs.2)))

/-- Specification: the number of azimuth wraps in a sequence of azimuths, a wrap being an
azimuth that is smaller than the one before it; `prev` is the azimuth before the first. -/
def spec_wrap_count (prev : ℕ) : List ℕ → ℕ
  | [] => 0
  | azimuth :: rest => (if azimuth < prev then 1 else 0) + spec_wrap_count azimuth rest

/-- A spoke with a peak of two positive cells at its start. -/
def early_peak_spoke : List ℚ := [5, 9, 0, 0, 0, 0, 0, 0]

/-- A spoke with a run of 17 positive cells. -/
def wide_peak_spoke : List ℚ :=
  [0, 1, 2, 3, 4, 5, 6, 7, 8, 9, 8, 7, 6, 5, 4, 3, 2, 1, 0, 0]

/-- A spoke with a peak that is symmetric about its apex, at bin 3. -/
def symmetric_peak_spoke : List ℚ := [0, 0, 3, 9, 3, 0, 0]

/-- A spoke of 8 cells on which a window of 6 points is fitted around the bin 3. -/
def six_point_spoke : List ℚ := [0, 1, 4, 9, 4, 1, 0, 0]

/-- The same spoke with another value in the cell 6, the sixth point of the window. -/
def six_point_spoke_changed : List ℚ := [0, 1, 4, 9, 4, 1, 5, 0]

end Navigation

namespace Colossus_protocol

/-! ## Colossus TCP server (network/protocols/Colossus/TCP/server/Colossus_TCP_server.cpp) -/

/-- The calls that `Server` makes to the components it owns, the stream server `server` and
the message dispatcher `msg_dispatcher`. -/
inductive Server_call where
  | server_start
  | server_stop
  | msg_dispatcher_start
  | msg_dispatcher_stop
  | msg_dispatcher_join
deriving DecidableEq, Repr

/-- The explicit state of a `Server`: the member `running`, the calls made so far to the
owned components, and the lines written to the system log. -/
structure Server where
  running : Bool
  calls : List Server_call
  log : List String
deriving DecidableEq, Repr

/-- Source: `Server::start`. -/
def Server.start (s : Server) : Server :=
  if s.running then s
  else
    { running := true
      calls := s.calls ++ [Server_call.server_start, Server_call.msg_dispatcher_start]
      log := s.log ++ ["Colossus server - starting..."] }

/-- Source: `Server::stop`. -/
def Server.stop (s : Server) : Server :=
  if !s.running then s
  else
    { running := false
      calls := s.calls ++ [Server_call.msg_dispatcher_stop, Server_call.msg_dispatcher_join,
        Server_call.server_stop]
      log := s.log ++ ["Colossus server - stopping...", "Colossus server - stopped."] }

end Colossus_protocol

namespace Colossus_client

/-! ## Colossus client application (apps/Colossus_client_main.cpp) -/

/-- The function-local statics of `rotated_once` (`has_rotated_once`, `prev`) and of
`completed_full_rotation` (`prev`). -/
structure Rotation_state where
  has_rotated_once : Bool
  rotated_prev : ℕ
  completed_prev : ℕ
deriving DecidableEq, Repr

/-- The statics as they are initialised. -/
def Rotation_state.initial : Rotation_state :=
  { has_rotated_once := false, rotated_prev := 0, completed_prev := 0 }

/-- Source: `rotated_once(azimuth)`: the value returned and the statics after the call. -/
def rotated_once (st : Rotation_state) (azimuth : ℕ) : Bool × Rotation_state :=
  if st.has_rotated_once then (true, st)
  else
    let has_rotated_once : Bool := decide (azimuth < st.rotated_prev)
    (has_rotated_once, { st with has_rotated_once := has_rotated_once, rotated_prev := azimuth })

/-- Source: `completed_full_rotation(azimuth)`: the value returned and the statics after
the call. -/
def completed_full_rotation (st : Rotation_state) (azimuth : ℕ) : Bool × Rotation_state :=
  let r := rotated_once st azimuth
  if !r.1 then (false, r.2)
  else
    let has_completed_rotation : Bool := decide (azimuth < r.2.completed_prev)
    (has_completed_rotation, { r.2 with completed_prev := azimuth })

/-- Successive calls of `completed_full_rotation`, one for each azimuth: the values
returned, in order, and the statics after the last call. -/
def feed_azimuths : Rotation_state → List ℕ → List Bool × Rotation_state
  | st, [] => ([], st)
  | st, azimuth :: rest =>
    let r := completed_full_rotation st azimuth
    let rs := feed_azimuths r.2 rest
    (r.1 :: rs.1, rs.2)

/-- The function-local statics of `check_for_lost_packet`. -/
structure Lost_packet_state where
  first_update : Bool
  prev : ℕ
deriving DecidableEq, Repr

/-- The statics as they are initialised. -/
def Lost_packet_state.initial : Lost_packet_state := { first_update := true, prev := 0 }

/-- The values that the error line "Packets lost!" names. -/
structure Lost_packet_report where
  packet_count : ℕ
  counter : ℕ
  prev : ℕ
deriving DecidableEq, Repr

/-- Source: `check_for_lost_packet(counter, packet_count)`, `counter` being a
`std::uint16_t`: the report written to the log, if any, and the statics after the call. -/
def check_for_lost_packet (st : Lost_packet_state) (counter packet_count : ℕ) :
    Option Lost_packet_report × Lost_packet_state :=
  if st.first_update then (none, { first_update := false, prev := counter })
  else if counter ≠ (st.prev + 1) % 65536 then
    (some { packet_count := packet_count, counter := counter, prev := st.prev },
      { st with prev := counter })
  else (none, { st with prev := counter })

/-- Successive calls of `check_for_lost_packet`, one for each pair of a sweep counter and a
packet count: the reports, in order, and the statics after the last call. -/
def feed_counters :
    Lost_packet_state → List (ℕ × ℕ) → List (Option Lost_packet_report) × Lost_packet_state
  | st, [] => ([], st)
  | st, packet :: rest =>
    let r := check_for_lost_packet st packet.1 packet.2
    let rs := feed_counters r.2 rest
    (r.1 :: rs.1, rs.2)

end Colossus_client

namespace Time

/-! ## Durations and observations (utility/time/Duration.h, Time_ops.h)

`Tick_type` is `std::int64_t`.  The sum or the difference of two tick counts that does not
fit the type is a signed overflow, which C++ leaves undefined. -/

/-- What an operator call does: it returns a value, or it throws, or its arithmetic
overflows the signed tick type. -/
inductive Call (α : Type) where
  | returns (a : α)
  | throws (what : String)
  | overflow
deriving DecidableEq, Repr

/-- Source: `class Duration`, a number of microseconds held in a `Tick_type`. -/
structure Duration where
  ticks : ℤ
deriving DecidableEq, Repr

/-- The least value of `Tick_type`. -/
def tick_min : ℤ := -(2 ^ 63)

/-- The greatest value of `Tick_type`. -/
def tick_max : ℤ := 2 ^ 63 - 1

/-- Source: `Duration::forever()`, the greatest number of ticks. -/
def Duration.forever : Duration := { ticks := tick_max }

/-- The conversion `static_cast<int>` of a 64-bit value: reduction modulo `2 ^ 32` into
`[-2 ^ 31, 2 ^ 31)` (what the compilers do; the standard leaves it to them before C++20). -/
def to_int (z : ℤ) : ℤ := (z + 2 ^ 31) % 2 ^ 32 - 2 ^ 31

/-- Source: `operator/(Duration, Duration)`: `static_cast<int>(lhs.ticks() / rhs.ticks())`,
the division of `std::int64_t` truncating toward zero. -/
def Duration.div (lhs rhs : Duration) : Call ℤ :=
  if rhs.ticks = 0 then Call.throws "divide by zero!"
  else if lhs.ticks = tick_min ∧ rhs.ticks = -1 then Call.overflow
  else Call.returns (to_int (Int.tdiv lhs.ticks rhs.ticks))

/-- Modelled from the spec: an `Observation` (Monotonic_observation.h is not among the
sources at hand) is a moment in time, held as the `Duration` since the epoch that
`since_epoch()` returns and that the constructor `Observation(const Duration&)` takes. -/
structure Observation where
  since_epoch : Duration
deriving DecidableEq, Repr

/-- Source: `operator+(Observation, Duration)`. -/
def Observation.add (lhs : Observation) (rhs : Duration) : Call Observation :=
  let result : ℤ := lhs.since_epoch.ticks + rhs.ticks
  if result < tick_min ∨ tick_max < result then Call.overflow
  else if result < 0 then Call.returns { since_epoch := { ticks := 0 } }
  else Call.returns { since_epoch := { ticks := result } }

/-- Source: `operator+(Duration, Observation)`. -/
def Duration.add_observation (lhs : Duration) (rhs : Observation) : Call Observation :=
  let result : ℤ := rhs.since_epoch.ticks + lhs.ticks
  if result < tick_min ∨ tick_max < result then Call.overflow
  else if result < 0 then Call.returns { since_epoch := { ticks := 0 } }
  else Call.returns { since_epoch := { ticks := result } }

/-- Source: `operator-(Observation, Duration)`. -/
def Observation.sub (lhs : Observation) (rhs : Duration) : Call Observation :=
  let result : ℤ := lhs.since_epoch.ticks - rhs.ticks
  if result < tick_min ∨ tick_max < result then Call.overflow
  else if result < 0 then Call.returns { since_epoch := { ticks := 0 } }
  else Call.returns { since_epoch := { ticks := result } }

/-- Source: `struct timeval`, seconds and microseconds. -/
structure Timeval where
  tv_sec : ℤ
  tv_usec : ℤ
deriving DecidableEq, Repr

/-- Source: `struct timespec`, seconds and nanoseconds. -/
structure Timespec where
  tv_sec : ℤ
  tv_nsec : ℤ
deriving DecidableEq, Repr

/-- Source: `Duration(const timeval&)`: `seconds { tv_sec } + microseconds { tv_usec }` in
microseconds.  (The values of this part are far from the limits of the tick type.) -/
def Duration.of_timeval (init : Timeval) : Duration :=
  { ticks := init.tv_sec * 1000000 + init.tv_usec }

/-- Source: `Duration(const timespec&)`: `seconds { tv_sec } + microseconds
{ tv_nsec / 1000 }` in microseconds. -/
def Duration.of_timespec (init : Timespec) : Duration :=
  { ticks := init.tv_sec * 1000000 + Int.tdiv init.tv_nsec 1000 }

/-- Source: `Duration::to_timespec`. -/
def Duration.to_timespec (d : Duration) : Timespec :=
  let ticks := d.ticks
  let seconds := Int.tdiv ticks 1000000
  let sub_seconds := ticks - seconds * 1000000
  { tv_sec := seconds, tv_nsec := sub_seconds }

/-- Source: `Duration::to_timeval`. -/
def Duration.to_timeval (d : Duration) : Timeval :=
  let seconds := Int.tdiv d.ticks 1000000000
  let micro_seconds := Int.tdiv (d.ticks - seconds * 1000000000) 1000
  { tv_sec := seconds, tv_usec := micro_seconds }

/-- Source: `Monotonic::Observation::to_timespec`, whose comment reads "timespec defines
sub-seconds part in nsec". -/
def Observation.to_timespec (t : Observation) : Timespec :=
  let ticks := t.since_epoch.ticks
  let sec := Int.tdiv ticks 1000000
  let usec := ticks - sec * 1000000
  { tv_sec := sec, tv_nsec := usec * 1000 }

end Time

namespace Pointcloud_target_writer

/-! ## From CFAR to the peak finder (apps/Pointcloud_target_writer_main.cpp,
apps/Staring_range_finder_main.cpp) -/

/-- Source: the second argument of `find_peaks` in `on_process_Fft`,
`CA_CFAR::process(fft_data.begin() + min_bin, fft_data.end(), cfar_window)`;
`Staring_range_finder::on_process_fft` has the same call on `buffered_data`. -/
def cfar_output {V : Type} (T : CA_CFAR.Slider_traits V) (fft_data : List V)
    (outside : ℤ → V) (min_bin : ℕ) (cfar_window : CA_CFAR.Window) : List ℚ :=
  CA_CFAR.process T (CA_CFAR.vector_memory fft_data outside) (min_bin : ℤ)
    (fft_data.length : ℤ) cfar_window

/-- Source: `on_process_Fft` followed by `CFAR_Peak_finder::process_data` up to its
`switch`: the peak finder, configured with the same `min_bin`, on the CFAR output. -/
def peak_of_spoke {V : Type} (T : CA_CFAR.Slider_traits V) (fft_data : List V)
    (outside : ℤ → V) (min_bin : ℕ) (cfar_window : CA_CFAR.Window)
    (peak_mode : Navigation.Peak_mode) (range_in_bins : ℕ) :
    Outcome Navigation.Peak_window :=
  Navigation.peak_window peak_mode (cfar_output T fft_data outside min_bin cfar_window)
    range_in_bins min_bin

/-- A spoke of 5 bins with a return of 90 dB in the bin 3. -/
def single_return_spoke : List ℚ := [0, 0, 0, 90, 0]

end Pointcloud_target_writer

/-! ## Lemmas on the arithmetic of `float` -/

theorem round_half_even_intCast (n : ℤ) : round_half_even (n : ℚ) = n := by
  simp [round_half_even]

theorem round_half_even_bounds (x : ℚ) :
    ⌊x⌋ ≤ round_half_even x ∧ round_half_even x ≤ ⌊x⌋ + 1 := by
  unfold round_half_even
  split_ifs <;> omega

theorem round_half_even_mono {x y : ℚ} (h : x ≤ y) : round_half_even x ≤ round_half_even y := by
  have hf : ⌊x⌋ ≤ ⌊y⌋ := Int.floor_mono h
  rcases lt_or_eq_of_le hf with hlt | heq
  · have h1 := (round_half_even_bounds x).2
    have h2 := (round_half_even_bounds y).1
    omega
  · have hx : x - (⌊y⌋ : ℚ) ≤ y - (⌊y⌋ : ℚ) := by linarith
    simp only [round_half_even, heq]
    split_ifs <;> first | omega | (exfalso; linarith)

theorem round_half_even_eq_of_near (x : ℚ) (m : ℤ) (h1 : (m : ℚ) - 1 / 2 < x)
    (h2 : x < (m : ℚ) + 1 / 2) : round_half_even x = m := by
  by_cases hx : (m : ℚ) ≤ x
  · have hfl : ⌊x⌋ = m := Int.floor_eq_iff.mpr ⟨hx, by linarith⟩
    simp only [round_half_even, hfl]
    rw [if_pos (by linarith)]
  · have hfl : ⌊x⌋ = m - 1 := Int.floor_eq_iff.mpr ⟨by push_cast; linarith, by push_cast; linarith⟩
    simp only [round_half_even, hfl]
    rw [if_neg (by push_cast; linarith), if_pos (by push_cast; linarith)]
    omega

theorem two_zpow_pos (e : ℤ) : (0 : ℚ) < (2 : ℚ) ^ e := zpow_pos (by norm_num) e

theorem two_zpow_le {a b : ℤ} (h : a ≤ b) : (2 : ℚ) ^ a ≤ (2 : ℚ) ^ b :=
  zpow_le_zpow_right₀ (by norm_num) h

theorem float_exponent_mono {q r : ℚ} (hq : 0 < q) (h : q ≤ r) :
    float_exponent q ≤ float_exponent r := by
  have := Int.log_mono_right (b := 2) hq h
  simp only [float_exponent]
  omega

theorem scaled_lt (q : ℚ) : q / (2 : ℚ) ^ float_exponent q < (2 : ℚ) ^ (24 : ℤ) := by
  have h1 : q < (2 : ℚ) ^ (Int.log 2 q + 1) := by
    have := Int.lt_zpow_succ_log_self (R := ℚ) (b := 2) (by norm_num) q
    simpa using this
  have h2 : (2 : ℚ) ^ (Int.log 2 q + 1) ≤ (2 : ℚ) ^ (float_exponent q + 24) := by
    apply two_zpow_le
    simp only [float_exponent]
    omega
  rw [div_lt_iff₀ (two_zpow_pos _)]
  calc q < (2 : ℚ) ^ (float_exponent q + 24) := lt_of_lt_of_le h1 h2
    _ = (2 : ℚ) ^ (24 : ℤ) * (2 : ℚ) ^ float_exponent q := by
        rw [← zpow_add₀ (by norm_num : (2 : ℚ) ≠ 0)]; congr 1; ring

theorem scaled_ge (q : ℚ) (hq : 0 < q) (hn : -126 ≤ Int.log 2 q) :
    (2 : ℚ) ^ (23 : ℤ) ≤ q / (2 : ℚ) ^ float_exponent q := by
  have h1 : (2 : ℚ) ^ (Int.log 2 q) ≤ q := by
    have := Int.zpow_log_le_self (R := ℚ) (b := 2) (by norm_num) hq
    simpa using this
  have he : float_exponent q = Int.log 2 q - 23 := by
    simp only [float_exponent]; omega
  rw [le_div_iff₀ (two_zpow_pos _), he, ← zpow_add₀ (by norm_num : (2 : ℚ) ≠ 0)]
  have : (23 : ℤ) + (Int.log 2 q - 23) = Int.log 2 q := by ring
  rw [this]
  exact h1

theorem round_magnitude_zero : round_magnitude 0 = 0 := by
  simp [round_magnitude, round_half_even]

theorem round_magnitude_nonneg (q : ℚ) (hq : 0 ≤ q) : 0 ≤ round_magnitude q := by
  simp only [round_magnitude]
  apply mul_nonneg _ (le_of_lt (two_zpow_pos _))
  have h0 : (0 : ℚ) ≤ q / (2 : ℚ) ^ float_exponent q := div_nonneg hq (le_of_lt (two_zpow_pos _))
  have := round_half_even_mono h0
  rw [show ((0 : ℚ)) = ((0 : ℤ) : ℚ) by simp, round_half_even_intCast] at this
  exact_mod_cast this

theorem round_magnitude_mono {q r : ℚ} (hq : 0 ≤ q) (h : q ≤ r) :
    round_magnitude q ≤ round_magnitude r := by
  rcases eq_or_lt_of_le hq with h0 | hpos
  · rw [← h0, round_magnitude_zero]
    exact round_magnitude_nonneg r (le_trans hq h)
  · have hr : 0 < r := lt_of_lt_of_le hpos h
    have hE := float_exponent_mono hpos h
    rcases eq_or_lt_of_le hE with heq | hlt
    · simp only [round_magnitude, heq]
      apply mul_le_mul_of_nonneg_right _ (le_of_lt (two_zpow_pos _))
      have : q / (2 : ℚ) ^ float_exponent r ≤ r / (2 : ℚ) ^ float_exponent r :=
        div_le_div_of_nonneg_right h (le_of_lt (two_zpow_pos _))
      exact_mod_cast round_half_even_mono this
    · have hlog : -126 ≤ Int.log 2 r := by
        simp only [float_exponent] at hlt
        omega
      have h1 : round_half_even (q / (2 : ℚ) ^ float_exponent q) ≤ 2 ^ 24 := by
        have := round_half_even_mono (le_of_lt (scaled_lt q))
        rw [show ((2 : ℚ) ^ (24 : ℤ)) = (((2 ^ 24 : ℤ)) : ℚ) by norm_num,
          round_half_even_intCast] at this
        exact this
      have h2 : 2 ^ 23 ≤ round_half_even (r / (2 : ℚ) ^ float_exponent r) := by
        have := round_half_even_mono (scaled_ge r hr hlog)
        rw [show ((2 : ℚ) ^ (23 : ℤ)) = (((2 ^ 23 : ℤ)) : ℚ) by norm_num,
          round_half_even_intCast] at this
        exact this
      have h1q : (round_half_even (q / (2 : ℚ) ^ float_exponent q) : ℚ) ≤ 2 ^ 24 := by
        exact_mod_cast h1
      have h2q : (2 : ℚ) ^ 23 ≤ (round_half_even (r / (2 : ℚ) ^ float_exponent r) : ℚ) := by
        exact_mod_cast h2
      simp only [round_magnitude]
      calc (round_half_even (q / (2 : ℚ) ^ float_exponent q) : ℚ) * (2 : ℚ) ^ float_exponent q
          ≤ 2 ^ 24 * (2 : ℚ) ^ float_exponent q :=
            mul_le_mul_of_nonneg_right h1q (le_of_lt (two_zpow_pos _))
        _ = 2 ^ 23 * (2 : ℚ) ^ (float_exponent q + 1) := by
            rw [zpow_add₀ (by norm_num : (2 : ℚ) ≠ 0)]; norm_num; ring
        _ ≤ 2 ^ 23 * (2 : ℚ) ^ float_exponent r :=
            mul_le_mul_of_nonneg_left (two_zpow_le (by omega)) (by norm_num)
        _ ≤ (round_half_even (r / (2 : ℚ) ^ float_exponent r) : ℚ) * (2 : ℚ) ^ float_exponent r :=
            mul_le_mul_of_nonneg_right h2q (le_of_lt (two_zpow_pos _))

theorem round_to_float_zero : round_to_float 0 = 0 := by
  simp [round_to_float, round_magnitude_zero]

theorem round_to_float_neg (q : ℚ) : round_to_float (-q) = - round_to_float q := by
  rcases lt_trichotomy q 0 with h | h | h
  · simp only [round_to_float, if_pos h, neg_neg]
    rw [if_neg (by linarith)]
  · subst h; simp [round_to_float_zero]
  · simp only [round_to_float]
    rw [if_pos (by linarith), if_neg (by linarith), neg_neg]

theorem round_to_float_nonneg {q : ℚ} (hq : 0 ≤ q) : 0 ≤ round_to_float q := by
  simp only [round_to_float]
  rw [if_neg (by linarith)]
  exact round_magnitude_nonneg q hq

theorem round_to_float_mono {q r : ℚ} (h : q ≤ r) : round_to_float q ≤ round_to_float r := by
  by_cases hq : q < 0
  · by_cases hr : r < 0
    · simp only [round_to_float, if_pos hq, if_pos hr]
      have := round_magnitude_mono (q := -r) (r := -q) (by linarith) (by linarith)
      linarith
    · have h1 : round_to_float q ≤ 0 := by
        simp only [round_to_float, if_pos hq]
        have := round_magnitude_nonneg (-q) (by linarith)
        linarith
      have h2 := round_to_float_nonneg (q := r) (by linarith)
      linarith
  · have hr : ¬ r < 0 := by linarith
    simp only [round_to_float, if_neg hq, if_neg hr]
    exact round_magnitude_mono (by linarith) h

theorem round_magnitude_of_representable (m : ℕ) (e : ℤ) (hm : m < 2 ^ 24) (he : -149 ≤ e) :
    round_magnitude ((m : ℚ) * (2 : ℚ) ^ e) = (m : ℚ) * (2 : ℚ) ^ e := by
  rcases Nat.eq_zero_or_pos m with h0 | hpos
  · subst h0; simp [round_magnitude_zero]
  · have hq : (0 : ℚ) < (m : ℚ) * (2 : ℚ) ^ e :=
      mul_pos (by exact_mod_cast hpos) (two_zpow_pos e)
    have hlt : (m : ℚ) * (2 : ℚ) ^ e < (2 : ℚ) ^ (24 + e) := by
      rw [zpow_add₀ (by norm_num)]
      apply mul_lt_mul_of_pos_right _ (two_zpow_pos e)
      rw [show ((2 : ℚ) ^ (24 : ℤ)) = (((2 ^ 24 : ℕ)) : ℚ) by norm_num]
      exact_mod_cast hm
    have hlog : Int.log 2 ((m : ℚ) * (2 : ℚ) ^ e) < 24 + e :=
      (Int.lt_zpow_iff_log_lt (by norm_num) hq).mp (by simpa using hlt)
    have hE : float_exponent ((m : ℚ) * (2 : ℚ) ^ e) ≤ e := by
      simp only [float_exponent]; omega
    obtain ⟨k, hk⟩ := Int.eq_ofNat_of_zero_le (sub_nonneg.mpr hE)
    have hsplit : (2 : ℚ) ^ e
        = (2 : ℚ) ^ k * (2 : ℚ) ^ float_exponent ((m : ℚ) * (2 : ℚ) ^ e) := by
      rw [← zpow_natCast, ← zpow_add₀ (by norm_num : (2 : ℚ) ≠ 0), ← hk]
      congr 1; ring
    have hscaled : (m : ℚ) * (2 : ℚ) ^ e / (2 : ℚ) ^ float_exponent ((m : ℚ) * (2 : ℚ) ^ e)
        = (((m * 2 ^ k : ℕ) : ℤ) : ℚ) := by
      rw [div_eq_iff (ne_of_gt (two_zpow_pos _))]
      push_cast
      rw [mul_assoc, ← hsplit]
    simp only [round_magnitude]
    rw [hscaled, round_half_even_intCast]
    push_cast
    rw [mul_assoc, ← hsplit]

theorem round_to_float_of_representable (m : ℤ) (e : ℤ) (hm : |m| < 2 ^ 24) (he : -149 ≤ e) :
    round_to_float ((m : ℚ) * (2 : ℚ) ^ e) = (m : ℚ) * (2 : ℚ) ^ e := by
  rcases le_or_lt 0 m with h | h
  · obtain ⟨n, rfl⟩ := Int.eq_ofNat_of_zero_le h
    have hn : n < 2 ^ 24 := by
      rw [abs_of_nonneg h] at hm; exact_mod_cast hm
    have hq : ¬ (((n : ℤ) : ℚ) * (2 : ℚ) ^ e < 0) := by
      have : (0 : ℚ) ≤ ((n : ℤ) : ℚ) * (2 : ℚ) ^ e :=
        mul_nonneg (by exact_mod_cast h) (le_of_lt (two_zpow_pos e))
      linarith
    simp only [round_to_float, if_neg hq]
    exact_mod_cast round_magnitude_of_representable n e hn he
  · obtain ⟨n, hn⟩ := Int.eq_ofNat_of_zero_le (show 0 ≤ -m by omega)
    have hn24 : n < 2 ^ 24 := by
      rw [abs_of_neg h, hn] at hm; exact_mod_cast hm
    have hm' : (m : ℚ) = -(n : ℚ) := by
      have : m = -(n : ℤ) := by omega
      rw [this]; push_cast; ring
    rw [hm', neg_mul, round_to_float_neg]
    have hq : ¬ ((n : ℚ) * (2 : ℚ) ^ e < 0) := by
      have : (0 : ℚ) ≤ (n : ℚ) * (2 : ℚ) ^ e :=
        mul_nonneg (by positivity) (le_of_lt (two_zpow_pos e))
      linarith
    simp only [round_to_float, if_neg hq]
    rw [round_magnitude_of_representable n e hn24 he]

theorem round_to_float_intCast (n : ℤ) (hn : |n| ≤ 2 ^ 24) : round_to_float (n : ℚ) = (n : ℚ) := by
  rcases lt_or_eq_of_le hn with h | h
  · have := round_to_float_of_representable n 0 h (by norm_num)
    simpa using this
  · rcases abs_eq (by norm_num : (0 : ℤ) ≤ 2 ^ 24) |>.mp h with h1 | h1
    · have := round_to_float_of_representable 1 24 (by norm_num) (by norm_num)
      rw [h1]
      norm_num at this ⊢
      exact this
    · have := round_to_float_of_representable (-1) 24 (by norm_num) (by norm_num)
      rw [h1]
      norm_num at this ⊢
      exact this

theorem round_to_float_natCast (n : ℕ) (hn : n ≤ 2 ^ 24) : round_to_float (n : ℚ) = (n : ℚ) := by
  have := round_to_float_intCast (n : ℤ) (by rw [abs_of_nonneg (by positivity)]; exact_mod_cast hn)
  exact_mod_cast this

theorem round_to_float_one : round_to_float 1 = 1 := by
  have := round_to_float_natCast 1 (by norm_num)
  simpa using this

theorem round_to_float_idem_of_dyadic (m : ℤ) (k : ℕ) (hm : |m| < 2 ^ 24) (hk : k ≤ 149) :
    round_to_float ((m : ℚ) / 2 ^ k) = (m : ℚ) / 2 ^ k := by
  have := round_to_float_of_representable m (-(k : ℤ)) hm (by omega)
  rw [zpow_neg, zpow_natCast] at this
  rw [div_eq_mul_inv]
  exact this

theorem round_to_float_eq_of_near (q : ℚ) (m e : ℤ) (hlo : (2 : ℚ) ^ (e + 23) ≤ q)
    (hhi : q < (2 : ℚ) ^ (e + 24)) (he : -149 ≤ e)
    (h1 : ((m : ℚ) - 1 / 2) * (2 : ℚ) ^ e < q) (h2 : q < ((m : ℚ) + 1 / 2) * (2 : ℚ) ^ e) :
    round_to_float q = (m : ℚ) * (2 : ℚ) ^ e := by
  have hq : 0 < q := lt_of_lt_of_le (two_zpow_pos _) hlo
  have hl1 : e + 23 ≤ Int.log 2 q :=
    (Int.zpow_le_iff_le_log (by norm_num) hq).mp (by simpa using hlo)
  have hl2 : Int.log 2 q < e + 24 :=
    (Int.lt_zpow_iff_log_lt (by norm_num) hq).mp (by simpa using hhi)
  have hE : float_exponent q = e := by
    simp only [float_exponent]; omega
  simp only [round_to_float, if_neg (not_lt.mpr (le_of_lt hq)), round_magnitude, hE]
  rw [round_half_even_eq_of_near _ m]
  · rw [lt_div_iff₀ (two_zpow_pos _)]; exact h1
  · rw [div_lt_iff₀ (two_zpow_pos _)]; exact h2

theorem round_to_float_ofNat (n : ℕ) [n.AtLeastTwo] (hn : n ≤ 16777216) :
    round_to_float (no_index (OfNat.ofNat n) : ℚ) = (OfNat.ofNat n : ℚ) := by
  have := round_to_float_natCast n (by norm_num; exact hn)
  simpa using this

theorem round_to_float_ofNat_div_two (n : ℕ) [n.AtLeastTwo] (hn : n < 16777216) :
    round_to_float ((no_index (OfNat.ofNat n) : ℚ) / 2) = (OfNat.ofNat n : ℚ) / 2 := by
  have := round_to_float_idem_of_dyadic (n : ℤ) 1
    (by rw [abs_of_nonneg (by positivity)]; norm_num; exact_mod_cast hn) (by norm_num)
  simpa using this

theorem round_to_float_le_of_le {q r : ℚ} (h : q ≤ r) (hr : round_to_float r = r) :
    round_to_float q ≤ r := by
  rw [← hr]; exact round_to_float_mono h

theorem le_round_to_float_of_le {q r : ℚ} (h : r ≤ q) (hr : round_to_float r = r) :
    r ≤ round_to_float q := by
  rw [← hr]; exact round_to_float_mono h

theorem round_to_float_float_0_1 : round_to_float float_0_1 = float_0_1 := by
  have := round_to_float_idem_of_dyadic 13421773 27 (by norm_num) (by norm_num)
  norm_num at this
  simpa [float_0_1] using this

theorem round_to_float_float_0_2 : round_to_float float_0_2 = float_0_2 := by
  have := round_to_float_idem_of_dyadic 13421773 26 (by norm_num) (by norm_num)
  norm_num at this
  simpa [float_0_2] using this

theorem round_to_float_float_0_3 : round_to_float float_0_3 = float_0_3 := by
  have := round_to_float_idem_of_dyadic 5033165 24 (by norm_num) (by norm_num)
  norm_num at this
  simpa [float_0_3] using this

/-- The `float` sum `0.1f + 0.2f` is `0.3f`, above the exact sum. -/
theorem float_0_1_add_0_2 :
    round_to_float (float_0_1 + float_0_2) = float_0_3 ∧ float_0_1 + float_0_2 < float_0_3 := by
  have := round_to_float_eq_of_near (float_0_1 + float_0_2) 10066330 (-25)
    (by norm_num [float_0_1, float_0_2]) (by norm_num [float_0_1, float_0_2]) (by norm_num)
    (by norm_num [float_0_1, float_0_2]) (by norm_num [float_0_1, float_0_2])
  constructor
  · rw [this]; norm_num [float_0_3]
  · norm_num [float_0_1, float_0_2, float_0_3]

namespace CA_CFAR

/-! ## Lemmas on the window and on the loops -/

theorem force_odd_of_lt (bits s : ℕ) (hb : 0 < bits) (hs : s < 2 ^ bits) :
    force_odd bits s = if s % 2 = 1 then s else s + 1 := by
  unfold force_odd
  have h2 : (2 : ℕ) ^ bits % 2 = 0 := by
    obtain ⟨k, rfl⟩ : ∃ k, bits = k + 1 := ⟨bits - 1, by omega⟩
    rw [pow_succ]; omega
  split_ifs with h1 h3 h3
  · rfl
  · omega
  · omega
  · apply Nat.mod_eq_of_lt; omega

theorem resize_size (bits : ℕ) (w : Window) (hs : w.size < 2 ^ bits)
    (hg : 2 * w.guard_cells + 3 < 2 ^ bits) :
    (Window.resize bits w).size
      = max (if w.size % 2 = 1 then w.size else w.size + 1) (2 * w.guard_cells + 3) := by
  have hb : 0 < bits := by
    rcases Nat.eq_zero_or_pos bits with h | h
    · subst h; simp at hg
    · exact h
  have hm : (2 * w.guard_cells + 2 * 1 + 1) % 2 ^ bits = 2 * w.guard_cells + 3 :=
    Nat.mod_eq_of_lt (by omega)
  simp only [Window.resize]
  rw [force_odd_of_lt bits w.size hb hs, hm]

theorem training_bounds_elems_pos (w : Window) (rs re e : ℤ)
    (hw : 2 * w.guard_cells + 2 ≤ w.size) :
    0 < (training_bounds w rs re e).elems := by
  simp only [training_bounds, Training_bounds.elems]
  push_cast
  split_ifs <;> omega

theorem process_cell_power {V : Type} (T : Slider_traits V) (mem : ℤ → V)
    (s : Window_slider) (e : ℤ) :
    (s.process_cell T mem e).1.1 = cell_power T mem s.window s.range_start s.range_end e := by
  simp only [cell_power, Window_slider.process_cell, Window_slider.create]
  split_ifs <;> rfl

theorem process_cell_slider {V : Type} (T : Slider_traits V) (mem : ℤ → V)
    (s : Window_slider) (e : ℤ) :
    (s.process_cell T mem e).2.window = s.window
      ∧ (s.process_cell T mem e).2.range_start = s.range_start
      ∧ (s.process_cell T mem e).2.range_end = s.range_end
      ∧ (s.process_cell T mem e).2.threshold_exceeded_count = (s.process_cell T mem e).1.2 := by
  simp only [Window_slider.process_cell]
  split_ifs <;> exact ⟨rfl, rfl, rfl, rfl⟩

theorem process_loop_getElem {V : Type} (T : Slider_traits V) (mem : ℤ → V) :
    ∀ (todo : ℕ) (s : Window_slider) (itr : ℤ) (i : ℕ), i < todo →
      (process_loop T mem s itr todo)[i]?
        = some (cell_power T mem s.window s.range_start s.range_end (itr + (i : ℤ))) := by
  intro todo
  induction todo with
  | zero => intro s itr i hi; omega
  | succ k ih =>
    intro s itr i hi
    obtain ⟨h1, h2, h3, _⟩ := process_cell_slider T mem s itr
    cases i with
    | zero => simp [process_loop, process_cell_power]
    | succ j =>
      simp only [process_loop, List.getElem?_cons_succ]
      rw [ih _ _ j (by omega), h1, h2, h3]
      congr 2
      push_cast
      ring

theorem training_cells_mem (w : Window) (n i : ℕ) (j : ℤ)
    (hodd : w.size % 2 = 1) (hmin : 2 * w.guard_cells + 3 ≤ w.size)
    (hn : w.size ≤ n) (hi : i < n) :
    (((training_bounds w 0 n i).lower_begin ≤ j ∧ j < (training_bounds w 0 n i).lower_end)
      ∨ ((training_bounds w 0 n i).upper_begin ≤ j ∧ j < (training_bounds w 0 n i).upper_end))
    ↔ j ∈ spec_training_cells w.size w.guard_cells n i := by
  simp only [training_bounds, spec_training_cells, spec_window_start, Finset.mem_filter,
    Finset.mem_Ico]
  push_cast
  split_ifs <;> omega




theorem training_bounds_order (w : Window) (n i : ℕ)
    (hmin : 2 * w.guard_cells + 3 ≤ w.size) (hn : w.size ≤ n) (hi : i < n) :
    (training_bounds w 0 n i).lower_begin ≤ (training_bounds w 0 n i).lower_end
      ∧ (training_bounds w 0 n i).lower_end ≤ (training_bounds w 0 n i).upper_begin
      ∧ (training_bounds w 0 n i).upper_begin ≤ (training_bounds w 0 n i).upper_end := by
  simp only [training_bounds]
  push_cast
  split_ifs <;> omega

theorem vector_memory_of_lt {V : Type} (x : List V) (outside : ℤ → V) (d : V) (j : ℤ)
    (h0 : 0 ≤ j) (hn : j < x.length) : vector_memory x outside j = x.getD j.toNat d := by
  have hlt : j.toNat < x.length := by omega
  simp only [vector_memory, if_neg (not_lt.mpr h0)]
  rw [List.getD_eq_getElem _ _ hlt, List.getD_eq_getElem _ _ hlt]

theorem spec_training_cells_range (w : Window) (n i : ℕ) (j : ℤ)
    (hn : w.size ≤ n)
    (hj : j ∈ spec_training_cells w.size w.guard_cells n i) : 0 ≤ j ∧ j < n := by
  simp only [spec_training_cells, spec_window_start, Finset.mem_filter, Finset.mem_Ico] at hj
  omega

theorem training_elems_eq_card (w : Window) (n i : ℕ)
    (hodd : w.size % 2 = 1) (hmin : 2 * w.guard_cells + 3 ≤ w.size)
    (hn : w.size ≤ n) (hi : i < n) :
    (training_bounds w 0 n i).elems = ((spec_training_cells w.size w.guard_cells n i).card : ℤ) := by
  obtain ⟨h1, h2, h3⟩ := training_bounds_order w n i hmin hn hi
  have hdisj : Disjoint
      (Finset.Ico (training_bounds w 0 n i).lower_begin (training_bounds w 0 n i).lower_end)
      (Finset.Ico (training_bounds w 0 n i).upper_begin (training_bounds w 0 n i).upper_end) := by
    rw [Finset.disjoint_left]
    intro j hj1 hj2
    simp only [Finset.mem_Ico] at hj1 hj2
    omega
  have hunion : Finset.Ico (training_bounds w 0 n i).lower_begin
        (training_bounds w 0 n i).lower_end
      ∪ Finset.Ico (training_bounds w 0 n i).upper_begin (training_bounds w 0 n i).upper_end
      = spec_training_cells w.size w.guard_cells n i := by
    ext j
    rw [Finset.mem_union, Finset.mem_Ico, Finset.mem_Ico]
    exact training_cells_mem w n i j hodd hmin hn hi
  rw [← hunion, Finset.card_union_of_disjoint hdisj, Int.card_Ico, Int.card_Ico]
  simp only [Training_bounds.elems]
  push_cast
  omega

theorem training_bounds_sides (w : Window) (n i : ℕ)
    (hmin : 2 * w.guard_cells + 3 ≤ w.size) (hn : w.size ≤ n) (hi : i < n) :
    0 ≤ (training_bounds w 0 n i).lower_begin
      ∧ (training_bounds w 0 n i).lower_end ≤ i
      ∧ (i : ℤ) < (training_bounds w 0 n i).upper_begin
      ∧ (training_bounds w 0 n i).upper_end ≤ n := by
  simp only [training_bounds]
  push_cast
  split_ifs <;> omega

theorem filter_range_eq_range' (n a b : ℕ) (p : ℕ → Bool) (hab : a ≤ b) (hbn : b ≤ n)
    (hp : ∀ j, j < n → (p j = true ↔ a ≤ j ∧ j < b)) :
    (List.range n).filter p = List.range' a (b - a) := by
  have hsplit : List.range n
      = List.range' 0 a ++ (List.range' a (b - a) ++ List.range' b (n - b)) := by
    rw [List.range_eq_range']
    have h1 : List.range' a (b - a) ++ List.range' b (n - b) = List.range' a (n - a) := by
      have := List.range'_append_1 a (b - a) (n - b)
      rw [show a + (b - a) = b by omega, show n - b + (b - a) = n - a by omega] at this
      exact this
    rw [h1]
    have := List.range'_append_1 0 a (n - a)
    rw [show 0 + a = a by omega, show n - a + a = n by omega] at this
    exact this.symm
  rw [hsplit, List.filter_append, List.filter_append]
  have e1 : (List.range' 0 a).filter p = [] := by
    rw [List.filter_eq_nil_iff]
    intro j hj
    rw [List.mem_range'_1] at hj
    intro hpj
    have := (hp j (by omega)).mp hpj
    omega
  have e2 : (List.range' a (b - a)).filter p = List.range' a (b - a) := by
    rw [List.filter_eq_self]
    intro j hj
    rw [List.mem_range'_1] at hj
    exact (hp j (by omega)).mpr ⟨by omega, by omega⟩
  have e3 : (List.range' b (n - b)).filter p = [] := by
    rw [List.filter_eq_nil_iff]
    intro j hj
    rw [List.mem_range'_1] at hj
    intro hpj
    have := (hp j (by omega)).mp hpj
    omega
  rw [e1, e2, e3, List.nil_append, List.append_nil]

theorem foldl_congr_mem {α β : Type} (f g : α → β → α) :
    ∀ (l : List β) (init : α), (∀ acc k, k ∈ l → f acc k = g acc k) →
      l.foldl f init = l.foldl g init := by
  intro l
  induction l with
  | nil => intro init _; rfl
  | cons c t ih =>
    intro init h
    rw [List.foldl_cons, List.foldl_cons, h init c (List.mem_cons_self _ _)]
    exact ih _ (fun acc k hk => h acc k (List.mem_cons_of_mem _ hk))

theorem accumulate_float_eq_float_sum (x : List ℚ) (outside : ℤ → ℚ) (a b : ℤ)
    (ha : 0 ≤ a) (hb : b ≤ x.length) :
    accumulate float_traits.add (vector_memory x outside) a b float_traits.zero
      = float_sum x (List.range' a.toNat (b.toNat - a.toNat)) := by
  have hlen : (b - a).toNat = b.toNat - a.toNat := by omega
  simp only [accumulate, float_sum, float_traits, hlen]
  rw [List.range'_eq_map_range, List.foldl_map]
  apply foldl_congr_mem
  intro acc k hk
  rw [List.mem_range] at hk
  have hmem : vector_memory x outside (a + (k : ℤ)) = x.getD (a.toNat + k) 0 := by
    rw [vector_memory_of_lt x outside 0 (a + (k : ℤ)) (by omega) (by omega)]
    congr 1
    omega
  rw [hmem]

theorem spec_training_below_eq (w : Window) (n i : ℕ)
    (hodd : w.size % 2 = 1) (hmin : 2 * w.guard_cells + 3 ≤ w.size)
    (hn : w.size ≤ n) (hi : i < n) :
    spec_training_below w.size w.guard_cells n i
      = List.range' (training_bounds w 0 n i).lower_begin.toNat
          ((training_bounds w 0 n i).lower_end.toNat
            - (training_bounds w 0 n i).lower_begin.toNat) := by
  obtain ⟨h1, h2, h3⟩ := training_bounds_order w n i hmin hn hi
  obtain ⟨s1, s2, s3, s4⟩ := training_bounds_sides w n i hmin hn hi
  apply filter_range_eq_range' n _ _ _ (by omega) (by omega)
  intro j hj
  rw [decide_eq_true_iff, ← training_cells_mem w n i (j : ℤ) hodd hmin hn hi]
  omega

theorem spec_training_above_eq (w : Window) (n i : ℕ)
    (hodd : w.size % 2 = 1) (hmin : 2 * w.guard_cells + 3 ≤ w.size)
    (hn : w.size ≤ n) (hi : i < n) :
    spec_training_above w.size w.guard_cells n i
      = List.range' (training_bounds w 0 n i).upper_begin.toNat
          ((training_bounds w 0 n i).upper_end.toNat
            - (training_bounds w 0 n i).upper_begin.toNat) := by
  obtain ⟨h1, h2, h3⟩ := training_bounds_order w n i hmin hn hi
  obtain ⟨s1, s2, s3, s4⟩ := training_bounds_sides w n i hmin hn hi
  apply filter_range_eq_range' n _ _ _ (by omega) (by omega)
  intro j hj
  rw [decide_eq_true_iff, ← training_cells_mem w n i (j : ℤ) hodd hmin hn hi]
  omega

theorem spec_training_lists_length (w : Window) (n i : ℕ)
    (hodd : w.size % 2 = 1) (hmin : 2 * w.guard_cells + 3 ≤ w.size)
    (hn : w.size ≤ n) (hi : i < n) :
    (spec_training_below w.size w.guard_cells n i).length
        + (spec_training_above w.size w.guard_cells n i).length
      = (spec_training_cells w.size w.guard_cells n i).card := by
  have hcard := training_elems_eq_card w n i hodd hmin hn hi
  obtain ⟨h1, h2, h3⟩ := training_bounds_order w n i hmin hn hi
  obtain ⟨s1, s2, s3, s4⟩ := training_bounds_sides w n i hmin hn hi
  rw [spec_training_below_eq w n i hodd hmin hn hi, spec_training_above_eq w n i hodd hmin hn hi,
    List.length_range', List.length_range']
  simp only [Training_bounds.elems] at hcard
  omega

theorem spec_training_lists_mem (S G n i j : ℕ) :
    (j ∈ spec_training_below S G n i → j < n ∧ j ≠ i)
    ∧ (j ∈ spec_training_above S G n i → j < n ∧ j ≠ i) := by
  simp only [spec_training_below, spec_training_above, List.mem_filter, List.mem_range,
    decide_eq_true_eq]
  constructor <;> intro h <;> omega

theorem cell_power_float_eq_spec (x : List ℚ) (outside : ℤ → ℚ) (w : Window) (i : ℕ)
    (hodd : w.size % 2 = 1) (hmin : 2 * w.guard_cells + 3 ≤ w.size)
    (hn : w.size ≤ x.length) (hi : i < x.length) :
    cell_power float_traits (vector_memory x outside) w 0 x.length i
      = spec_float_process_cell x w i := by
  have hcard := training_elems_eq_card w x.length i hodd hmin hn hi
  obtain ⟨h1, h2, h3⟩ := training_bounds_order w x.length i hmin hn hi
  obtain ⟨s1, s2, s3, s4⟩ := training_bounds_sides w x.length i hmin hn hi
  have hpos := training_bounds_elems_pos w 0 x.length i (by omega)
  have hcell : vector_memory x outside (i : ℤ) = x.getD i 0 := by
    rw [vector_memory_of_lt x outside 0 (i : ℤ) (by omega) (by omega)]
    simp
  have hlow := accumulate_float_eq_float_sum x outside
    (training_bounds w 0 x.length i).lower_begin (training_bounds w 0 x.length i).lower_end
    s1 (by omega)
  have hupp := accumulate_float_eq_float_sum x outside
    (training_bounds w 0 x.length i).upper_begin (training_bounds w 0 x.length i).upper_end
    (by omega) s4
  rw [← spec_training_below_eq w x.length i hodd hmin hn hi] at hlow
  rw [← spec_training_above_eq w x.length i hodd hmin hn hi] at hupp
  simp only [cell_power, Window_slider.process_cell, Window_slider.create,
    spec_float_process_cell, spec_float_average]
  rw [hlow, hupp]
  have hsd : ∀ l u : ℚ, float_traits.sum_dB l u = round_to_float (l + u) := fun _ _ => rfl
  have hto : float_traits.to_dB (vector_memory x outside (i : ℤ)) = x.getD i 0 := hcell
  rw [hsd, hto, hcard]
  have hne : ((spec_training_cells w.size w.guard_cells x.length i).card : ℤ) ≠ 0 := by
    rw [← hcard]; omega
  simp only [Int.cast_natCast]
  split_ifs with h1 h2 h2
  · rfl
  · exact absurd h1.2 h2
  · exact absurd ⟨hne, h2⟩ h1
  · rfl

theorem window_size_odd_min (bits s g : ℕ) (delta : ℚ)
    (hs : s < 2 ^ bits) (hg : 2 * g + 3 < 2 ^ bits) :
    ((Window.create bits s g).size % 2 = 1
      ∧ 2 * g + 3 ≤ (Window.create bits s g).size
      ∧ (s % 2 = 0 → 2 * g + 3 ≤ s → (Window.create bits s g).size = s + 1)
      ∧ (s % 2 = 1 → 2 * g + 3 ≤ s → (Window.create bits s g).size = s))
    ∧ ((Window.create_delta bits s g delta).size % 2 = 1
      ∧ 2 * g + 3 ≤ (Window.create_delta bits s g delta).size
      ∧ (s % 2 = 0 → 2 * g + 3 ≤ s → (Window.create_delta bits s g delta).size = s + 1)
      ∧ (s % 2 = 1 → 2 * g + 3 ≤ s → (Window.create_delta bits s g delta).size = s)) := by
  have h1 : (Window.create bits s g).size
      = max (if s % 2 = 1 then s else s + 1) (2 * g + 3) :=
    resize_size bits { size := s, guard_cells := g, threshold_delta := 0 } hs hg
  have h2 : (Window.create_delta bits s g delta).size
      = max (if s % 2 = 1 then s else s + 1) (2 * g + 3) :=
    resize_size bits { size := s, guard_cells := g, threshold_delta := delta } hs hg
  rw [h1, h2]
  have key : (max (if s % 2 = 1 then s else s + 1) (2 * g + 3)) % 2 = 1
      ∧ 2 * g + 3 ≤ max (if s % 2 = 1 then s else s + 1) (2 * g + 3)
      ∧ (s % 2 = 0 → 2 * g + 3 ≤ s → max (if s % 2 = 1 then s else s + 1) (2 * g + 3) = s + 1)
      ∧ (s % 2 = 1 → 2 * g + 3 ≤ s → max (if s % 2 = 1 then s else s + 1) (2 * g + 3) = s) := by
    split_ifs with h
    · refine ⟨?_, le_max_right _ _, ?_, ?_⟩
      · rcases le_total s (2 * g + 3) with h3 | h3
        · rw [max_eq_right h3]; omega
        · rw [max_eq_left h3]; exact h
      · intro h0; omega
      · intro _ h3; exact max_eq_left h3
    · refine ⟨?_, le_max_right _ _, ?_, ?_⟩
      · rcases le_total (s + 1) (2 * g + 3) with h3 | h3
        · rw [max_eq_right h3]; omega
        · rw [max_eq_left h3]; omega
      · intro _ h3; exact max_eq_left (by omega)
      · intro h1; omega
  exact ⟨key, key⟩

theorem process_cell_eq {V : Type} (T : Slider_traits V) (mem : ℤ → V)
    (s : Window_slider) (e : ℤ) :
    s.process_cell T mem e
      = if cell_exceeds T mem s.window s.range_start s.range_end e then
          ((T.to_dB (mem e), s.threshold_exceeded_count + 1),
            { s with threshold_exceeded_count := s.threshold_exceeded_count + 1 })
        else ((0, s.threshold_exceeded_count), s) := by
  simp only [Window_slider.process_cell, cell_exceeds]

theorem cell_power_eq {V : Type} (T : Slider_traits V) (mem : ℤ → V) (w : Window)
    (rs re e : ℤ) :
    cell_power T mem w rs re e = if cell_exceeds T mem w rs re e then T.to_dB (mem e) else 0 := by
  simp only [cell_power, process_cell_eq, Window_slider.create]
  split_ifs <;> rfl

theorem process_cell_count_le {V : Type} (T : Slider_traits V) (mem : ℤ → V)
    (s : Window_slider) (e : ℤ) :
    (s.process_cell T mem e).1.2 ≤ s.threshold_exceeded_count + 1 := by
  rw [process_cell_eq]
  split_ifs <;> simp

theorem first_n_points_loop_all {V : Type} (T : Slider_traits V) (mem : ℤ → V)
    (max_points : ℕ) (f : ℕ → ℚ) :
    ∀ (todo : ℕ) (s : Window_slider) (bin : ℕ),
      s.threshold_exceeded_count + todo ≤ max_points →
      first_n_points_loop T mem max_points f s bin todo
        = (List.range' bin todo).filterMap
            (cell_point T mem s.window s.range_start s.range_end f) := by
  intro todo
  induction todo with
  | zero => intro s bin _; rfl
  | succ k ih =>
    intro s bin hle
    obtain ⟨h1, h2, h3, h4⟩ := process_cell_slider T mem s (bin : ℤ)
    have hc := process_cell_count_le T mem s (bin : ℤ)
    have hp := process_cell_power T mem s (bin : ℤ)
    simp only [first_n_points_loop, List.range'_succ, List.filterMap_cons]
    rw [hp]
    by_cases hk : k = 0
    · subst hk
      simp only [first_n_points_loop, List.range'_zero, List.filterMap_nil, List.append_nil,
        ite_self, cell_point]
      split_ifs <;> rfl
    · rw [if_neg (by omega), ih _ _ (by omega), h1, h2, h3]
      simp only [cell_point]
      split_ifs <;> rfl

theorem process_loop_eq_map {V : Type} (T : Slider_traits V) (mem : ℤ → V) :
    ∀ (todo : ℕ) (s : Window_slider) (bin : ℕ),
      process_loop T mem s (bin : ℤ) todo
        = (List.range' bin todo).map
            (fun (b : ℕ) => cell_power T mem s.window s.range_start s.range_end (b : ℤ)) := by
  intro todo
  induction todo with
  | zero => intro s bin; rfl
  | succ k ih =>
    intro s bin
    obtain ⟨h1, h2, h3, _⟩ := process_cell_slider T mem s (bin : ℤ)
    simp only [process_loop, List.range'_succ, List.map_cons]
    rw [process_cell_power]
    have := ih (s.process_cell T mem (bin : ℤ)).2 (bin + 1)
    push_cast at this
    rw [this, h1, h2, h3]

theorem filterMap_zip_map {α β γ : Type} (l : List α) (c : α → β) (g : α × β → Option γ) :
    (l.zip (l.map c)).filterMap g = l.filterMap (fun a => g (a, c a)) := by
  induction l with
  | nil => rfl
  | cons a t ih => simp only [List.map_cons, List.zip_cons_cons, List.filterMap_cons, ih]

theorem points_eq_filterMap {V : Type} (T : Slider_traits V) (mem : ℤ → V) (r : Range)
    (w : Window) (f : ℕ → ℚ) (h : r.start ≤ r.end_) :
    points T mem r w f
      = (List.range' r.start (r.end_ - r.start)).filterMap
          (cell_point T mem w (r.start : ℤ) (r.end_ : ℤ) f) := by
  simp only [points, first_n_points]
  rw [first_n_points_loop_all]
  · rfl
  · simp only [Window_slider.create, Range.size, if_pos h]
    omega

theorem accumulate_ge {V : Type} (plus : V → V → V) (mem : ℤ → V) (first last : ℤ) (init : V)
    (h : last ≤ first) : accumulate plus mem first last init = init := by
  have h0 : (last - first).toNat = 0 := by omega
  simp only [accumulate, h0, List.range_zero, List.foldl_nil]

theorem accumulate_lt {V : Type} (plus : V → V → V) (mem : ℤ → V) (first last : ℤ) (init : V)
    (h : first < last) :
    accumulate plus mem first last init
      = accumulate plus mem (first + 1) last (plus init (mem first)) := by
  have h1 : (last - first).toNat = (last - (first + 1)).toNat + 1 := by omega
  simp only [accumulate, h1, List.range_succ_eq_map, List.foldl_cons, List.foldl_map]
  have h2 : ∀ k : ℕ, first + ((k + 1 : ℕ) : ℤ) = first + 1 + (k : ℤ) := by
    intro k; push_cast; ring
  simp only [Nat.succ_eq_add_one, h2, Nat.cast_zero, add_zero]

theorem spec_training_cells_not_self (S G n i : ℕ) (j : ℤ)
    (hj : j ∈ spec_training_cells S G n i) : j ≠ (i : ℤ) := by
  simp only [spec_training_cells, Finset.mem_filter] at hj
  exact hj.2.1

theorem spec_training_cells_card_pos (w : Window) (n i : ℕ)
    (hodd : w.size % 2 = 1) (hmin : 2 * w.guard_cells + 3 ≤ w.size)
    (hn : w.size ≤ n) (hi : i < n) :
    0 < (spec_training_cells w.size w.guard_cells n i).card := by
  have hcard := training_elems_eq_card w n i hodd hmin hn hi
  have hpos := training_bounds_elems_pos w 0 n i (by omega)
  omega

theorem spec_training_cells_card_le (S G n i : ℕ) :
    (spec_training_cells S G n i).card ≤ S := by
  simp only [spec_training_cells]
  calc ((Finset.Ico (spec_window_start S n i) (spec_window_start S n i + (S : ℤ))).filter _).card
      ≤ (Finset.Ico (spec_window_start S n i) (spec_window_start S n i + (S : ℤ))).card :=
        Finset.card_filter_le _ _
    _ = S := by rw [Int.card_Ico]; simp

theorem float_sum_append (x : List ℚ) (l : List ℕ) (j : ℕ) :
    float_sum x (l ++ [j]) = round_to_float (float_sum x l + x.getD j 0) := by
  simp only [float_sum, List.foldl_append, List.foldl_cons, List.foldl_nil]

/-- The `float` sum of integer cells of magnitude at most `M` is exact as long as the number
of cells times `M` is at most `2 ^ 24`. -/
theorem float_sum_int (x : List ℚ) (z : ℕ → ℤ) (M : ℕ) :
    ∀ (cells : List ℕ), (∀ j ∈ cells, x.getD j 0 = (z j : ℚ)) → (∀ j ∈ cells, |z j| ≤ M) →
      cells.length * M ≤ 2 ^ 24 →
      float_sum x cells = (((cells.map z).sum : ℤ) : ℚ)
        ∧ |(cells.map z).sum| ≤ ((cells.length * M : ℕ) : ℤ) := by
  intro cells
  induction cells using List.reverseRecOn with
  | nil => intro _ _ _; simp [float_sum]
  | append_singleton l j ih =>
    intro hx hz hM
    have hlen : (l ++ [j]).length = l.length + 1 := by simp
    rw [hlen] at hM ⊢
    obtain ⟨e1, e2⟩ := ih (fun c hc => hx c (List.mem_append_left _ hc))
      (fun c hc => hz c (List.mem_append_left _ hc))
      (le_trans (Nat.mul_le_mul_right M (Nat.le_succ _)) hM)
    have hzj := hz j (by simp)
    have hsum : ((l ++ [j]).map z).sum = (l.map z).sum + z j := by simp
    have hb : |(l.map z).sum + z j| ≤ (((l.length + 1) * M : ℕ) : ℤ) := by
      have := abs_add (l.map z).sum (z j)
      push_cast at e2 ⊢
      linarith
    refine ⟨?_, by rw [hsum]; exact hb⟩
    rw [float_sum_append, e1, hx j (by simp), hsum]
    have hcast : (((l.map z).sum : ℤ) : ℚ) + ((z j : ℤ) : ℚ) = (((l.map z).sum + z j : ℤ) : ℚ) := by
      push_cast; ring
    rw [hcast]
    apply round_to_float_intCast
    calc |(l.map z).sum + z j| ≤ (((l.length + 1) * M : ℕ) : ℤ) := hb
      _ ≤ 2 ^ 24 := by exact_mod_cast hM

theorem list_sum_const_int (z : ℕ → ℤ) (c : ℤ) :
    ∀ (cells : List ℕ), (∀ j ∈ cells, z j = c) → (cells.map z).sum = (cells.length : ℤ) * c := by
  intro cells
  induction cells with
  | nil => intro _; simp
  | cons a t ih =>
    intro h
    rw [List.map_cons, List.sum_cons, h a (List.mem_cons_self _ _),
      ih (fun j hj => h j (List.mem_cons_of_mem _ hj))]
    simp only [List.length_cons]
    push_cast
    ring

theorem list_sum_ge_int (z : ℕ → ℤ) (c : ℤ) :
    ∀ (cells : List ℕ), (∀ j ∈ cells, c ≤ z j) → (cells.length : ℤ) * c ≤ (cells.map z).sum := by
  intro cells
  induction cells with
  | nil => intro _; simp
  | cons a t ih =>
    intro h
    have h1 := h a (List.mem_cons_self _ _)
    have h2 := ih (fun j hj => h j (List.mem_cons_of_mem _ hj))
    rw [List.map_cons, List.sum_cons]
    simp only [List.length_cons]
    push_cast
    linarith

/-- A spike among integer cells.  `b` and `h` are integers of magnitude at most `M`, the
window size times `M` is at most `2 ^ 24`, so that every `float` sum is exact. -/
theorem spike_cell_power (x : List ℚ) (outside : ℤ → ℚ) (w : Window) (b h : ℤ) (M k : ℕ)
    (hodd : w.size % 2 = 1) (hmin : 2 * w.guard_cells + 3 ≤ w.size)
    (hn : w.size ≤ x.length)
    (hx : ∀ j, j < x.length → x.getD j 0 = if j = k then (h : ℚ) else (b : ℚ))
    (hbM : |b| ≤ M) (hhM : |h| ≤ M) (hM : w.size * M ≤ 2 ^ 24)
    (hd0 : 0 ≤ w.threshold_delta)
    (hd : (h : ℚ) > round_to_float ((b : ℚ) + w.threshold_delta))
    (j : ℕ) (hj : j < x.length) :
    cell_power float_traits (vector_memory x outside) w 0 x.length j
      = if j = k then (h : ℚ) else 0 := by
  rw [cell_power_float_eq_spec x outside w j hodd hmin hn hj]
  have hcpos := spec_training_cells_card_pos w x.length j hodd hmin hn hj
  have hcle := spec_training_cells_card_le w.size w.guard_cells x.length j
  have hlens := spec_training_lists_length w x.length j hodd hmin hn hj
  have hb24 : |b| ≤ 2 ^ 24 := by
    have h1 : (1 : ℕ) * M ≤ w.size * M := Nat.mul_le_mul_right M (by omega)
    have h2 : ((M : ℕ) : ℤ) ≤ 2 ^ 24 := by exact_mod_cast (by omega : M ≤ 2 ^ 24)
    omega
  have hrb : round_to_float (b : ℚ) = (b : ℚ) := round_to_float_intCast b hb24
  have hbh : (b : ℚ) ≤ (h : ℚ) := by
    have h1 : round_to_float (b : ℚ) ≤ round_to_float ((b : ℚ) + w.threshold_delta) :=
      round_to_float_mono (by linarith)
    rw [hrb] at h1
    linarith
  have hbhz : b ≤ h := by exact_mod_cast hbh
  -- the cells as integers
  let z : ℕ → ℤ := fun c => if c = k then h else b
  have hzM : ∀ c, |z c| ≤ M := by
    intro c
    simp only [z]
    split_ifs
    · exact hhM
    · exact hbM
  have hxz : ∀ c, c < x.length → x.getD c 0 = (z c : ℚ) := by
    intro c hc
    rw [hx c hc]
    simp only [z]
    split_ifs <;> rfl
  have hlenB : (spec_training_below w.size w.guard_cells x.length j).length * M ≤ 2 ^ 24 :=
    le_trans (Nat.mul_le_mul_right M (by omega)) hM
  have hlenA : (spec_training_above w.size w.guard_cells x.length j).length * M ≤ 2 ^ 24 :=
    le_trans (Nat.mul_le_mul_right M (by omega)) hM
  obtain ⟨eB, bB⟩ := float_sum_int x z M (spec_training_below w.size w.guard_cells x.length j)
    (fun c hc => hxz c ((spec_training_lists_mem _ _ _ _ c).1 hc).1) (fun c _ => hzM c) hlenB
  obtain ⟨eA, bA⟩ := float_sum_int x z M (spec_training_above w.size w.guard_cells x.length j)
    (fun c hc => hxz c ((spec_training_lists_mem _ _ _ _ c).2 hc).1) (fun c _ => hzM c) hlenA
  have hcardM : (spec_training_cells w.size w.guard_cells x.length j).card * M ≤ 2 ^ 24 :=
    le_trans (Nat.mul_le_mul_right M hcle) hM
  have hM1 : 1 ≤ M := by
    rcases Nat.eq_zero_or_pos M with h0 | h0
    · exfalso
      subst h0
      have hb0 : b = 0 := by
        have : |b| ≤ 0 := by exact_mod_cast hbM
        exact abs_nonpos_iff.mp this
      have hh0 : h = 0 := by
        have : |h| ≤ 0 := by exact_mod_cast hhM
        exact abs_nonpos_iff.mp this
      have h1 : round_to_float (0 : ℚ) ≤ round_to_float ((b : ℚ) + w.threshold_delta) :=
        round_to_float_mono (by rw [hb0]; simpa using hd0)
      rw [round_to_float_zero] at h1
      rw [hh0] at hd
      simp only [Int.cast_zero] at hd
      linarith
    · exact h0
  have hcard24 : (spec_training_cells w.size w.guard_cells x.length j).card ≤ 2 ^ 24 := by
    calc (spec_training_cells w.size w.guard_cells x.length j).card
        = (spec_training_cells w.size w.guard_cells x.length j).card * 1 := (Nat.mul_one _).symm
      _ ≤ (spec_training_cells w.size w.guard_cells x.length j).card * M :=
          Nat.mul_le_mul_left _ hM1
      _ ≤ 2 ^ 24 := hcardM
  have hrc : round_to_float ((spec_training_cells w.size w.guard_cells x.length j).card : ℚ)
      = ((spec_training_cells w.size w.guard_cells x.length j).card : ℚ) :=
    round_to_float_natCast _ hcard24
  have hcq : (0 : ℚ) < ((spec_training_cells w.size w.guard_cells x.length j).card : ℚ) := by
    exact_mod_cast hcpos
  -- the sum of the two sums is exact
  have htot : round_to_float
        (float_sum x (spec_training_below w.size w.guard_cells x.length j)
          + float_sum x (spec_training_above w.size w.guard_cells x.length j))
      = ((((spec_training_below w.size w.guard_cells x.length j).map z).sum
          + ((spec_training_above w.size w.guard_cells x.length j).map z).sum : ℤ) : ℚ) := by
    rw [eB, eA]
    have hcast : ((((spec_training_below w.size w.guard_cells x.length j).map z).sum : ℤ) : ℚ)
        + ((((spec_training_above w.size w.guard_cells x.length j).map z).sum : ℤ) : ℚ)
        = ((((spec_training_below w.size w.guard_cells x.length j).map z).sum
          + ((spec_training_above w.size w.guard_cells x.length j).map z).sum : ℤ) : ℚ) := by
      push_cast; ring
    rw [hcast]
    apply round_to_float_intCast
    have h1 := abs_add ((spec_training_below w.size w.guard_cells x.length j).map z).sum
      ((spec_training_above w.size w.guard_cells x.length j).map z).sum
    have h2 : (((spec_training_below w.size w.guard_cells x.length j).length * M : ℕ) : ℤ)
        + (((spec_training_above w.size w.guard_cells x.length j).length * M : ℕ) : ℤ)
        = (((spec_training_cells w.size w.guard_cells x.length j).card * M : ℕ) : ℤ) := by
      rw [← hlens]; push_cast; ring
    have h3 : (((spec_training_cells w.size w.guard_cells x.length j).card * M : ℕ) : ℤ)
        ≤ 2 ^ 24 := by exact_mod_cast hcardM
    linarith
  simp only [spec_float_process_cell, spec_float_average, hx j hj]
  rw [htot, hrc]
  by_cases hjk : j = k
  · -- the spike: every training cell holds the background
    have hsB := list_sum_const_int z b (spec_training_below w.size w.guard_cells x.length j)
      (fun c hc => by
        have := ((spec_training_lists_mem _ _ _ _ c).1 hc).2
        simp only [z]; rw [if_neg (by omega)])
    have hsA := list_sum_const_int z b (spec_training_above w.size w.guard_cells x.length j)
      (fun c hc => by
        have := ((spec_training_lists_mem _ _ _ _ c).2 hc).2
        simp only [z]; rw [if_neg (by omega)])
    have havg : ((((spec_training_below w.size w.guard_cells x.length j).map z).sum
          + ((spec_training_above w.size w.guard_cells x.length j).map z).sum : ℤ) : ℚ)
        / ((spec_training_cells w.size w.guard_cells x.length j).card : ℚ) = (b : ℚ) := by
      rw [hsB, hsA, div_eq_iff (ne_of_gt hcq), ← hlens]
      push_cast
      ring
    rw [havg, hrb, if_pos hjk, if_pos hjk, if_pos hd]
  · -- a background cell: the mean of its training cells is at least the background
    have hsB := list_sum_ge_int z b (spec_training_below w.size w.guard_cells x.length j)
      (fun c _ => by simp only [z]; split_ifs <;> omega)
    have hsA := list_sum_ge_int z b (spec_training_above w.size w.guard_cells x.length j)
      (fun c _ => by simp only [z]; split_ifs <;> omega)
    have havg : (b : ℚ)
        ≤ ((((spec_training_below w.size w.guard_cells x.length j).map z).sum
          + ((spec_training_above w.size w.guard_cells x.length j).map z).sum : ℤ) : ℚ)
        / ((spec_training_cells w.size w.guard_cells x.length j).card : ℚ) := by
      rw [le_div_iff₀ hcq]
      have : (((spec_training_cells w.size w.guard_cells x.length j).card : ℤ)) * b
          ≤ ((spec_training_below w.size w.guard_cells x.length j).map z).sum
            + ((spec_training_above w.size w.guard_cells x.length j).map z).sum := by
        rw [← hlens]; push_cast; linarith
      have hq := (Int.cast_le (R := ℚ)).mpr this
      push_cast at hq ⊢
      linarith
    have h1 := round_to_float_mono havg
    rw [hrb] at h1
    have h2 : round_to_float (b : ℚ) ≤ round_to_float
        (round_to_float (((((spec_training_below w.size w.guard_cells x.length j).map z).sum
          + ((spec_training_above w.size w.guard_cells x.length j).map z).sum : ℤ) : ℚ)
        / ((spec_training_cells w.size w.guard_cells x.length j).card : ℚ))
          + w.threshold_delta) := round_to_float_mono (by linarith)
    rw [hrb] at h2
    rw [if_neg hjk, if_neg hjk, if_neg (by linarith)]

theorem filterMap_range'_none {γ : Type} (g : ℕ → Option γ) (s n : ℕ)
    (hg : ∀ b, s ≤ b → b < s + n → g b = none) : (List.range' s n).filterMap g = [] := by
  rw [List.filterMap_eq_nil_iff]
  intro b hb
  rw [List.mem_range'_1] at hb
  exact hg b hb.1 hb.2

theorem filterMap_range'_single {γ : Type} (g : ℕ → Option γ) (a : γ) (k : ℕ) :
    ∀ (n s : ℕ), s ≤ k → k < s + n → g k = some a →
      (∀ b, s ≤ b → b < s + n → b ≠ k → g b = none) →
      (List.range' s n).filterMap g = [a] := by
  intro n
  induction n with
  | zero => intro s h1 h2; omega
  | succ m ih =>
    intro s h1 h2 hk hnone
    rw [List.range'_succ, List.filterMap_cons]
    by_cases hs : s = k
    · subst hs
      rw [hk, filterMap_range'_none g (s + 1) m
        (fun b hb1 hb2 => hnone b (by omega) (by omega) (by omega))]
    · rw [hnone s (le_refl s) (by omega) hs]
      exact ih (s + 1) (by omega) (by omega) hk
        (fun b hb1 hb2 hb3 => hnone b (by omega) (by omega) hb3)

theorem points_vector_eq_points {V : Type} (T : Slider_traits V) (bits : ℕ) (x : List V)
    (outside : ℤ → V) (w : Window) (f : ℕ → ℚ) (hlen : x.length < 2 ^ bits) :
    points_vector T bits x outside w f
      = points T (vector_memory x outside) (Range.upto x.length) w f := by
  simp only [points_vector, points, Range.upto_size, Range.upto, Range.size,
    Nat.mod_eq_of_lt hlen, Nat.zero_le, if_true, Nat.sub_zero]

theorem spike_points (x : List ℚ) (outside : ℤ → ℚ) (w : Window) (b h : ℤ) (M k : ℕ)
    (f : ℕ → ℚ)
    (hodd : w.size % 2 = 1) (hmin : 2 * w.guard_cells + 3 ≤ w.size)
    (hn : w.size ≤ x.length) (hk : k < x.length)
    (hx : ∀ j, j < x.length → x.getD j 0 = if j = k then (h : ℚ) else (b : ℚ))
    (hbM : |b| ≤ M) (hhM : |h| ≤ M) (hM : w.size * M ≤ 2 ^ 24)
    (hd0 : 0 ≤ w.threshold_delta)
    (hd : (h : ℚ) > round_to_float ((b : ℚ) + w.threshold_delta)) (hpos : 0 < h) :
    points float_traits (vector_memory x outside) (Range.upto x.length) w f
      = [{ range := f k, power := (h : ℚ) }] := by
  have hposq : (0 : ℚ) < (h : ℚ) := by exact_mod_cast hpos
  rw [points_eq_filterMap _ _ _ _ _ (Nat.zero_le _)]
  simp only [Range.upto, Nat.sub_zero, Nat.cast_zero]
  apply filterMap_range'_single _ _ k _ _ (Nat.zero_le _) (by omega)
  · simp only [cell_point]
    rw [spike_cell_power x outside w b h M k hodd hmin hn hx hbM hhM hM hd0 hd k hk, if_pos rfl,
      if_pos hposq]
  · intro c _ hc2 hck
    simp only [cell_point]
    rw [spike_cell_power x outside w b h M k hodd hmin hn hx hbM hhM hM hd0 hd c (by omega),
      if_neg hck, if_neg (lt_irrefl _)]

theorem process_vector_getElem {V : Type} (T : Slider_traits V) (x : List V) (outside : ℤ → V)
    (w : Window) (j : ℕ) (hj : j < x.length) :
    (process_vector T x outside w)[j]?
      = some (cell_power T (vector_memory x outside) w 0 x.length j) := by
  simp only [process_vector, process]
  rw [process_loop_getElem _ _ _ _ _ j (by omega)]
  simp only [Window_slider.create, zero_add]

theorem from_dB_uint8_30 : uint8_traits.from_dB 30 = 60 := by
  norm_num [uint8_traits, trunc, round_to_float_ofNat]
  rfl

/-! ## Window construction -/

/-- C6: for a requested size `s` and guard count `g` of type `Bin` with `2g + 3`
representable in `Bin`, both constructors build a window whose size is odd and at least
`2g + 3`; an even `s >= 2g + 3` becomes `s + 1` and an odd `s >= 2g + 3` is kept. -/
theorem window_constructor_size_odd_and_min (bits s g : ℕ) (delta : ℚ)
    (hs : s < 2 ^ bits) (hg : 2 * g + 3 < 2 ^ bits) :
    ((Window.create bits s g).size % 2 = 1
      ∧ 2 * g + 3 ≤ (Window.create bits s g).size
      ∧ (s % 2 = 0 → 2 * g + 3 ≤ s → (Window.create bits s g).size = s + 1)
      ∧ (s % 2 = 1 → 2 * g + 3 ≤ s → (Window.create bits s g).size = s))
    ∧ ((Window.create_delta bits s g delta).size % 2 = 1
      ∧ 2 * g + 3 ≤ (Window.create_delta bits s g delta).size
      ∧ (s % 2 = 0 → 2 * g + 3 ≤ s → (Window.create_delta bits s g delta).size = s + 1)
      ∧ (s % 2 = 1 → 2 * g + 3 ≤ s → (Window.create_delta bits s g delta).size = s)) :=
  window_size_odd_min bits s g delta hs hg

/-- Witness of C6 with a 16-bit `Bin`: `Window(10, 2, 30)` has size 11. -/
theorem window_constructor_size_odd_and_min_witness :
    (10 < 2 ^ 16 ∧ 2 * 2 + 3 < 2 ^ 16)
    ∧ (Window.create_delta 16 10 2 30).size = 10 + 1 :=
  ⟨⟨by norm_num, by norm_num⟩,
    (window_constructor_size_odd_and_min 16 10 2 30 (by norm_num) (by norm_num)).2.2.2.1
      (by norm_num) (by norm_num)⟩

/-! ## Output length -/

theorem window_7_32767 :
    Window.create 16 7 32767 = { size := 7, guard_cells := 32767, threshold_delta := 0 } := by
  simp [Window.create, Window.resize, force_odd]

theorem round_to_float_nat_mul_pow (k : ℕ) (hk : k < 2 ^ 24) (e : ℕ) :
    round_to_float ((k : ℚ) * 2 ^ e) = (k : ℚ) * 2 ^ e := by
  have := round_to_float_of_representable (k : ℤ) (e : ℤ)
    (by rw [abs_of_nonneg (by positivity)]; exact_mod_cast hk) (by omega)
  simpa [zpow_natCast] using this

theorem round_to_float_two_pow (e : ℕ) : round_to_float ((2 : ℚ) ^ e) = (2 : ℚ) ^ e := by
  have := round_to_float_nat_mul_pow 1 (by norm_num) e
  simpa using this

theorem round_to_float_abs_le {q r : ℚ} (h : |q| ≤ r) (hr : round_to_float r = r) :
    |round_to_float q| ≤ r := by
  rw [abs_le] at h ⊢
  constructor
  · have := round_to_float_mono h.1
    rw [round_to_float_neg, hr] at this
    exact this
  · exact round_to_float_le_of_le h.2 hr

/-- No `float` sum of fewer than `2 ^ 24` cells of magnitude at most `2 ^ e` exceeds the
number of cells times `2 ^ e`. -/
theorem float_sum_abs_le (x : List ℚ) (e : ℕ) :
    ∀ (cells : List ℕ), cells.length < 2 ^ 24 → (∀ j ∈ cells, |x.getD j 0| ≤ 2 ^ e) →
      |float_sum x cells| ≤ (cells.length : ℚ) * 2 ^ e := by
  intro cells
  induction cells using List.reverseRecOn with
  | nil => intro _ _; simp [float_sum]
  | append_singleton l j ih =>
    intro hlen hx
    have hl : (l ++ [j]).length = l.length + 1 := by simp
    rw [hl] at hlen ⊢
    have h1 := ih (by omega) (fun c hc => hx c (List.mem_append_left _ hc))
    have h2 := hx j (by simp)
    rw [float_sum_append]
    apply round_to_float_abs_le
    · have := abs_add (float_sum x l) (x.getD j 0)
      push_cast
      linarith
    · exact round_to_float_nat_mul_pow (l.length + 1) hlen e

theorem getD_abs_le (x : List ℚ) (B : ℚ) (hB : 0 ≤ B) (h : ∀ v ∈ x, |v| ≤ B) (j : ℕ) :
    |x.getD j 0| ≤ B := by
  by_cases hj : j < x.length
  · rw [List.getD_eq_getElem _ _ hj]
    exact h _ (List.getElem_mem _)
  · rw [List.getD_eq_default _ _ (by omega)]
    simpa using hB

/-- With fewer than `2 ^ 24` cells of magnitude at most `2 ^ 100` and a threshold of
magnitude at most `2 ^ 100`, the level that a cell is compared with has a magnitude of at
most `2 ^ 125`: no operation of the rule overflows. -/
theorem spec_float_level_abs_le (x : List ℚ) (w : Window) (i : ℕ)
    (hodd : w.size % 2 = 1) (hmin : 2 * w.guard_cells + 3 ≤ w.size)
    (hn : w.size ≤ x.length) (hi : i < x.length)
    (hlen : x.length < 2 ^ 24) (hfin : ∀ v ∈ x, |v| ≤ 2 ^ 100)
    (hdelta : |w.threshold_delta| ≤ 2 ^ 100) :
    |float_sum x (spec_training_below w.size w.guard_cells x.length i)| ≤ 2 ^ 124
    ∧ |float_sum x (spec_training_above w.size w.guard_cells x.length i)| ≤ 2 ^ 124
    ∧ |spec_float_average x w.size w.guard_cells i| ≤ 2 ^ 124
    ∧ |round_to_float (spec_float_average x w.size w.guard_cells i + w.threshold_delta)|
        ≤ 2 ^ 125 := by
  have hlens := spec_training_lists_length w x.length i hodd hmin hn hi
  have hcle := spec_training_cells_card_le w.size w.guard_cells x.length i
  have hcpos := spec_training_cells_card_pos w x.length i hodd hmin hn hi
  have hB := float_sum_abs_le x 100 (spec_training_below w.size w.guard_cells x.length i)
    (by omega) (fun j _ => getD_abs_le x _ (by positivity) hfin j)
  have hA := float_sum_abs_le x 100 (spec_training_above w.size w.guard_cells x.length i)
    (by omega) (fun j _ => getD_abs_le x _ (by positivity) hfin j)
  have hcard : ((spec_training_cells w.size w.guard_cells x.length i).card : ℚ) ≤ 2 ^ 24 := by
    have : (spec_training_cells w.size w.guard_cells x.length i).card ≤ 2 ^ 24 := by omega
    exact_mod_cast this
  have hlB : ((spec_training_below w.size w.guard_cells x.length i).length : ℚ)
      + ((spec_training_above w.size w.guard_cells x.length i).length : ℚ)
      = ((spec_training_cells w.size w.guard_cells x.length i).card : ℚ) := by
    exact_mod_cast hlens
  have hlB0 : (0 : ℚ) ≤ ((spec_training_below w.size w.guard_cells x.length i).length : ℚ) :=
    Nat.cast_nonneg _
  have hlA0 : (0 : ℚ) ≤ ((spec_training_above w.size w.guard_cells x.length i).length : ℚ) :=
    Nat.cast_nonneg _
  have hp : (0 : ℚ) < 2 ^ 100 := by positivity
  have e124 : (2 : ℚ) ^ 124 = 2 ^ 24 * 2 ^ 100 := by norm_num
  have hBb : |float_sum x (spec_training_below w.size w.guard_cells x.length i)| ≤ 2 ^ 124 := by
    rw [e124]
    calc |float_sum x (spec_training_below w.size w.guard_cells x.length i)|
        ≤ ((spec_training_below w.size w.guard_cells x.length i).length : ℚ) * 2 ^ 100 := hB
      _ ≤ 2 ^ 24 * 2 ^ 100 := by
          apply mul_le_mul_of_nonneg_right _ (le_of_lt hp)
          linarith
  have hAb : |float_sum x (spec_training_above w.size w.guard_cells x.length i)| ≤ 2 ^ 124 := by
    rw [e124]
    calc |float_sum x (spec_training_above w.size w.guard_cells x.length i)|
        ≤ ((spec_training_above w.size w.guard_cells x.length i).length : ℚ) * 2 ^ 100 := hA
      _ ≤ 2 ^ 24 * 2 ^ 100 := by
          apply mul_le_mul_of_nonneg_right _ (le_of_lt hp)
          linarith
  have hsum : |round_to_float
      (float_sum x (spec_training_below w.size w.guard_cells x.length i)
        + float_sum x (spec_training_above w.size w.guard_cells x.length i))| ≤ 2 ^ 124 := by
    apply round_to_float_abs_le _ (round_to_float_two_pow 124)
    have := abs_add (float_sum x (spec_training_below w.size w.guard_cells x.length i))
      (float_sum x (spec_training_above w.size w.guard_cells x.length i))
    rw [e124]
    calc |float_sum x (spec_training_below w.size w.guard_cells x.length i)
          + float_sum x (spec_training_above w.size w.guard_cells x.length i)|
        ≤ ((spec_training_below w.size w.guard_cells x.length i).length : ℚ) * 2 ^ 100
          + ((spec_training_above w.size w.guard_cells x.length i).length : ℚ) * 2 ^ 100 := by
          linarith
      _ = ((spec_training_cells w.size w.guard_cells x.length i).card : ℚ) * 2 ^ 100 := by
          rw [← hlB]; ring
      _ ≤ 2 ^ 24 * 2 ^ 100 := mul_le_mul_of_nonneg_right hcard (le_of_lt hp)
  have hc1 : (1 : ℚ)
      ≤ round_to_float ((spec_training_cells w.size w.guard_cells x.length i).card : ℚ) := by
    apply le_round_to_float_of_le _ round_to_float_one
    exact_mod_cast hcpos
  have havg : |spec_float_average x w.size w.guard_cells i| ≤ 2 ^ 124 := by
    simp only [spec_float_average]
    apply round_to_float_abs_le _ (round_to_float_two_pow 124)
    rw [abs_div, abs_of_pos (lt_of_lt_of_le one_pos hc1)]
    calc |round_to_float
          (float_sum x (spec_training_below w.size w.guard_cells x.length i)
            + float_sum x (spec_training_above w.size w.guard_cells x.length i))|
          / round_to_float ((spec_training_cells w.size w.guard_cells x.length i).card : ℚ)
        ≤ |round_to_float
          (float_sum x (spec_training_below w.size w.guard_cells x.length i)
            + float_sum x (spec_training_above w.size w.guard_cells x.length i))| :=
          div_le_self (abs_nonneg _) hc1
      _ ≤ 2 ^ 124 := hsum
  refine ⟨hBb, hAb, havg, ?_⟩
  apply round_to_float_abs_le _ (round_to_float_two_pow 125)
  have := abs_add (spec_float_average x w.size w.guard_cells i) w.threshold_delta
  have e125 : (2 : ℚ) ^ 124 + 2 ^ 100 ≤ 2 ^ 125 := by norm_num
  linarith

theorem window_3_0 (delta : ℚ) :
    Window.create_delta 16 3 0 delta = { size := 3, guard_cells := 0, threshold_delta := delta } := by
  simp [Window.create_delta, Window.resize, force_odd]

/-- The cells `{0.1f, 0.3f, 0.1f}` with `Window(3, 0, 0.2f)`: every cell is zeroed. -/
theorem process_tenth_spike :
    process_vector float_traits tenth_spike_input (fun _ => 0)
        { size := 3, guard_cells := 0, threshold_delta := float_0_2 } = [0, 0, 0] := by
  have m0 : vector_memory tenth_spike_input (fun _ => (0:ℚ)) 0 = float_0_1 := by rfl
  have m1 : vector_memory tenth_spike_input (fun _ => (0:ℚ)) 1 = float_0_3 := by rfl
  have m2 : vector_memory tenth_spike_input (fun _ => (0:ℚ)) 2 = float_0_1 := by rfl
  have hb0 : training_bounds { size := 3, guard_cells := 0, threshold_delta := float_0_2 } 0 3 0
      = ⟨0, 0, 1, 3⟩ := by norm_num [training_bounds]
  have hb1 : training_bounds { size := 3, guard_cells := 0, threshold_delta := float_0_2 } 0 3 1
      = ⟨0, 1, 2, 3⟩ := by norm_num [training_bounds]
  have hb2 : training_bounds { size := 3, guard_cells := 0, threshold_delta := float_0_2 } 0 3 2
      = ⟨0, 2, 3, 3⟩ := by norm_num [training_bounds]
  have r1 := round_to_float_float_0_1
  have r3 := round_to_float_float_0_3
  have r12 := float_0_1_add_0_2.1
  have r2 : round_to_float 2 = 2 := round_to_float_ofNat 2 (by norm_num)
  have r11 : round_to_float (float_0_1 + float_0_1) = float_0_2 := by
    have e : float_0_1 + float_0_1 = float_0_2 := by norm_num [float_0_1, float_0_2]
    rw [e, round_to_float_float_0_2]
  have h21 : float_0_2 / 2 = float_0_1 := by norm_num [float_0_1, float_0_2]
  have h12 : float_0_1 ≤ float_0_2 := by norm_num [float_0_1, float_0_2]
  have p1 : (0 : ℚ) ≤ float_0_1 := by norm_num [float_0_1]
  have p3 : (0 : ℚ) ≤ float_0_3 := by norm_num [float_0_3]
  have e0 : ¬ cell_exceeds float_traits (vector_memory tenth_spike_input (fun _ => 0))
      { size := 3, guard_cells := 0, threshold_delta := float_0_2 } 0 3 0 := by
    simp only [cell_exceeds, hb0, Training_bounds.elems]
    simp only [accumulate_lt, accumulate_ge, float_traits, m0, m1, m2, sub_self, zero_add,
      round_to_float_zero, r2, Int.reduceSub, Int.reduceAdd, Int.reduceLT,
      Int.reduceLE, le_refl, Int.cast_ofNat, add_zero]
    rintro ⟨-, h⟩
    have hs : 0 ≤ round_to_float (round_to_float (round_to_float float_0_3 + float_0_1)) :=
      round_to_float_nonneg (round_to_float_nonneg (add_nonneg (round_to_float_nonneg p3) p1))
    have h1 := round_to_float_nonneg (div_nonneg hs (by norm_num : (0 : ℚ) ≤ 2))
    have h2 := le_round_to_float_of_le
      (q := round_to_float
        (round_to_float (round_to_float (round_to_float float_0_3 + float_0_1)) / 2) + float_0_2)
      (r := float_0_2) (by linarith) round_to_float_float_0_2
    linarith
  have e1 : ¬ cell_exceeds float_traits (vector_memory tenth_spike_input (fun _ => 0))
      { size := 3, guard_cells := 0, threshold_delta := float_0_2 } 0 3 1 := by
    simp only [cell_exceeds, hb1, Training_bounds.elems]
    simp only [accumulate_lt, accumulate_ge, float_traits, m0, m1, m2, sub_self, zero_add,
      round_to_float_zero, r3, r1, r2, r11, h21, r12, Int.reduceSub, Int.reduceAdd,
      Int.reduceLT, Int.reduceLE, le_refl, Int.cast_ofNat, add_zero]
    norm_num
  have e2 : ¬ cell_exceeds float_traits (vector_memory tenth_spike_input (fun _ => 0))
      { size := 3, guard_cells := 0, threshold_delta := float_0_2 } 0 3 2 := by
    simp only [cell_exceeds, hb2, Training_bounds.elems]
    simp only [accumulate_lt, accumulate_ge, float_traits, m0, m1, m2, sub_self, zero_add,
      round_to_float_zero, r2, Int.reduceSub, Int.reduceAdd, Int.reduceLT,
      Int.reduceLE, le_refl, Int.cast_ofNat, add_zero]
    rintro ⟨-, h⟩
    have hs : 0 ≤ round_to_float (round_to_float (round_to_float float_0_1 + float_0_3)) :=
      round_to_float_nonneg (round_to_float_nonneg (add_nonneg (round_to_float_nonneg p1) p3))
    have h1 := round_to_float_nonneg (div_nonneg hs (by norm_num : (0 : ℚ) ≤ 2))
    have h2 := le_round_to_float_of_le
      (q := round_to_float
        (round_to_float (round_to_float (round_to_float float_0_1 + float_0_3)) / 2) + float_0_2)
      (r := float_0_2) (by linarith) round_to_float_float_0_2
    linarith
  have hlen : ((tenth_spike_input.length : ℕ) : ℤ) = 3 := by rfl
  simp only [process_vector, process, hlen, process_loop, process_cell_eq,
    Window_slider.create, sub_zero, zero_add, Int.toNat_ofNat, Int.reduceToNat, Int.reduceAdd,
    e0, e1, e2, if_true, if_false]

/-- The level of a `float` cell whose training cells sum to `s >= 0`, with the threshold
`0.2f`, is at least `0.1f`. -/
theorem tenth_level_ge (s : ℚ) (hs : 0 ≤ s) :
    float_0_1 ≤ round_to_float (round_to_float (s / 2) + float_0_2) := by
  have h12 : float_0_1 ≤ float_0_2 := by norm_num [float_0_1, float_0_2]
  have h1 := round_to_float_nonneg (div_nonneg hs (by norm_num : (0 : ℚ) ≤ 2))
  have h2 := le_round_to_float_of_le (q := round_to_float (s / 2) + float_0_2) (r := float_0_2)
    (by linarith) round_to_float_float_0_2
  linarith

/-- The cells `{0.3f, 0.1f, 0.1f}` with `Window(3, 0, 0.2f)`: every cell is zeroed. -/
theorem process_tenth_edge :
    process_vector float_traits tenth_edge_input (fun _ => 0)
        { size := 3, guard_cells := 0, threshold_delta := float_0_2 } = [0, 0, 0] := by
  have m0 : vector_memory tenth_edge_input (fun _ => (0:ℚ)) 0 = float_0_3 := by rfl
  have m1 : vector_memory tenth_edge_input (fun _ => (0:ℚ)) 1 = float_0_1 := by rfl
  have m2 : vector_memory tenth_edge_input (fun _ => (0:ℚ)) 2 = float_0_1 := by rfl
  have hb0 : training_bounds { size := 3, guard_cells := 0, threshold_delta := float_0_2 } 0 3 0
      = ⟨0, 0, 1, 3⟩ := by norm_num [training_bounds]
  have hb1 : training_bounds { size := 3, guard_cells := 0, threshold_delta := float_0_2 } 0 3 1
      = ⟨0, 1, 2, 3⟩ := by norm_num [training_bounds]
  have hb2 : training_bounds { size := 3, guard_cells := 0, threshold_delta := float_0_2 } 0 3 2
      = ⟨0, 2, 3, 3⟩ := by norm_num [training_bounds]
  have r1 := round_to_float_float_0_1
  have r3 := round_to_float_float_0_3
  have r22 := round_to_float_float_0_2
  have r12 := float_0_1_add_0_2.1
  have r2 : round_to_float 2 = 2 := round_to_float_ofNat 2 (by norm_num)
  have r11 : round_to_float (float_0_1 + float_0_1) = float_0_2 := by
    have e : float_0_1 + float_0_1 = float_0_2 := by norm_num [float_0_1, float_0_2]
    rw [e, round_to_float_float_0_2]
  have h21 : float_0_2 / 2 = float_0_1 := by norm_num [float_0_1, float_0_2]
  have p1 : (0 : ℚ) ≤ float_0_1 := by norm_num [float_0_1]
  have p3 : (0 : ℚ) ≤ float_0_3 := by norm_num [float_0_3]
  have e0 : ¬ cell_exceeds float_traits (vector_memory tenth_edge_input (fun _ => 0))
      { size := 3, guard_cells := 0, threshold_delta := float_0_2 } 0 3 0 := by
    simp only [cell_exceeds, hb0, Training_bounds.elems]
    simp only [accumulate_lt, accumulate_ge, float_traits, m0, m1, m2, sub_self, zero_add,
      round_to_float_zero, r3, r1, r2, r11, r22, h21, r12, Int.reduceSub, Int.reduceAdd,
      Int.reduceLT, Int.reduceLE, le_refl, Int.cast_ofNat, add_zero]
    norm_num
  have e1 : ¬ cell_exceeds float_traits (vector_memory tenth_edge_input (fun _ => 0))
      { size := 3, guard_cells := 0, threshold_delta := float_0_2 } 0 3 1 := by
    simp only [cell_exceeds, hb1, Training_bounds.elems]
    simp only [accumulate_lt, accumulate_ge, float_traits, m0, m1, m2, sub_self, zero_add,
      round_to_float_zero, r2, Int.reduceSub, Int.reduceAdd, Int.reduceLT,
      Int.reduceLE, le_refl, Int.cast_ofNat, add_zero]
    rintro ⟨-, h⟩
    have hs : 0 ≤ round_to_float (round_to_float float_0_3 + round_to_float float_0_1) :=
      round_to_float_nonneg (add_nonneg (round_to_float_nonneg p3) (round_to_float_nonneg p1))
    have := tenth_level_ge _ hs
    linarith
  have e2 : ¬ cell_exceeds float_traits (vector_memory tenth_edge_input (fun _ => 0))
      { size := 3, guard_cells := 0, threshold_delta := float_0_2 } 0 3 2 := by
    simp only [cell_exceeds, hb2, Training_bounds.elems]
    simp only [accumulate_lt, accumulate_ge, float_traits, m0, m1, m2, sub_self, zero_add,
      round_to_float_zero, r2, Int.reduceSub, Int.reduceAdd, Int.reduceLT,
      Int.reduceLE, le_refl, Int.cast_ofNat, add_zero]
    rintro ⟨-, h⟩
    have hs : 0 ≤ round_to_float (round_to_float (round_to_float float_0_3 + float_0_1)) :=
      round_to_float_nonneg (round_to_float_nonneg (add_nonneg (round_to_float_nonneg p3) p1))
    have := tenth_level_ge _ hs
    linarith
  have hlen : ((tenth_edge_input.length : ℕ) : ℤ) = 3 := by rfl
  simp only [process_vector, process, hlen, process_loop, process_cell_eq,
    Window_slider.create, sub_zero, zero_add, Int.toNat_ofNat, Int.reduceToNat, Int.reduceAdd,
    e0, e1, e2, if_true, if_false]

theorem spec_training_cells_3_0_3_1 : spec_training_cells 3 0 3 1 = {0, 2} := by decide

/-- C1 fails as stated.  On the `float` cells `{0.1f, 0.3f, 0.1f}` with `Window(3, 0, 0.2f)`
the mean of the training cells of the cell 1 is `0.1f` and the cell, `0.3f`, is greater than
the exact sum `0.1f + 0.2f`: the rule of the claim gives `0.3f`.  The code compares the cell
with the `float` sum `0.1f + 0.2f`, which is `0.3f`, and `process` zeroes the cell, as it
does the two others.  And the window `Window(7, 32767)`, of size 7 after the construction
with a 16-bit `Bin`, leaves the cell 15 of 30 cells without a training cell: the mean of the
claim does not exist, and `process` zeroes the cell, which holds the spike of 90. -/
theorem float_cell_rule_counterexample :
    (spec_average tenth_spike_input 3 0 1 = float_0_1
      ∧ float_0_3 > float_0_1 + float_0_2
      ∧ spec_process_cell tenth_spike_input (Window.create_delta 16 3 0 float_0_2) 1 = float_0_3
      ∧ round_to_float (float_0_1 + float_0_2) = float_0_3
      ∧ process_vector float_traits tenth_spike_input (fun _ => 0)
          (Window.create_delta 16 3 0 float_0_2) = [0, 0, 0])
    ∧ ((Window.create_delta 16 7 32767 0).size = 7
      ∧ (Window.create_delta 16 7 32767 0).size ≤ spike_input.length
      ∧ (training_bounds (Window.create_delta 16 7 32767 0) 0 30 15).elems = 0
      ∧ spike_input.getD 15 0 = 90
      ∧ (process_vector float_traits spike_input (fun _ => 0)
          (Window.create_delta 16 7 32767 0))[15]? = some 0) := by
  have havg : spec_average tenth_spike_input 3 0 1 = float_0_1 := by
    have hlen : tenth_spike_input.length = 3 := rfl
    simp only [spec_average, hlen, spec_training_cells_3_0_3_1]
    rw [Finset.sum_pair (by decide), Finset.card_pair (by decide)]
    have g0 : tenth_spike_input.getD (Int.toNat 0) 0 = float_0_1 := rfl
    have g2 : tenth_spike_input.getD (Int.toNat 2) 0 = float_0_1 := rfl
    rw [g0, g2]
    norm_num
  have hgt : float_0_3 > float_0_1 + float_0_2 := float_0_1_add_0_2.2
  have hw7 : Window.create_delta 16 7 32767 0
      = { size := 7, guard_cells := 32767, threshold_delta := 0 } := by
    simp [Window.create_delta, Window.resize, force_odd]
  have hb : training_bounds { size := 7, guard_cells := 32767, threshold_delta := 0 } 0 30 15
      = ⟨0, 0, 19, 19⟩ := by decide
  refine ⟨⟨havg, hgt, ?_, float_0_1_add_0_2.1, ?_⟩, ?_, ?_, ?_, by rfl, ?_⟩
  · rw [window_3_0]
    simp only [spec_process_cell, havg]
    have hc : tenth_spike_input.getD 1 0 = float_0_3 := rfl
    rw [hc, if_pos hgt]
  · rw [window_3_0]
    exact process_tenth_spike
  · rw [hw7]
  · rw [hw7]; decide
  · rw [hw7, hb]; rfl
  · rw [hw7, process_vector_getElem _ _ _ _ 15 (by decide), cell_power_eq]
    have hlen : ((spike_input.length : ℕ) : ℤ) = 30 := by rfl
    rw [hlen, show ((15 : ℕ) : ℤ) = 15 from rfl, if_neg]
    simp only [cell_exceeds, hb, Training_bounds.elems]
    norm_num

/-- C1, amended: for a `float` input `x` of fewer than `2 ^ 24` cells of magnitude at most
`2 ^ 100`, a window built by a constructor (size `s` and guard count `g` of type `Bin`,
`2g + 3` representable; threshold of magnitude at most `2 ^ 100`) with `n >= size`, and an
index `i < n`, the `i`-th output of `process` is `x[i]` if `x[i]` is greater than the `float`
sum of `A_i` and the threshold, and 0 otherwise.  `A_i` is the mean of the training cells of
`i` in `float` arithmetic: the training cells below `i` are added in index order, those
above `i` likewise, the two sums are added and the result is divided by the number of
training cells, each operation being rounded.  A cell equal to that level is zeroed.  None
of these operations overflows. -/
theorem process_float_cell_rule (bits s g : ℕ) (delta : ℚ) (x : List ℚ) (outside : ℤ → ℚ)
    (i : ℕ) (hs : s < 2 ^ bits) (hg : 2 * g + 3 < 2 ^ bits)
    (hn : (Window.create_delta bits s g delta).size ≤ x.length) (hi : i < x.length)
    (hlen : x.length < 2 ^ 24) (hfin : ∀ v ∈ x, |v| ≤ 2 ^ 100) (hdelta : |delta| ≤ 2 ^ 100) :
    (process_vector float_traits x outside (Window.create_delta bits s g delta))[i]?
      = some (if x.getD i 0
            > round_to_float
                (spec_float_average x (Window.create_delta bits s g delta).size g i + delta)
          then x.getD i 0 else 0)
    ∧ (x.getD i 0
        = round_to_float
            (spec_float_average x (Window.create_delta bits s g delta).size g i + delta) →
      (process_vector float_traits x outside (Window.create_delta bits s g delta))[i]?
        = some 0)
    ∧ |float_sum x
        (spec_training_below (Window.create_delta bits s g delta).size g x.length i)| ≤ 2 ^ 124
    ∧ |float_sum x
        (spec_training_above (Window.create_delta bits s g delta).size g x.length i)| ≤ 2 ^ 124
    ∧ |spec_float_average x (Window.create_delta bits s g delta).size g i| ≤ 2 ^ 124
    ∧ |round_to_float
        (spec_float_average x (Window.create_delta bits s g delta).size g i + delta)|
      ≤ 2 ^ 125 := by
  obtain ⟨hodd, hmin, -, -⟩ := (window_size_odd_min bits s g delta hs hg).2
  have hcell := cell_power_float_eq_spec x outside (Window.create_delta bits s g delta) i
    hodd hmin hn hi
  have hget : (process_vector float_traits x outside (Window.create_delta bits s g delta))[i]?
      = some (spec_float_process_cell x (Window.create_delta bits s g delta) i) := by
    rw [process_vector_getElem _ _ _ _ i hi, hcell]
  have hspec : spec_float_process_cell x (Window.create_delta bits s g delta) i
      = (if x.getD i 0
            > round_to_float
                (spec_float_average x (Window.create_delta bits s g delta).size g i + delta)
          then x.getD i 0 else 0) := rfl
  have hbound := spec_float_level_abs_le x (Window.create_delta bits s g delta) i hodd hmin hn hi
    hlen hfin hdelta
  rw [hget, hspec]
  refine ⟨rfl, ?_, hbound⟩
  intro heq
  rw [if_neg (by rw [← heq]; exact lt_irrefl _)]

/-- Witness of C1 (amended): the spike of the unit test, window 11, guard 2, threshold 30,
cell 15. -/
theorem process_float_cell_rule_witness :
    (process_vector float_traits spike_input (fun _ => 0) (Window.create_delta 16 11 2 30))[15]?
      = some (if spike_input.getD 15 0
            > round_to_float
                (spec_float_average spike_input (Window.create_delta 16 11 2 30).size 2 15 + 30)
          then spike_input.getD 15 0 else 0) :=
  (process_float_cell_rule 16 11 2 30 spike_input (fun _ => 0) 15 (by norm_num) (by norm_num)
    (by decide) (by decide) (by decide)
    (by
      intro v hv
      simp only [spike_input, List.mem_append, List.mem_replicate, List.mem_singleton] at hv
      rcases hv with (⟨-, rfl⟩ | rfl) | ⟨-, rfl⟩ <;> norm_num)
    (by norm_num)).1

/-! ## Point lists -/

/-- C7: for every element type, data buffer, range `[start, end)`, window and bin-to-metre
mapping `f`, `points` is the list, in increasing bin order, of `(f bin, p)` for the bins of
the range whose output `p` of `process` on `data[start..end)` is positive; so it has at most
`end - start` elements. -/
theorem points_are_positive_cells_of_process {V : Type} (T : Slider_traits V) (mem : ℤ → V)
    (r : Range) (w : Window) (f : ℕ → ℚ) (h : r.start ≤ r.end_) :
    points T mem r w f
      = ((List.range' r.start (r.end_ - r.start)).zip
            (process T mem (r.start : ℤ) (r.end_ : ℤ) w)).filterMap
          (fun bp => if bp.2 > 0 then some { range := f bp.1, power := bp.2 } else none)
    ∧ (points T mem r w f).length ≤ r.end_ - r.start := by
  have hp := points_eq_filterMap T mem r w f h
  constructor
  · have hn : ((r.end_ : ℤ) - (r.start : ℤ)).toNat = r.end_ - r.start := by omega
    simp only [process, hn]
    rw [process_loop_eq_map]
    rw [filterMap_zip_map, hp]
    rfl
  · rw [hp]
    exact le_trans (List.length_filterMap_le _ _) (by simp)

/-- Witness of C7: the spike of the unit test over the range `[0, 30)`. -/
theorem points_are_positive_cells_of_process_witness :
    points float_traits (vector_memory spike_input (fun _ => 0)) (Range.create 0 30)
        (Window.create_delta 16 11 2 30) bins_as_metres
      = ((List.range' (Range.create 0 30).start
              ((Range.create 0 30).end_ - (Range.create 0 30).start)).zip
            (process float_traits (vector_memory spike_input (fun _ => 0))
              ((Range.create 0 30).start : ℤ) ((Range.create 0 30).end_ : ℤ)
              (Window.create_delta 16 11 2 30))).filterMap
          (fun bp => if bp.2 > 0 then some { range := bins_as_metres bp.1, power := bp.2 }
            else none)
    ∧ (points float_traits (vector_memory spike_input (fun _ => 0)) (Range.create 0 30)
        (Window.create_delta 16 11 2 30) bins_as_metres).length
      ≤ (Range.create 0 30).end_ - (Range.create 0 30).start :=
  points_are_positive_cells_of_process float_traits (vector_memory spike_input (fun _ => 0))
    (Range.create 0 30) (Window.create_delta 16 11 2 30) bins_as_metres (by decide)

/-- C8, evaluated twice with `Window(3, 0, .)`.  On `{90, 10, 10}` with threshold 45 and
`max_points = 0`, `first_n_points` returns one point, the whole of `points`, where the first
0 points are asked for.  On `{0, -50, -50, 90}` with threshold 30 and `max_points = 1` it
returns no point although `points` has one: cell 0 passes the threshold with the value 0,
is counted and not emitted, and the loop stops. -/
theorem first_n_points_is_not_the_first_n :
    (first_n_points float_traits (vector_memory peak_first_input (fun _ => 0)) (Range.upto 3)
        (Window.create_delta 16 3 0 45) 0 bins_as_metres
      = [{ range := 0, power := 90 }]
    ∧ points float_traits (vector_memory peak_first_input (fun _ => 0)) (Range.upto 3)
        (Window.create_delta 16 3 0 45) bins_as_metres
      = [{ range := 0, power := 90 }])
    ∧ (first_n_points float_traits (vector_memory late_peak_input (fun _ => 0)) (Range.upto 4)
        (Window.create_delta 16 3 0 30) 1 bins_as_metres
      = []
    ∧ points float_traits (vector_memory late_peak_input (fun _ => 0)) (Range.upto 4)
        (Window.create_delta 16 3 0 30) bins_as_metres
      = [{ range := 3, power := 90 }]) := by
  have hw : Window.create_delta 16 3 0 45 = { size := 3, guard_cells := 0, threshold_delta := 45 } := by
    simp [Window.create_delta, Window.resize, force_odd]
  have hw2 : Window.create_delta 16 3 0 30 = { size := 3, guard_cells := 0, threshold_delta := 30 } := by
    simp [Window.create_delta, Window.resize, force_odd]
  have m0 : vector_memory peak_first_input (fun _ => (0:ℚ)) 0 = 90 := by rfl
  have m1 : vector_memory peak_first_input (fun _ => (0:ℚ)) 1 = 10 := by rfl
  have m2 : vector_memory peak_first_input (fun _ => (0:ℚ)) 2 = 10 := by rfl
  have e0 : cell_exceeds float_traits (vector_memory peak_first_input (fun _ => 0))
      { size := 3, guard_cells := 0, threshold_delta := 45 } 0 3 0 := by
    have hb : training_bounds { size := 3, guard_cells := 0, threshold_delta := 45 } 0 3 0
        = ⟨0, 0, 1, 3⟩ := by decide
    simp only [cell_exceeds, hb, Training_bounds.elems]
    norm_num [accumulate_lt, accumulate_ge, round_to_float_ofNat, round_to_float_neg, round_to_float_zero,
      round_to_float_one, round_to_float_ofNat_div_two, float_traits, m0, m1, m2]
  have e1 : ¬ cell_exceeds float_traits (vector_memory peak_first_input (fun _ => 0))
      { size := 3, guard_cells := 0, threshold_delta := 45 } 0 3 1 := by
    have hb : training_bounds { size := 3, guard_cells := 0, threshold_delta := 45 } 0 3 1
        = ⟨0, 1, 2, 3⟩ := by decide
    simp only [cell_exceeds, hb, Training_bounds.elems]
    norm_num [accumulate_lt, accumulate_ge, round_to_float_ofNat, round_to_float_neg, round_to_float_zero,
      round_to_float_one, round_to_float_ofNat_div_two, float_traits, m0, m1, m2]
  have e2 : ¬ cell_exceeds float_traits (vector_memory peak_first_input (fun _ => 0))
      { size := 3, guard_cells := 0, threshold_delta := 45 } 0 3 2 := by
    have hb : training_bounds { size := 3, guard_cells := 0, threshold_delta := 45 } 0 3 2
        = ⟨0, 2, 3, 3⟩ := by decide
    simp only [cell_exceeds, hb, Training_bounds.elems]
    norm_num [accumulate_lt, accumulate_ge, round_to_float_ofNat, round_to_float_neg, round_to_float_zero,
      round_to_float_one, round_to_float_ofNat_div_two, float_traits, m0, m1, m2]
  have p0 : vector_memory late_peak_input (fun _ => (0:ℚ)) 0 = 0 := by rfl
  have p1 : vector_memory late_peak_input (fun _ => (0:ℚ)) 1 = -50 := by rfl
  have p2 : vector_memory late_peak_input (fun _ => (0:ℚ)) 2 = -50 := by rfl
  have p3 : vector_memory late_peak_input (fun _ => (0:ℚ)) 3 = 90 := by rfl
  have f0 : cell_exceeds float_traits (vector_memory late_peak_input (fun _ => 0))
      { size := 3, guard_cells := 0, threshold_delta := 30 } 0 4 0 := by
    have hb : training_bounds { size := 3, guard_cells := 0, threshold_delta := 30 } 0 4 0
        = ⟨0, 0, 1, 3⟩ := by decide
    simp only [cell_exceeds, hb, Training_bounds.elems]
    norm_num [accumulate_lt, accumulate_ge, round_to_float_ofNat, round_to_float_neg, round_to_float_zero,
      round_to_float_one, round_to_float_ofNat_div_two, float_traits, p0, p1, p2, p3]
  have f1 : ¬ cell_exceeds float_traits (vector_memory late_peak_input (fun _ => 0))
      { size := 3, guard_cells := 0, threshold_delta := 30 } 0 4 1 := by
    have hb : training_bounds { size := 3, guard_cells := 0, threshold_delta := 30 } 0 4 1
        = ⟨0, 1, 2, 3⟩ := by decide
    simp only [cell_exceeds, hb, Training_bounds.elems]
    norm_num [accumulate_lt, accumulate_ge, round_to_float_ofNat, round_to_float_neg, round_to_float_zero,
      round_to_float_one, round_to_float_ofNat_div_two, float_traits, p0, p1, p2, p3]
  have f2 : ¬ cell_exceeds float_traits (vector_memory late_peak_input (fun _ => 0))
      { size := 3, guard_cells := 0, threshold_delta := 30 } 0 4 2 := by
    have hb : training_bounds { size := 3, guard_cells := 0, threshold_delta := 30 } 0 4 2
        = ⟨1, 2, 3, 4⟩ := by decide
    simp only [cell_exceeds, hb, Training_bounds.elems]
    norm_num [accumulate_lt, accumulate_ge, round_to_float_ofNat, round_to_float_neg, round_to_float_zero,
      round_to_float_one, round_to_float_ofNat_div_two, float_traits, p0, p1, p2, p3]
  have f3 : cell_exceeds float_traits (vector_memory late_peak_input (fun _ => 0))
      { size := 3, guard_cells := 0, threshold_delta := 30 } 0 4 3 := by
    have hb : training_bounds { size := 3, guard_cells := 0, threshold_delta := 30 } 0 4 3
        = ⟨1, 3, 4, 4⟩ := by decide
    simp only [cell_exceeds, hb, Training_bounds.elems]
    norm_num [accumulate_lt, accumulate_ge, round_to_float_ofNat, round_to_float_neg, round_to_float_zero,
      round_to_float_one, round_to_float_ofNat_div_two, float_traits, p0, p1, p2, p3]
  have hsz : (Range.upto 3).size = 3 := by decide
  have hsz4 : (Range.upto 4).size = 4 := by decide
  have hsz4r : Range.size { start := 0, end_ := 4 } = 4 := by decide
  rw [hw, hw2]
  refine ⟨⟨?_, ?_⟩, ?_, ?_⟩
  · simp only [first_n_points, first_n_points_loop, process_cell_eq, Range.upto,
      Window_slider.create, Nat.cast_zero, Nat.cast_ofNat, Nat.sub_zero, zero_add, Nat.cast_one,
      Nat.reduceAdd, e0, e1, e2, if_true, if_false]
    norm_num [float_traits, m0, bins_as_metres]
  · simp only [points, hsz, first_n_points, first_n_points_loop, process_cell_eq, Range.upto,
      Window_slider.create, Nat.cast_zero, Nat.cast_ofNat, Nat.sub_zero, zero_add, Nat.cast_one,
      Nat.reduceAdd, e0, e1, e2, if_true, if_false]
    norm_num [float_traits, m0, bins_as_metres]
  · simp only [first_n_points, first_n_points_loop, process_cell_eq, Range.upto,
      Window_slider.create, Nat.cast_zero, Nat.cast_ofNat, Nat.sub_zero, zero_add, Nat.cast_one,
      Nat.reduceAdd, f0, f1, f2, f3, if_true, if_false]
    norm_num [float_traits, p0, bins_as_metres]
  · simp only [points, hsz4, first_n_points, first_n_points_loop, process_cell_eq, Range.upto,
      Window_slider.create, Nat.cast_zero, Nat.cast_ofNat, Nat.sub_zero, zero_add, Nat.cast_one,
      Nat.reduceAdd, f0, f1, f2, f3, if_true, if_false]
    norm_num [float_traits, p0, p3, bins_as_metres, hsz4r]

/-- C9, evaluated on two buffers that agree on the range `[2, 4)` and differ in cell 1,
with `Window(3, 0, 30)`: `points` returns the point of bin 2 for the one and nothing for the
other, the range being shorter than the window. -/
theorem points_depend_on_cell_before_range :
    (∀ bin : ℕ, 2 ≤ bin → bin < 4 →
      vector_memory quiet_buffer (fun _ => 0) (bin : ℤ)
        = vector_memory loud_buffer (fun _ => 0) (bin : ℤ))
    ∧ points float_traits (vector_memory quiet_buffer (fun _ => 0)) (Range.create 2 4)
        (Window.create_delta 16 3 0 30) bins_as_metres
      = [{ range := 2, power := 50 }]
    ∧ points float_traits (vector_memory loud_buffer (fun _ => 0)) (Range.create 2 4)
        (Window.create_delta 16 3 0 30) bins_as_metres
      = [] := by
  have hw : Window.create_delta 16 3 0 30 = { size := 3, guard_cells := 0, threshold_delta := 30 } := by
    simp [Window.create_delta, Window.resize, force_odd]
  have hr : Range.create 2 4 = { start := 2, end_ := 4 } := by decide
  have hsz : Range.size { start := 2, end_ := 4 } = 2 := by decide
  have q1 : vector_memory quiet_buffer (fun _ => (0:ℚ)) 1 = 10 := by rfl
  have q2 : vector_memory quiet_buffer (fun _ => (0:ℚ)) 2 = 50 := by rfl
  have q3 : vector_memory quiet_buffer (fun _ => (0:ℚ)) 3 = 10 := by rfl
  have l1 : vector_memory loud_buffer (fun _ => (0:ℚ)) 1 = 1000 := by rfl
  have l2 : vector_memory loud_buffer (fun _ => (0:ℚ)) 2 = 50 := by rfl
  have l3 : vector_memory loud_buffer (fun _ => (0:ℚ)) 3 = 10 := by rfl
  have hb2 : training_bounds { size := 3, guard_cells := 0, threshold_delta := 30 } 2 4 2
      = ⟨1, 2, 3, 4⟩ := by decide
  have hb3 : training_bounds { size := 3, guard_cells := 0, threshold_delta := 30 } 2 4 3
      = ⟨1, 3, 4, 4⟩ := by decide
  have eq2 : cell_exceeds float_traits (vector_memory quiet_buffer (fun _ => 0))
      { size := 3, guard_cells := 0, threshold_delta := 30 } 2 4 2 := by
    simp only [cell_exceeds, hb2, Training_bounds.elems]
    norm_num [accumulate_lt, accumulate_ge, round_to_float_ofNat, round_to_float_neg, round_to_float_zero,
      round_to_float_one, round_to_float_ofNat_div_two, float_traits, q1, q2, q3]
  have eq3 : ¬ cell_exceeds float_traits (vector_memory quiet_buffer (fun _ => 0))
      { size := 3, guard_cells := 0, threshold_delta := 30 } 2 4 3 := by
    simp only [cell_exceeds, hb3, Training_bounds.elems]
    norm_num [accumulate_lt, accumulate_ge, round_to_float_ofNat, round_to_float_neg, round_to_float_zero,
      round_to_float_one, round_to_float_ofNat_div_two, float_traits, q1, q2, q3]
  have el2 : ¬ cell_exceeds float_traits (vector_memory loud_buffer (fun _ => 0))
      { size := 3, guard_cells := 0, threshold_delta := 30 } 2 4 2 := by
    simp only [cell_exceeds, hb2, Training_bounds.elems]
    norm_num [accumulate_lt, accumulate_ge, round_to_float_ofNat, round_to_float_neg, round_to_float_zero,
      round_to_float_one, round_to_float_ofNat_div_two, float_traits, l1, l2, l3]
  have el3 : ¬ cell_exceeds float_traits (vector_memory loud_buffer (fun _ => 0))
      { size := 3, guard_cells := 0, threshold_delta := 30 } 2 4 3 := by
    simp only [cell_exceeds, hb3, Training_bounds.elems]
    norm_num [accumulate_lt, accumulate_ge, round_to_float_ofNat, round_to_float_neg, round_to_float_zero,
      round_to_float_one, round_to_float_ofNat_div_two, float_traits, l1, l2, l3]
  rw [hw, hr]
  refine ⟨?_, ?_, ?_⟩
  · intro bin h2 h4
    interval_cases bin
    · rfl
    · rfl
  · simp only [points, hsz, first_n_points, first_n_points_loop, process_cell_eq,
      Window_slider.create, Nat.cast_ofNat, Nat.reduceSub, Nat.reduceAdd, eq2, eq3, if_true,
      if_false]
    norm_num [float_traits, q2, bins_as_metres]
  · simp only [points, hsz, first_n_points, first_n_points_loop, process_cell_eq,
      Window_slider.create, Nat.cast_ofNat, Nat.reduceSub, Nat.reduceAdd, el2, el3, if_true,
      if_false]
    norm_num [float_traits, bins_as_metres]

/-! ## Spikes and constant levels -/

theorem integer_spike_counterexamples :
    ((90 : ℚ) - 10 > -100
      ∧ (process_vector float_traits short_spike_input (fun _ => 0)
          (Window.create_delta 16 3 0 (-100)))[0]? = some 10)
    ∧ ((0 : ℚ) - (-50) > 30
      ∧ process_vector float_traits zero_spike_input (fun _ => 0)
          (Window.create_delta 16 3 0 30) = [0, 0, 0]
      ∧ points float_traits (vector_memory zero_spike_input (fun _ => 0)) (Range.upto 3)
          (Window.create_delta 16 3 0 30) bins_as_metres = []) := by
  have hw1 : Window.create_delta 16 3 0 (-100)
      = { size := 3, guard_cells := 0, threshold_delta := -100 } := by
    simp [Window.create_delta, Window.resize, force_odd]
  have hw2 : Window.create_delta 16 3 0 30
      = { size := 3, guard_cells := 0, threshold_delta := 30 } := by
    simp [Window.create_delta, Window.resize, force_odd]
  have s0 : vector_memory short_spike_input (fun _ => (0:ℚ)) 0 = 10 := by rfl
  have s1 : vector_memory short_spike_input (fun _ => (0:ℚ)) 1 = 10 := by rfl
  have s2 : vector_memory short_spike_input (fun _ => (0:ℚ)) 2 = 90 := by rfl
  have z0 : vector_memory zero_spike_input (fun _ => (0:ℚ)) 0 = -50 := by rfl
  have z1 : vector_memory zero_spike_input (fun _ => (0:ℚ)) 1 = -50 := by rfl
  have z2 : vector_memory zero_spike_input (fun _ => (0:ℚ)) 2 = 0 := by rfl
  have hb0 : ∀ d : ℚ, training_bounds { size := 3, guard_cells := 0, threshold_delta := d } 0 3 0
      = ⟨0, 0, 1, 3⟩ := fun _ => by norm_num [training_bounds]
  have hb1 : ∀ d : ℚ, training_bounds { size := 3, guard_cells := 0, threshold_delta := d } 0 3 1
      = ⟨0, 1, 2, 3⟩ := fun _ => by norm_num [training_bounds]
  have hb2 : ∀ d : ℚ, training_bounds { size := 3, guard_cells := 0, threshold_delta := d } 0 3 2
      = ⟨0, 2, 3, 3⟩ := fun _ => by norm_num [training_bounds]
  have es0 : cell_exceeds float_traits (vector_memory short_spike_input (fun _ => 0))
      { size := 3, guard_cells := 0, threshold_delta := -100 } 0 3 0 := by
    simp only [cell_exceeds, hb0, Training_bounds.elems]
    norm_num [accumulate_lt, accumulate_ge, round_to_float_ofNat, round_to_float_neg, round_to_float_zero,
      round_to_float_one, round_to_float_ofNat_div_two, float_traits, s0, s1, s2]
  have ez0 : ¬ cell_exceeds float_traits (vector_memory zero_spike_input (fun _ => 0))
      { size := 3, guard_cells := 0, threshold_delta := 30 } 0 3 0 := by
    simp only [cell_exceeds, hb0, Training_bounds.elems]
    norm_num [accumulate_lt, accumulate_ge, round_to_float_ofNat, round_to_float_neg, round_to_float_zero,
      round_to_float_one, round_to_float_ofNat_div_two, float_traits, z0, z1, z2]
  have ez1 : ¬ cell_exceeds float_traits (vector_memory zero_spike_input (fun _ => 0))
      { size := 3, guard_cells := 0, threshold_delta := 30 } 0 3 1 := by
    simp only [cell_exceeds, hb1, Training_bounds.elems]
    norm_num [accumulate_lt, accumulate_ge, round_to_float_ofNat, round_to_float_neg, round_to_float_zero,
      round_to_float_one, round_to_float_ofNat_div_two, float_traits, z0, z1, z2]
  have ez2 : cell_exceeds float_traits (vector_memory zero_spike_input (fun _ => 0))
      { size := 3, guard_cells := 0, threshold_delta := 30 } 0 3 2 := by
    simp only [cell_exceeds, hb2, Training_bounds.elems]
    norm_num [accumulate_lt, accumulate_ge, round_to_float_ofNat, round_to_float_neg, round_to_float_zero,
      round_to_float_one, round_to_float_ofNat_div_two, float_traits, z0, z1, z2]
  have hsz : (Range.upto 3).size = 3 := by decide
  have hlen : ((short_spike_input.length : ℕ) : ℤ) = 3 := by rfl
  have hlenz : ((zero_spike_input.length : ℕ) : ℤ) = 3 := by rfl
  rw [hw1, hw2]
  refine ⟨⟨by norm_num, ?_⟩, by norm_num, ?_, ?_⟩
  · rw [process_vector_getElem _ _ _ _ 0 (by decide), cell_power_eq, hlen, Nat.cast_zero,
      if_pos es0]
    simp only [float_traits, s0]
  · simp only [process_vector, process, hlenz, process_loop, process_cell_eq,
      Window_slider.create, sub_zero, zero_add, Int.toNat_ofNat, Int.reduceToNat, Int.reduceAdd,
      ez0, ez1, ez2, if_true, if_false]
    norm_num [float_traits, z2]
  · simp only [points, hsz, first_n_points, first_n_points_loop, process_cell_eq, Range.upto,
      Window_slider.create, Nat.cast_zero, Nat.cast_ofNat, Nat.sub_zero, zero_add, Nat.cast_one,
      Nat.reduceAdd, ez0, ez1, ez2, if_true, if_false]
    norm_num [float_traits, z2]

/-- C3 fails as stated, three times.  With the threshold -100 dB (and `90 - 10 > -100`) the
background cell 0 of `{10, 10, 90}` is reported with its level 10.  With a spike of 0 dB
over a level of -50 dB and the threshold 30 dB the output of `process` is zero everywhere
and `points` is empty, the spike cell being reported with its value 0.  With the spike
`0.3f` over the level `0.1f` and the threshold `0.2f` (`0.3f - 0.1f > 0.2f`) the output is
zero everywhere, the `float` sum `0.1f + 0.2f` being `0.3f`. -/
theorem single_spike_counterexamples :
    ((90 : ℚ) - 10 > -100
      ∧ (process_vector float_traits short_spike_input (fun _ => 0)
          (Window.create_delta 16 3 0 (-100)))[0]? = some 10)
    ∧ ((0 : ℚ) - (-50) > 30
      ∧ process_vector float_traits zero_spike_input (fun _ => 0)
          (Window.create_delta 16 3 0 30) = [0, 0, 0]
      ∧ points float_traits (vector_memory zero_spike_input (fun _ => 0)) (Range.upto 3)
          (Window.create_delta 16 3 0 30) bins_as_metres = [])
    ∧ (float_0_3 - float_0_1 > float_0_2 ∧ float_0_2 ≥ 0
      ∧ tenth_spike_input = [float_0_1, float_0_3, float_0_1]
      ∧ process_vector float_traits tenth_spike_input (fun _ => 0)
          (Window.create_delta 16 3 0 float_0_2) = [0, 0, 0]) := by
  exact ⟨integer_spike_counterexamples.1, integer_spike_counterexamples.2,
    by norm_num [float_0_1, float_0_2, float_0_3], by norm_num [float_0_2], rfl,
    by rw [window_3_0]; exact process_tenth_spike⟩

/-- C3, amended: for a `float` input of length `n >= size`, `n` representable in `Bin`,
that holds the integer `b` everywhere except the integer `h` in the single cell `k`, both of
magnitude at most `M` with `size * M <= 2 ^ 24` (every `float` sum is then exact), a window
built by a constructor (`2g + 3` representable in `Bin`) and a threshold `delta >= 0` such
that `h` is greater than the `float` sum `b + delta`: `process` returns `h` at the cell `k`
and 0 at every other cell, and for `h > 0` `points` with the identity bin-to-metre mapping is
the single point `(k, h)`. -/
theorem single_spike_detected (bits s g : ℕ) (delta : ℚ) (b h : ℤ) (M : ℕ) (x : List ℚ)
    (outside : ℤ → ℚ) (k : ℕ) (hs : s < 2 ^ bits) (hg : 2 * g + 3 < 2 ^ bits)
    (hn : (Window.create_delta bits s g delta).size ≤ x.length) (hlen : x.length < 2 ^ bits)
    (hk : k < x.length)
    (hx : ∀ j, j < x.length → x.getD j 0 = if j = k then (h : ℚ) else (b : ℚ))
    (hbM : |b| ≤ M) (hhM : |h| ≤ M)
    (hM : (Window.create_delta bits s g delta).size * M ≤ 2 ^ 24)
    (hd0 : 0 ≤ delta) (hd : (h : ℚ) > round_to_float ((b : ℚ) + delta)) :
    (∀ j, j < x.length →
      (process_vector float_traits x outside (Window.create_delta bits s g delta))[j]?
        = some (if j = k then (h : ℚ) else 0))
    ∧ (0 < h →
      points_vector float_traits bits x outside (Window.create_delta bits s g delta)
          bins_as_metres
        = [{ range := bins_as_metres k, power := (h : ℚ) }]) := by
  obtain ⟨hodd, hmin, -, -⟩ := (window_size_odd_min bits s g delta hs hg).2
  constructor
  · intro j hj
    rw [process_vector_getElem _ _ _ _ j hj]
    rw [spike_cell_power x outside _ b h M k hodd hmin hn hx hbM hhM hM hd0 hd j hj]
  · intro hpos
    rw [points_vector_eq_points _ _ _ _ _ _ hlen]
    exact spike_points x outside _ b h M k bins_as_metres hodd hmin hn hk hx hbM hhM hM hd0 hd
      hpos

/-- Witness of C3 (amended): `[10]x15 ++ [90] ++ [10]x14`, window 11, guard 2, threshold 30
gives exactly one point, at bin 15 with power 90. -/
theorem single_spike_detected_witness :
    points_vector float_traits 16 spike_input (fun _ => 0) (Window.create_delta 16 11 2 30)
        bins_as_metres
      = [{ range := bins_as_metres 15, power := ((90 : ℤ) : ℚ) }] :=
  (single_spike_detected 16 11 2 30 10 90 90 spike_input (fun _ => 0) 15 (by norm_num)
    (by norm_num) (by decide) (by decide) (by decide) (by decide) (by norm_num) (by norm_num)
    (by decide) (by norm_num) (by norm_num [round_to_float_ofNat])).2 (by norm_num)

theorem zero_edge_spike :
    ((0 : ℚ) - (-50) > 30 ∧ (30 : ℚ) ≥ 0)
    ∧ (process_vector float_traits zero_edge_input (fun _ => 0)
        (Window.create_delta 16 3 0 30))[0]? = some 0
    ∧ points float_traits (vector_memory zero_edge_input (fun _ => 0)) (Range.upto 3)
        (Window.create_delta 16 3 0 30) bins_as_metres = [] := by
  have hw : Window.create_delta 16 3 0 30
      = { size := 3, guard_cells := 0, threshold_delta := 30 } := by
    simp [Window.create_delta, Window.resize, force_odd]
  have z0 : vector_memory zero_edge_input (fun _ => (0:ℚ)) 0 = 0 := by rfl
  have z1 : vector_memory zero_edge_input (fun _ => (0:ℚ)) 1 = -50 := by rfl
  have z2 : vector_memory zero_edge_input (fun _ => (0:ℚ)) 2 = -50 := by rfl
  have hb0 : training_bounds { size := 3, guard_cells := 0, threshold_delta := 30 } 0 3 0
      = ⟨0, 0, 1, 3⟩ := by decide
  have hb1 : training_bounds { size := 3, guard_cells := 0, threshold_delta := 30 } 0 3 1
      = ⟨0, 1, 2, 3⟩ := by decide
  have hb2 : training_bounds { size := 3, guard_cells := 0, threshold_delta := 30 } 0 3 2
      = ⟨0, 2, 3, 3⟩ := by decide
  have e0 : cell_exceeds float_traits (vector_memory zero_edge_input (fun _ => 0))
      { size := 3, guard_cells := 0, threshold_delta := 30 } 0 3 0 := by
    simp only [cell_exceeds, hb0, Training_bounds.elems]
    norm_num [accumulate_lt, accumulate_ge, round_to_float_ofNat, round_to_float_neg, round_to_float_zero,
      round_to_float_one, round_to_float_ofNat_div_two, float_traits, z0, z1, z2]
  have e1 : ¬ cell_exceeds float_traits (vector_memory zero_edge_input (fun _ => 0))
      { size := 3, guard_cells := 0, threshold_delta := 30 } 0 3 1 := by
    simp only [cell_exceeds, hb1, Training_bounds.elems]
    norm_num [accumulate_lt, accumulate_ge, round_to_float_ofNat, round_to_float_neg, round_to_float_zero,
      round_to_float_one, round_to_float_ofNat_div_two, float_traits, z0, z1, z2]
  have e2 : ¬ cell_exceeds float_traits (vector_memory zero_edge_input (fun _ => 0))
      { size := 3, guard_cells := 0, threshold_delta := 30 } 0 3 2 := by
    simp only [cell_exceeds, hb2, Training_bounds.elems]
    norm_num [accumulate_lt, accumulate_ge, round_to_float_ofNat, round_to_float_neg, round_to_float_zero,
      round_to_float_one, round_to_float_ofNat_div_two, float_traits, z0, z1, z2]
  have hsz : (Range.upto 3).size = 3 := by decide
  have hlen : ((zero_edge_input.length : ℕ) : ℤ) = 3 := by rfl
  rw [hw]
  refine ⟨⟨by norm_num, by norm_num⟩, ?_, ?_⟩
  · rw [process_vector_getElem _ _ _ _ 0 (by decide), cell_power_eq, hlen, Nat.cast_zero,
      if_pos e0]
    simp only [float_traits, z0]
  · simp only [points, hsz, first_n_points, first_n_points_loop, process_cell_eq, Range.upto,
      Window_slider.create, Nat.cast_zero, Nat.cast_ofNat, Nat.sub_zero, zero_add, Nat.cast_one,
      Nat.reduceAdd, e0, e1, e2, if_true, if_false]
    norm_num [float_traits, z0]

/-- C5 fails as stated, twice.  A spike of 0 dB in the first cell over a level of -50 dB,
with the threshold 30 dB (`0 - (-50) > 30 >= 0`), is reported by `process` with its value 0,
and `points` returns no point.  And the spike `0.3f` in the first cell over the level `0.1f`,
with the threshold `0.2f` (`0.3f - 0.1f > 0.2f >= 0`), is zeroed, the `float` sum
`0.1f + 0.2f` being `0.3f`. -/
theorem edge_spike_counterexample :
    (((0 : ℚ) - (-50) > 30 ∧ (30 : ℚ) ≥ 0)
      ∧ (process_vector float_traits zero_edge_input (fun _ => 0)
          (Window.create_delta 16 3 0 30))[0]? = some 0
      ∧ points float_traits (vector_memory zero_edge_input (fun _ => 0)) (Range.upto 3)
          (Window.create_delta 16 3 0 30) bins_as_metres = [])
    ∧ (float_0_3 - float_0_1 > float_0_2 ∧ float_0_2 ≥ 0
      ∧ tenth_edge_input = [float_0_3, float_0_1, float_0_1]
      ∧ process_vector float_traits tenth_edge_input (fun _ => 0)
          (Window.create_delta 16 3 0 float_0_2) = [0, 0, 0]) :=
  ⟨zero_edge_spike, by norm_num [float_0_1, float_0_2, float_0_3], by norm_num [float_0_2], rfl,
    by rw [window_3_0]; exact process_tenth_edge⟩

/-- C5, amended: for a `float` input of length `n >= size`, `n` representable in `Bin`,
that is a constant integer background `b` except for an integer spike `h > 0` at the first
index, or at the last index, both of magnitude at most `M` with `size * M <= 2 ^ 24`, a
window built by a constructor (`2g + 3` representable in `Bin`) and a threshold
`delta >= 0` such that `h` is greater than the `float` sum `b + delta`, the output of
`process` at that edge index is `h`, which is not zero, and `points` holds the point
`(to_metre(index), h)`. -/
theorem edge_spike_detected (bits s g : ℕ) (delta : ℚ) (b h : ℤ) (M : ℕ) (x : List ℚ)
    (outside : ℤ → ℚ) (to_metre : ℕ → ℚ) (hs : s < 2 ^ bits) (hg : 2 * g + 3 < 2 ^ bits)
    (hn : (Window.create_delta bits s g delta).size ≤ x.length) (hlen : x.length < 2 ^ bits)
    (hbM : |b| ≤ M) (hhM : |h| ≤ M)
    (hM : (Window.create_delta bits s g delta).size * M ≤ 2 ^ 24)
    (hd0 : 0 ≤ delta) (hd : (h : ℚ) > round_to_float ((b : ℚ) + delta)) (hpos : 0 < h) :
    ((∀ j, j < x.length → x.getD j 0 = if j = 0 then (h : ℚ) else (b : ℚ)) →
      (process_vector float_traits x outside (Window.create_delta bits s g delta))[0]?
        = some (h : ℚ)
      ∧ (h : ℚ) ≠ 0
      ∧ { range := to_metre 0, power := (h : ℚ) }
          ∈ points_vector float_traits bits x outside (Window.create_delta bits s g delta)
              to_metre)
    ∧ ((∀ j, j < x.length → x.getD j 0 = if j = x.length - 1 then (h : ℚ) else (b : ℚ)) →
      (process_vector float_traits x outside
          (Window.create_delta bits s g delta))[x.length - 1]? = some (h : ℚ)
      ∧ (h : ℚ) ≠ 0
      ∧ { range := to_metre (x.length - 1), power := (h : ℚ) }
          ∈ points_vector float_traits bits x outside (Window.create_delta bits s g delta)
              to_metre) := by
  obtain ⟨hodd, hmin, -, -⟩ := (window_size_odd_min bits s g delta hs hg).2
  have hlen0 : 0 < x.length := by omega
  have hposq : (0 : ℚ) < (h : ℚ) := by exact_mod_cast hpos
  have key : ∀ k, k < x.length →
      (∀ j, j < x.length → x.getD j 0 = if j = k then (h : ℚ) else (b : ℚ)) →
      (process_vector float_traits x outside (Window.create_delta bits s g delta))[k]?
        = some (h : ℚ)
      ∧ (h : ℚ) ≠ 0
      ∧ { range := to_metre k, power := (h : ℚ) }
          ∈ points_vector float_traits bits x outside (Window.create_delta bits s g delta)
              to_metre := by
    intro k hk hx
    refine ⟨?_, ne_of_gt hposq, ?_⟩
    · rw [process_vector_getElem _ _ _ _ k hk,
        spike_cell_power x outside _ b h M k hodd hmin hn hx hbM hhM hM hd0 hd k hk, if_pos rfl]
    · rw [points_vector_eq_points _ _ _ _ _ _ hlen,
        spike_points x outside _ b h M k to_metre hodd hmin hn hk hx hbM hhM hM hd0 hd hpos]
      exact List.mem_singleton.mpr rfl
  exact ⟨key 0 hlen0, key (x.length - 1) (by omega)⟩

/-- Witness of C5 (amended): a peak of 90 in the first of three cells over a level of 10,
window 3, guard 0, threshold 45. -/
theorem edge_spike_detected_witness :
    (process_vector float_traits peak_first_input (fun _ => 0)
        (Window.create_delta 16 3 0 45))[0]? = some ((90 : ℤ) : ℚ)
    ∧ ((90 : ℤ) : ℚ) ≠ 0
    ∧ { range := bins_as_metres 0, power := ((90 : ℤ) : ℚ) }
        ∈ points_vector float_traits 16 peak_first_input (fun _ => 0)
            (Window.create_delta 16 3 0 45) bins_as_metres :=
  (edge_spike_detected 16 3 0 45 10 90 90 peak_first_input (fun _ => 0) bins_as_metres
    (by norm_num) (by norm_num) (by decide) (by decide) (by norm_num) (by norm_num)
    (by decide) (by norm_num) (by norm_num [round_to_float_ofNat]) (by norm_num)).1
    (by decide)

/-- C4, evaluated on an 8-bit azimuth whose 30 cells all hold 200, with `Window(11, 2, 30)`:
cell 15 is reported with 100 dB.  Each of the two sums of three cells is accumulated in a
`std::uint8_t` and wraps from 600 to 88. -/
theorem constant_8bit_level_is_detected :
    (∀ j, j < constant_200_input.length → constant_200_input.getD j 0 = 200)
    ∧ (30 : ℚ) > 0
    ∧ accumulate uint8_traits.add (vector_memory constant_200_input (fun _ => 0)) 10 13
        uint8_traits.zero = 88
    ∧ (process_vector uint8_traits constant_200_input (fun _ => 0)
        (Window.create_delta 16 11 2 30))[15]? = some 100 := by
  have hw : Window.create_delta 16 11 2 30
      = { size := 11, guard_cells := 2, threshold_delta := 30 } := by
    simp [Window.create_delta, Window.resize, force_odd]
  have hb : training_bounds { size := 11, guard_cells := 2, threshold_delta := 30 } 0 30 15
      = ⟨10, 13, 18, 21⟩ := by decide
  have hl : accumulate uint8_traits.add (vector_memory constant_200_input (fun _ => 0)) 10 13
      uint8_traits.zero = 88 := by decide
  have hu : accumulate uint8_traits.add (vector_memory constant_200_input (fun _ => 0)) 18 21
      uint8_traits.zero = 88 := by decide
  have hc : vector_memory constant_200_input (fun _ => 0) 15 = 200 := by decide
  have hlen : ((constant_200_input.length : ℕ) : ℤ) = 30 := by rfl
  have e : cell_exceeds uint8_traits (vector_memory constant_200_input (fun _ => 0))
      { size := 11, guard_cells := 2, threshold_delta := 30 } 0 30 15 := by
    have r30 : round_to_float 30 = 30 := round_to_float_ofNat 30 (by norm_num)
    have r60 : round_to_float 60 = 60 := round_to_float_ofNat 60 (by norm_num)
    have h1 : round_to_float (88 / 3) ≤ 30 := round_to_float_le_of_le (by norm_num) r30
    have h2 : round_to_float (round_to_float (88 / 3) + 30) ≤ 60 :=
      round_to_float_le_of_le (by linarith) r60
    simp only [cell_exceeds, hb, Training_bounds.elems, hl, hu, hc]
    norm_num [uint8_traits, round_to_float_ofNat, round_to_float_ofNat_div_two, round_to_float_zero,
      round_to_float_one]
    linarith
  refine ⟨by decide, by norm_num, hl, ?_⟩
  rw [hw, process_vector_getElem _ _ _ _ 15 (by decide), cell_power_eq, hlen]
  rw [show ((15 : ℕ) : ℤ) = 15 from rfl, if_pos e, hc]
  norm_num [uint8_traits, round_to_float_ofNat, round_to_float_ofNat_div_two, round_to_float_zero,
      round_to_float_one]

/-- C10, evaluated on an 8-bit azimuth with a spike of 50 counts over a level of 10 counts
and `Window(11, 2, 17)`: the code zeroes cell 15, because it compares the 25 dB of the cell
with the mean count 10 plus 17, while the rule of the claim, `0.5 * 50 > 0.5 * 10 + 17`,
holds and asks for 25 dB.  The witness of the claim, a spike of 90 counts with the threshold
30, is reported with 45 dB. -/
theorem weak_8bit_spike_is_zeroed :
    ((process_vector uint8_traits weak_spike_input_8bit (fun _ => 0)
        (Window.create_delta 16 11 2 17))[15]? = some 0
      ∧ uint8_traits.sum_dB
          (accumulate uint8_traits.add (vector_memory weak_spike_input_8bit (fun _ => 0)) 10 13
            uint8_traits.zero)
          (accumulate uint8_traits.add (vector_memory weak_spike_input_8bit (fun _ => 0)) 18 21
            uint8_traits.zero) / 6 = 10
      ∧ (1 / 2 : ℚ) * 50 > (1 / 2 : ℚ) * 10 + 17)
    ∧ (process_vector uint8_traits spike_input_8bit (fun _ => 0)
        (Window.create_delta 16 11 2 30))[15]? = some 45 := by
  have hw : Window.create_delta 16 11 2 17
      = { size := 11, guard_cells := 2, threshold_delta := 17 } := by
    simp [Window.create_delta, Window.resize, force_odd]
  have hw30 : Window.create_delta 16 11 2 30
      = { size := 11, guard_cells := 2, threshold_delta := 30 } := by
    simp [Window.create_delta, Window.resize, force_odd]
  have hb : ∀ d : ℚ, training_bounds { size := 11, guard_cells := 2, threshold_delta := d } 0 30 15
      = ⟨10, 13, 18, 21⟩ := fun _ => by norm_num [training_bounds]
  have hl : accumulate uint8_traits.add (vector_memory weak_spike_input_8bit (fun _ => 0)) 10 13
      uint8_traits.zero = 30 := by decide
  have hu : accumulate uint8_traits.add (vector_memory weak_spike_input_8bit (fun _ => 0)) 18 21
      uint8_traits.zero = 30 := by decide
  have hc : vector_memory weak_spike_input_8bit (fun _ => 0) 15 = 50 := by decide
  have hlen : ((weak_spike_input_8bit.length : ℕ) : ℤ) = 30 := by rfl
  have e : ¬ cell_exceeds uint8_traits (vector_memory weak_spike_input_8bit (fun _ => 0))
      { size := 11, guard_cells := 2, threshold_delta := 17 } 0 30 15 := by
    simp only [cell_exceeds, hb, Training_bounds.elems, hl, hu, hc]
    norm_num [uint8_traits, round_to_float_ofNat, round_to_float_ofNat_div_two, round_to_float_zero,
      round_to_float_one]
  have hl9 : accumulate uint8_traits.add (vector_memory spike_input_8bit (fun _ => 0)) 10 13
      uint8_traits.zero = 30 := by decide
  have hu9 : accumulate uint8_traits.add (vector_memory spike_input_8bit (fun _ => 0)) 18 21
      uint8_traits.zero = 30 := by decide
  have hc9 : vector_memory spike_input_8bit (fun _ => 0) 15 = 90 := by decide
  have hlen9 : ((spike_input_8bit.length : ℕ) : ℤ) = 30 := by rfl
  have e9 : cell_exceeds uint8_traits (vector_memory spike_input_8bit (fun _ => 0))
      { size := 11, guard_cells := 2, threshold_delta := 30 } 0 30 15 := by
    simp only [cell_exceeds, hb, Training_bounds.elems, hl9, hu9, hc9]
    norm_num [uint8_traits, round_to_float_ofNat, round_to_float_ofNat_div_two, round_to_float_zero,
      round_to_float_one]
  refine ⟨⟨?_, ?_, by norm_num⟩, ?_⟩
  · rw [hw, process_vector_getElem _ _ _ _ 15 (by decide), cell_power_eq, hlen]
    rw [show ((15 : ℕ) : ℤ) = 15 from rfl, if_neg e]
  · rw [hl, hu]
    norm_num [uint8_traits, round_to_float_ofNat, round_to_float_ofNat_div_two, round_to_float_zero,
      round_to_float_one]
  · rw [hw30, process_vector_getElem _ _ _ _ 15 (by decide), cell_power_eq, hlen9]
    rw [show ((15 : ℕ) : ℤ) = 15 from rfl, if_pos e9, hc9]
    norm_num [uint8_traits, round_to_float_ofNat, round_to_float_ofNat_div_two, round_to_float_zero,
      round_to_float_one]

/-! ## Raw output -/

/-- C11, evaluated on the 8-bit input `{10, 75, 10}` with `Window(3, 0, 30)`:
`process_as_raw` reports cell 1 with its count 75 (75 > 10 + 60), `process` zeroes it
(37.5 > 10 + 30 fails), so the raw output is non-zero where the dB output is zero and the dB
output is not half of the raw output. -/
theorem raw_output_differs_from_dB_output :
    process_as_raw_vector uint8_traits strong_spike_input_8bit (fun _ => 0)
        (Window.create_delta 16 3 0 30) = some [0, 75, 0]
    ∧ process_vector uint8_traits strong_spike_input_8bit (fun _ => 0)
        (Window.create_delta 16 3 0 30) = [0, 0, 0] := by
  have hw : Window.create_delta 16 3 0 30
      = { size := 3, guard_cells := 0, threshold_delta := 30 } := by
    simp [Window.create_delta, Window.resize, force_odd]
  have hb0 : training_bounds { size := 3, guard_cells := 0, threshold_delta := 30 } 0 3 0
      = ⟨0, 0, 1, 3⟩ := by decide
  have hb1 : training_bounds { size := 3, guard_cells := 0, threshold_delta := 30 } 0 3 1
      = ⟨0, 1, 2, 3⟩ := by decide
  have hb2 : training_bounds { size := 3, guard_cells := 0, threshold_delta := 30 } 0 3 2
      = ⟨0, 2, 3, 3⟩ := by decide
  have a00 : accumulate uint8_traits.add (vector_memory strong_spike_input_8bit (fun _ => 0)) 0 0
      uint8_traits.zero = 0 := by decide
  have a13 : accumulate uint8_traits.add (vector_memory strong_spike_input_8bit (fun _ => 0)) 1 3
      uint8_traits.zero = 85 := by decide
  have a01 : accumulate uint8_traits.add (vector_memory strong_spike_input_8bit (fun _ => 0)) 0 1
      uint8_traits.zero = 10 := by decide
  have a23 : accumulate uint8_traits.add (vector_memory strong_spike_input_8bit (fun _ => 0)) 2 3
      uint8_traits.zero = 10 := by decide
  have a02 : accumulate uint8_traits.add (vector_memory strong_spike_input_8bit (fun _ => 0)) 0 2
      uint8_traits.zero = 85 := by decide
  have a33 : accumulate uint8_traits.add (vector_memory strong_spike_input_8bit (fun _ => 0)) 3 3
      uint8_traits.zero = 0 := by decide
  have m0 : vector_memory strong_spike_input_8bit (fun _ => 0) 0 = 10 := by decide
  have m1 : vector_memory strong_spike_input_8bit (fun _ => 0) 1 = 75 := by decide
  have m2 : vector_memory strong_spike_input_8bit (fun _ => 0) 2 = 10 := by decide
  have e0 : ¬ cell_exceeds uint8_traits (vector_memory strong_spike_input_8bit (fun _ => 0))
      { size := 3, guard_cells := 0, threshold_delta := 30 } 0 3 0 := by
    simp only [cell_exceeds, hb0, Training_bounds.elems, a00, a13, m0]
    norm_num [uint8_traits, round_to_float_ofNat, round_to_float_ofNat_div_two, round_to_float_zero,
      round_to_float_one]
  have e1 : ¬ cell_exceeds uint8_traits (vector_memory strong_spike_input_8bit (fun _ => 0))
      { size := 3, guard_cells := 0, threshold_delta := 30 } 0 3 1 := by
    simp only [cell_exceeds, hb1, Training_bounds.elems, a01, a23, m1]
    norm_num [uint8_traits, round_to_float_ofNat, round_to_float_ofNat_div_two, round_to_float_zero,
      round_to_float_one]
  have e2 : ¬ cell_exceeds uint8_traits (vector_memory strong_spike_input_8bit (fun _ => 0))
      { size := 3, guard_cells := 0, threshold_delta := 30 } 0 3 2 := by
    simp only [cell_exceeds, hb2, Training_bounds.elems, a02, a33, m2]
    norm_num [uint8_traits, round_to_float_ofNat, round_to_float_ofNat_div_two, round_to_float_zero,
      round_to_float_one]
  have hlen : ((strong_spike_input_8bit.length : ℕ) : ℤ) = 3 := by rfl
  rw [hw]
  constructor
  · simp only [process_as_raw_vector, process_as_raw, Raw_window_slider.create, from_dB_uint8_30]
    decide
  · simp only [process_vector, process, hlen, process_loop, process_cell_eq,
      Window_slider.create, sub_zero, zero_add, Int.toNat_ofNat, Int.reduceToNat, Int.reduceAdd,
      e0, e1, e2, if_true, if_false]

/-! ## The window at the edges of the range -/

theorem training_bounds_window (w : Window) (rs re e : ℤ)
    (hodd : w.size % 2 = 1) (hmin : 2 * w.guard_cells + 3 ≤ w.size)
    (hn : (w.size : ℤ) ≤ re - rs) (hlo : rs ≤ e) (hhi : e < re) :
    rs ≤ (training_bounds w rs re e).lower_begin
    ∧ (training_bounds w rs re e).upper_end ≤ re
    ∧ (training_bounds w rs re e).lower_begin ≤ e
    ∧ e < (training_bounds w rs re e).upper_end
    ∧ (training_bounds w rs re e).upper_end - (training_bounds w rs re e).lower_begin
        = (w.size : ℤ)
    ∧ (e - ((w.size / 2 : ℕ) : ℤ) < rs → (training_bounds w rs re e).lower_begin = rs)
    ∧ (e + ((w.size / 2 : ℕ) : ℤ) + 1 > re → (training_bounds w rs re e).upper_end = re)
    ∧ (rs ≤ e - ((w.size / 2 : ℕ) : ℤ) → e + ((w.size / 2 : ℕ) : ℤ) + 1 ≤ re →
        (training_bounds w rs re e).lower_begin = e - ((w.size / 2 : ℕ) : ℤ)) := by
  simp only [training_bounds]
  push_cast
  split_ifs <;> omega

theorem training_bounds_interior_elems (w : Window) (rs re e : ℤ)
    (hodd : w.size % 2 = 1) (hmin : 2 * w.guard_cells + 3 ≤ w.size)
    (hlo : rs ≤ e - ((w.size / 2 : ℕ) : ℤ)) (hhi : e + ((w.size / 2 : ℕ) : ℤ) < re) :
    (training_bounds w rs re e).elems = (w.size : ℤ) - 2 * (w.guard_cells : ℤ) - 1 := by
  simp only [training_bounds, Training_bounds.elems]
  push_cast
  split_ifs <;> omega

/-- C27 fails as stated: `Window(7, 32767)` has the size 7 after its construction with a
16-bit `Bin`, and at the cell 15 of the range `[0, 30)` the window `[lower_begin, upper_end)`
of `process_cell` is `[0, 19)`, of width 19. -/
theorem wrapped_guard_window_is_wide :
    (Window.create 16 7 32767).size = 7
    ∧ ((Window.create 16 7 32767).size : ℤ) ≤ 30 - 0
    ∧ training_bounds (Window.create 16 7 32767) 0 30 15
      = { lower_begin := 0, lower_end := 0, upper_begin := 19, upper_end := 19 }
    ∧ (training_bounds (Window.create 16 7 32767) 0 30 15).upper_end
        - (training_bounds (Window.create 16 7 32767) 0 30 15).lower_begin = 19 := by
  have hb : training_bounds { size := 7, guard_cells := 32767, threshold_delta := 0 } 0 30 15
      = ⟨0, 0, 19, 19⟩ := by decide
  rw [window_7_32767, hb]
  exact ⟨rfl, by decide, rfl, by decide⟩

/-- C27, amended: for a window built by a constructor (size `s` and guard count `g` of type
`Bin`, `2g + 3` representable in `Bin`), a range `[range_start, range_end)` of at least `S` cells, `S` the
size of the window, and a cell under test `e` of the range, the window
`[lower_begin, upper_end)` that `process_cell` uses after the edge handling lies inside the
range, contains `e` and has the width `S`; it starts at `range_start` when the lower half
would fall below it, ends at `range_end` when the upper half would pass it, and is centred
on `e` otherwise. -/
theorem process_cell_window_in_range (bits s g : ℕ) (delta : ℚ) (range_start range_end e : ℤ)
    (hs : s < 2 ^ bits) (hg : 2 * g + 3 < 2 ^ bits)
    (hn : ((Window.create_delta bits s g delta).size : ℤ) ≤ range_end - range_start)
    (hlo : range_start ≤ e) (hhi : e < range_end) :
    range_start
        ≤ (training_bounds (Window.create_delta bits s g delta) range_start range_end e).lower_begin
    ∧ (training_bounds (Window.create_delta bits s g delta) range_start range_end e).upper_end
        ≤ range_end
    ∧ (training_bounds (Window.create_delta bits s g delta) range_start range_end e).lower_begin
        ≤ e
    ∧ e < (training_bounds (Window.create_delta bits s g delta) range_start range_end e).upper_end
    ∧ (training_bounds (Window.create_delta bits s g delta) range_start range_end e).upper_end
        - (training_bounds (Window.create_delta bits s g delta) range_start range_end e).lower_begin
        = ((Window.create_delta bits s g delta).size : ℤ)
    ∧ (e - (((Window.create_delta bits s g delta).size / 2 : ℕ) : ℤ) < range_start →
        (training_bounds (Window.create_delta bits s g delta) range_start range_end e).lower_begin
          = range_start)
    ∧ (e + (((Window.create_delta bits s g delta).size / 2 : ℕ) : ℤ) + 1 > range_end →
        (training_bounds (Window.create_delta bits s g delta) range_start range_end e).upper_end
          = range_end)
    ∧ (range_start ≤ e - (((Window.create_delta bits s g delta).size / 2 : ℕ) : ℤ) →
        e + (((Window.create_delta bits s g delta).size / 2 : ℕ) : ℤ) + 1 ≤ range_end →
        (training_bounds (Window.create_delta bits s g delta) range_start range_end e).lower_begin
          = e - (((Window.create_delta bits s g delta).size / 2 : ℕ) : ℤ)) := by
  obtain ⟨hodd, hmin, -, -⟩ := (window_size_odd_min bits s g delta hs hg).2
  have hgc : (Window.create_delta bits s g delta).guard_cells = g := rfl
  exact training_bounds_window _ range_start range_end e hodd (by rw [hgc]; exact hmin) hn hlo hhi

/-- Witness of C27 (amended): the window of 11 cells with 2 guard cells on the range `[0, 30)`, at the
first cell. -/
theorem process_cell_window_in_range_witness :
    (training_bounds (Window.create_delta 16 11 2 30) 0 30 0).lower_begin = 0
    ∧ (training_bounds (Window.create_delta 16 11 2 30) 0 30 0).upper_end
        - (training_bounds (Window.create_delta 16 11 2 30) 0 30 0).lower_begin
        = ((Window.create_delta 16 11 2 30).size : ℤ) :=
  ⟨(process_cell_window_in_range 16 11 2 30 0 30 0 (by decide) (by decide) (by decide)
      (by decide) (by decide)).2.2.2.2.2.1 (by decide),
    (process_cell_window_in_range 16 11 2 30 0 30 0 (by decide) (by decide) (by decide)
      (by decide) (by decide)).2.2.2.2.1⟩

/-- C28, evaluated on the range `[2, 4)` with `Window(3, 0, 30)`, which is wider than the
range: at the cell 2 the training cells are the cells 1 and 3, at the cell 3 they are the
cells 1 and 2, and the cell 1 lies before the start of the range.  The level that
`process_cell` returns for the cell 2 changes with the value of the cell 1: 50 when it
holds 10, 0 when it holds 1000. -/
theorem process_cell_reads_before_range :
    training_bounds (Window.create_delta 16 3 0 30) 2 4 2
      = { lower_begin := 1, lower_end := 2, upper_begin := 3, upper_end := 4 }
    ∧ training_bounds (Window.create_delta 16 3 0 30) 2 4 3
      = { lower_begin := 1, lower_end := 3, upper_begin := 4, upper_end := 4 }
    ∧ (∀ bin : ℕ, 2 ≤ bin → bin < 4 →
        vector_memory quiet_buffer (fun _ => 0) (bin : ℤ)
          = vector_memory loud_buffer (fun _ => 0) (bin : ℤ))
    ∧ cell_power float_traits (vector_memory quiet_buffer (fun _ => 0))
        (Window.create_delta 16 3 0 30) 2 4 2 = 50
    ∧ cell_power float_traits (vector_memory loud_buffer (fun _ => 0))
        (Window.create_delta 16 3 0 30) 2 4 2 = 0 := by
  have hw : Window.create_delta 16 3 0 30 = { size := 3, guard_cells := 0, threshold_delta := 30 } := by
    simp [Window.create_delta, Window.resize, force_odd]
  have q1 : vector_memory quiet_buffer (fun _ => (0:ℚ)) 1 = 10 := by rfl
  have q2 : vector_memory quiet_buffer (fun _ => (0:ℚ)) 2 = 50 := by rfl
  have q3 : vector_memory quiet_buffer (fun _ => (0:ℚ)) 3 = 10 := by rfl
  have l1 : vector_memory loud_buffer (fun _ => (0:ℚ)) 1 = 1000 := by rfl
  have l2 : vector_memory loud_buffer (fun _ => (0:ℚ)) 2 = 50 := by rfl
  have l3 : vector_memory loud_buffer (fun _ => (0:ℚ)) 3 = 10 := by rfl
  have hb2 : training_bounds { size := 3, guard_cells := 0, threshold_delta := 30 } 2 4 2
      = ⟨1, 2, 3, 4⟩ := by decide
  have hb3 : training_bounds { size := 3, guard_cells := 0, threshold_delta := 30 } 2 4 3
      = ⟨1, 3, 4, 4⟩ := by decide
  have eq2 : cell_exceeds float_traits (vector_memory quiet_buffer (fun _ => 0))
      { size := 3, guard_cells := 0, threshold_delta := 30 } 2 4 2 := by
    simp only [cell_exceeds, hb2, Training_bounds.elems]
    norm_num [accumulate_lt, accumulate_ge, round_to_float_ofNat, round_to_float_neg, round_to_float_zero,
      round_to_float_one, round_to_float_ofNat_div_two, float_traits, q1, q2, q3]
  have el2 : ¬ cell_exceeds float_traits (vector_memory loud_buffer (fun _ => 0))
      { size := 3, guard_cells := 0, threshold_delta := 30 } 2 4 2 := by
    simp only [cell_exceeds, hb2, Training_bounds.elems]
    norm_num [accumulate_lt, accumulate_ge, round_to_float_ofNat, round_to_float_neg, round_to_float_zero,
      round_to_float_one, round_to_float_ofNat_div_two, float_traits, l1, l2, l3]
  rw [hw]
  refine ⟨hb2, hb3, ?_, ?_, ?_⟩
  · intro bin h2 h4
    interval_cases bin
    · rfl
    · rfl
  · rw [cell_power_eq, if_pos eq2]
    norm_num [float_traits, q2]
  · rw [cell_power_eq, if_neg el2]

/-- C29 fails as stated: `Window(7, 32767)` has the size 7 after its construction with a
16-bit `Bin`; the cell 15 of the range `[0, 30)` is strictly interior, and `process_cell`
has no training cell for it, the two sets being emptied by the last two clamps. -/
theorem wrapped_guard_no_training_cell :
    (Window.create 16 7 32767).size = 7
    ∧ (Window.create 16 7 32767).guard_cells = 32767
    ∧ (0 : ℤ) ≤ 15 - (((Window.create 16 7 32767).size / 2 : ℕ) : ℤ)
    ∧ (15 : ℤ) + (((Window.create 16 7 32767).size / 2 : ℕ) : ℤ) < 30
    ∧ (training_bounds (Window.create 16 7 32767) 0 30 15).elems = 0
    ∧ ((Window.create 16 7 32767).size : ℤ) - 2 * (32767 : ℤ) - 1 ≠ 0 := by
  have hb : (training_bounds { size := 7, guard_cells := 32767, threshold_delta := 0 } 0 30
      15).elems = 0 := by decide
  rw [window_7_32767, hb]
  exact ⟨rfl, rfl, by decide, by decide, rfl, by decide⟩

/-- C29, amended: for a window built by a constructor (size `s` and guard count `g` of type
`Bin`, `2g + 3` representable in `Bin`), of size `S`, and a cell under test `e` that is strictly interior
(`e - S / 2 >= range_start` and `e + S / 2 < range_end`), `process_cell` averages over
exactly `S - 2g - 1` training cells. -/
theorem interior_training_set_size (bits s g : ℕ) (delta : ℚ) (range_start range_end e : ℤ)
    (hs : s < 2 ^ bits) (hg : 2 * g + 3 < 2 ^ bits)
    (hlo : range_start ≤ e - (((Window.create_delta bits s g delta).size / 2 : ℕ) : ℤ))
    (hhi : e + (((Window.create_delta bits s g delta).size / 2 : ℕ) : ℤ) < range_end) :
    (training_bounds (Window.create_delta bits s g delta) range_start range_end e).elems
      = ((Window.create_delta bits s g delta).size : ℤ) - 2 * (g : ℤ) - 1 := by
  obtain ⟨hodd, hmin, -, -⟩ := (window_size_odd_min bits s g delta hs hg).2
  have hgc : (Window.create_delta bits s g delta).guard_cells = g := rfl
  have h := training_bounds_interior_elems (Window.create_delta bits s g delta)
    range_start range_end e hodd (by rw [hgc]; exact hmin) hlo hhi
  rw [hgc] at h
  exact h

/-- Witness of C29 (amended): the window of 11 cells with 2 guard cells on the range `[0, 30)`, at
the cell 15: 6 training cells. -/
theorem interior_training_set_size_witness :
    (training_bounds (Window.create_delta 16 11 2 30) 0 30 15).elems = 6 :=
  interior_training_set_size 16 11 2 30 0 30 15 (by decide) (by decide) (by decide) (by decide)

/-- C30, evaluated with `Window(11, 2)` on the range `[0, 30)`: `process_cell` averages
over 8 training cells at the cell 0, over 7 at the cell 1 and over 6 at the interior cell
15; and with `Window(5, 1)` on the range `[0, 5)`, over 3 cells at the cell 0 and over 2 at
the cell 2. -/
theorem training_set_size_varies :
    (training_bounds (Window.create 16 11 2) 0 30 0).elems = 8
    ∧ (training_bounds (Window.create 16 11 2) 0 30 1).elems = 7
    ∧ (training_bounds (Window.create 16 11 2) 0 30 15).elems = 6
    ∧ (training_bounds (Window.create 16 11 2) 0 30 29).elems = 8
    ∧ (training_bounds (Window.create 16 5 1) 0 5 0).elems = 3
    ∧ (training_bounds (Window.create 16 5 1) 0 5 2).elems = 2 := by
  decide

/-! ## The sums of the training cells -/

theorem from_dB_uint8_0 : uint8_traits.from_dB 0 = 0 := by
  norm_num [uint8_traits, trunc, round_to_float_zero]

/-- C31, evaluated with `Window(5, 0, 0)` on the five 8-bit cells `{200, 200, 150, 200,
200}`, at the cell 2: each of the two sums of two training cells is accumulated in a
`std::uint8_t` and wraps from 400 to 144, so that the sum that is divided by the count 4 is
288 where the training cells sum to 800; `process_as_raw` reports the cell 2 with its 150
counts, all four training cells holding 200.  With 16-bit cells of 40000 counts a sum of two
cells wraps from 80000 to 14464. -/
theorem training_sums_wrap :
    training_bounds (Window.create_delta 16 5 0 0) 0 5 2
      = { lower_begin := 0, lower_end := 2, upper_begin := 3, upper_end := 5 }
    ∧ accumulate uint8_traits.add (vector_memory loud_level_8bit (fun _ => 0)) 0 2
        uint8_traits.zero = 144
    ∧ accumulate uint8_traits.add (vector_memory loud_level_8bit (fun _ => 0)) 3 5
        uint8_traits.zero = 144
    ∧ uint8_traits.sum_dB 144 144 = 288
    ∧ loud_level_8bit.getD 0 0 + loud_level_8bit.getD 1 0 + loud_level_8bit.getD 3 0
        + loud_level_8bit.getD 4 0 = 800
    ∧ process_as_raw_vector uint8_traits loud_level_8bit (fun _ => 0)
        (Window.create_delta 16 5 0 0) = some [200, 200, 150, 200, 200]
    ∧ accumulate uint16_traits.add (vector_memory loud_level_16bit (fun _ => 0)) 0 2
        uint16_traits.zero = 14464
    ∧ loud_level_16bit.getD 0 0 + loud_level_16bit.getD 1 0 = 80000 := by
  have hw : Window.create_delta 16 5 0 0
      = { size := 5, guard_cells := 0, threshold_delta := 0 } := by
    simp [Window.create_delta, Window.resize, force_odd]
  refine ⟨?_, by decide, by decide, ?_, by decide, ?_, by decide, by decide⟩
  · rw [hw]; decide
  · norm_num [uint8_traits, round_to_float_ofNat, round_to_float_ofNat_div_two, round_to_float_zero,
      round_to_float_one]
  · rw [hw]
    simp only [process_as_raw_vector, process_as_raw, Raw_window_slider.create, from_dB_uint8_0]
    decide

end CA_CFAR

/-! ## Radar feature bitmap -/

theorem of_uint32_fields (w : ℕ) (hw : w < 2 ^ 32) :
    (Radar_features.of_uint32 w).auto_tune.val = w / 2 ^ 0 % 2
      ∧ (Radar_features.of_uint32 w).secondary_processing_module.val = w / 2 ^ 1 % 2
      ∧ (Radar_features.of_uint32 w).non_contour_data.val = w / 2 ^ 2 % 2
      ∧ (Radar_features.of_uint32 w).contour_map_defined.val = w / 2 ^ 3 % 2
      ∧ (Radar_features.of_uint32 w).sector_blanking.val = w / 2 ^ 4 % 2
      ∧ (Radar_features.of_uint32 w).fft_protocol.val = w / 2 ^ 5 % 4
      ∧ (Radar_features.of_uint32 w).low_precision_output.val = w / 2 ^ 7 % 2
      ∧ (Radar_features.of_uint32 w).high_precision_output.val = w / 2 ^ 8 % 2
      ∧ (Radar_features.of_uint32 w).point_data_output.val = w / 2 ^ 9 % 4
      ∧ (Radar_features.of_uint32 w).modbus_mode.val = w / 2 ^ 11 % 4
      ∧ (Radar_features.of_uint32 w).motor_enabled.val = w / 2 ^ 13 % 2
      ∧ (Radar_features.of_uint32 w).safeguard_enabled.val = w / 2 ^ 14 % 2 := by
  simp only [Radar_features.of_uint32, take_bits, drop_bits, Nat.mod_eq_of_lt hw]
  norm_num
  omega

theorem to_uint32_sum (r : Radar_features) :
    r.to_uint32
      = r.auto_tune.val * 2 ^ 0 + r.secondary_processing_module.val * 2 ^ 1
        + r.non_contour_data.val * 2 ^ 2 + r.contour_map_defined.val * 2 ^ 3
        + r.sector_blanking.val * 2 ^ 4 + r.fft_protocol.val * 2 ^ 5
        + r.low_precision_output.val * 2 ^ 7 + r.high_precision_output.val * 2 ^ 8
        + r.point_data_output.val * 2 ^ 9 + r.modbus_mode.val * 2 ^ 11
        + r.motor_enabled.val * 2 ^ 13 + r.safeguard_enabled.val * 2 ^ 14 := by
  simp only [Radar_features.to_uint32, put_bits]
  ring

theorem to_uint32_of_uint32 (w : ℕ) (hw : w < 2 ^ 15) :
    (Radar_features.of_uint32 w).to_uint32 = w := by
  have h32 : w < 2 ^ 32 := lt_trans hw (by norm_num)
  have hf := of_uint32_fields w h32
  rw [to_uint32_sum]
  obtain ⟨h0, h1, h2, h3, h4, h5, h6, h7, h8, h9, h10, h11⟩ := hf
  rw [h0, h1, h2, h3, h4, h5, h6, h7, h8, h9, h10, h11]
  have hw2 : w < 32768 := by simpa using hw
  clear h0 h1 h2 h3 h4 h5 h6 h7 h8 h9 h10 h11 h32 hw
  simp only [Nat.reducePow]
  omega

/-- C12: for every 32-bit word `w`, `Radar_features(w)` decodes the fields from the low
bits upward: auto_tune = bit 0, secondary_processing_module = bit 1, non_contour_data =
bit 2, contour_map_defined = bit 3, sector_blanking = bit 4, fft_protocol = bits 5-6,
low_precision_output = bit 7, high_precision_output = bit 8, point_data_output = bits 9-10,
modbus_mode = bits 11-12, motor_enabled = bit 13, safeguard_enabled = bit 14; and the word
`0b110010010101110` decodes as the unit test `FlagsFromUint32` expects. -/
theorem radar_features_decode (w : ℕ) (hw : w < 2 ^ 32) :
    ((Radar_features.of_uint32 w).auto_tune.val = w / 2 ^ 0 % 2
      ∧ (Radar_features.of_uint32 w).secondary_processing_module.val = w / 2 ^ 1 % 2
      ∧ (Radar_features.of_uint32 w).non_contour_data.val = w / 2 ^ 2 % 2
      ∧ (Radar_features.of_uint32 w).contour_map_defined.val = w / 2 ^ 3 % 2
      ∧ (Radar_features.of_uint32 w).sector_blanking.val = w / 2 ^ 4 % 2
      ∧ (Radar_features.of_uint32 w).fft_protocol.val = w / 2 ^ 5 % 4
      ∧ (Radar_features.of_uint32 w).low_precision_output.val = w / 2 ^ 7 % 2
      ∧ (Radar_features.of_uint32 w).high_precision_output.val = w / 2 ^ 8 % 2
      ∧ (Radar_features.of_uint32 w).point_data_output.val = w / 2 ^ 9 % 4
      ∧ (Radar_features.of_uint32 w).modbus_mode.val = w / 2 ^ 11 % 4
      ∧ (Radar_features.of_uint32 w).motor_enabled.val = w / 2 ^ 13 % 2
      ∧ (Radar_features.of_uint32 w).safeguard_enabled.val = w / 2 ^ 14 % 2)
    ∧ ((Radar_features.of_uint32 0b110010010101110).safeguard_enabled.val = 1
      ∧ (Radar_features.of_uint32 0b110010010101110).motor_enabled.val = 1
      ∧ (Radar_features.of_uint32 0b110010010101110).modbus_mode.val
          = Radar_features.Modbus_mode.disabled
      ∧ (Radar_features.of_uint32 0b110010010101110).point_data_output.val
          = Radar_features.Point_data.nav_mode
      ∧ (Radar_features.of_uint32 0b110010010101110).high_precision_output.val = 0
      ∧ (Radar_features.of_uint32 0b110010010101110).low_precision_output.val = 1
      ∧ (Radar_features.of_uint32 0b110010010101110).fft_protocol.val
          = Radar_features.Protocol.colossus
      ∧ (Radar_features.of_uint32 0b110010010101110).sector_blanking.val = 0
      ∧ (Radar_features.of_uint32 0b110010010101110).contour_map_defined.val = 1
      ∧ (Radar_features.of_uint32 0b110010010101110).non_contour_data.val = 1
      ∧ (Radar_features.of_uint32 0b110010010101110).secondary_processing_module.val = 1
      ∧ (Radar_features.of_uint32 0b110010010101110).auto_tune.val = 0) :=
  ⟨of_uint32_fields w hw, by decide⟩

/-- Witness of C12: the word `0x03` of the unit test `InitialiseFromUint32`. -/
theorem radar_features_decode_witness :
    (Radar_features.of_uint32 0x03).auto_tune.val = 0x03 / 2 ^ 0 % 2
      ∧ (Radar_features.of_uint32 0x03).secondary_processing_module.val = 0x03 / 2 ^ 1 % 2
      ∧ (Radar_features.of_uint32 0x03).non_contour_data.val = 0x03 / 2 ^ 2 % 2 :=
  ⟨(radar_features_decode 0x03 (by norm_num)).1.1,
    (radar_features_decode 0x03 (by norm_num)).1.2.1,
    (radar_features_decode 0x03 (by norm_num)).1.2.2.1⟩

/-- C13: a word below `2 ^ 15` is carried through `Radar_features(w).to_uint32()`
unchanged; for every values of the twelve fields `to_uint32()` is the sum of the field
values shifted to their bit offsets; a zeroed structure gives 0, auto_tune with
contour_map_defined and sector_blanking gives `0x19`, and fft_protocol = cat_240 with
modbus_mode = master gives `0x840`. -/
theorem radar_features_round_trip :
    (∀ w : ℕ, w < 2 ^ 15 → (Radar_features.of_uint32 w).to_uint32 = w)
    ∧ (∀ r : Radar_features,
      r.to_uint32
        = r.auto_tune.val * 2 ^ 0 + r.secondary_processing_module.val * 2 ^ 1
          + r.non_contour_data.val * 2 ^ 2 + r.contour_map_defined.val * 2 ^ 3
          + r.sector_blanking.val * 2 ^ 4 + r.fft_protocol.val * 2 ^ 5
          + r.low_precision_output.val * 2 ^ 7 + r.high_precision_output.val * 2 ^ 8
          + r.point_data_output.val * 2 ^ 9 + r.modbus_mode.val * 2 ^ 11
          + r.motor_enabled.val * 2 ^ 13 + r.safeguard_enabled.val * 2 ^ 14)
    ∧ Radar_features.zeroed.to_uint32 = 0
    ∧ (((Radar_features.zeroed.set_auto_tune 1).set_contour_map_defined 1).set_sector_blanking
        1).to_uint32 = 0x19
    ∧ ((Radar_features.zeroed.set_fft_protocol Radar_features.Protocol.cat_240).set_modbus_mode
        Radar_features.Modbus_mode.master).to_uint32 = 0x840 :=
  ⟨to_uint32_of_uint32, to_uint32_sum, by decide, by decide, by decide⟩

/-- Witness of C13: the word `0x840` is carried through unchanged. -/
theorem radar_features_round_trip_witness :
    (Radar_features.of_uint32 0x840).to_uint32 = 0x840 :=
  radar_features_round_trip.1 0x840 (by norm_num)

namespace Unit

/-! ## FFT quanta -/

theorem round_to_float_scale_factor :
    round_to_float ((965 / 10) / (1415 / 10)) = 5720853 / 8388608 := by
  have := round_to_float_eq_of_near ((965 / 10) / (1415 / 10)) 11441706 (-24)
    (by norm_num) (by norm_num) (by norm_num) (by norm_num) (by norm_num)
  rw [this]
  norm_num

/-- C14, evaluated on the raw value 256.  `scale_factor` is the `float` nearest to
96.5 / 141.5.  `FFT_16bit(256).to_dB()` is `scale_factor`, about 0.68 dB, the raw value being
read as the fixed-point number 1.0 with 8 fractional bits; the claim asks for 256 times
that, about 174.6 dB, which is what the CFAR conversion
`Slider_traits<std::uint16_t>::to_dB(256)` returns. -/
theorem fft_16bit_to_dB_of_256 :
    FFT_16bit.scale_factor = 5720853 / 8388608
    ∧ CA_CFAR.scale_factor = FFT_16bit.scale_factor
    ∧ (FFT_16bit.create 256).value.to_float = 1
    ∧ (FFT_16bit.create 256).to_dB = FFT_16bit.scale_factor
    ∧ CA_CFAR.uint16_traits.to_dB 256 = 256 * FFT_16bit.scale_factor
    ∧ (FFT_16bit.create 256).to_dB < 1
    ∧ 174 < CA_CFAR.uint16_traits.to_dB 256
    ∧ CA_CFAR.uint16_traits.to_dB 256 ≠ (FFT_16bit.create 256).to_dB := by
  have hsf : FFT_16bit.scale_factor = 5720853 / 8388608 := by
    simp only [FFT_16bit.scale_factor, FFT_16bit.max_dB, FFT_16bit.full_scale]
    exact round_to_float_scale_factor
  have hcf : CA_CFAR.scale_factor = 5720853 / 8388608 := by
    simp only [CA_CFAR.scale_factor]
    exact round_to_float_scale_factor
  have r256 : round_to_float 256 = 256 := round_to_float_ofNat 256 (by norm_num)
  have hone : (FFT_16bit.create 256).value.to_float = 1 := by
    simp only [FFT_16bit.create, Utility.Fixed.from_raw, Utility.Fixed.to_float]
    norm_num [r256, round_to_float_one]
  have rsf : round_to_float (5720853 / 8388608) = 5720853 / 8388608 := by
    have := round_to_float_idem_of_dyadic 5720853 23 (by norm_num) (by norm_num)
    norm_num at this ⊢
    exact this
  have rsf256 : round_to_float (256 * (5720853 / 8388608)) = 256 * (5720853 / 8388608) := by
    have := round_to_float_idem_of_dyadic 5720853 15 (by norm_num) (by norm_num)
    norm_num at this ⊢
    exact this
  have hfft : (FFT_16bit.create 256).to_dB = FFT_16bit.scale_factor := by
    simp only [FFT_16bit.to_dB, hone, one_mul, hsf, rsf]
  have hcfar : CA_CFAR.uint16_traits.to_dB 256 = 256 * FFT_16bit.scale_factor := by
    simp only [CA_CFAR.uint16_traits, hcf, hsf]
    rw [show ((256 : ℕ) : ℚ) = 256 by norm_num, r256, rsf256]
  refine ⟨hsf, by rw [hcf, hsf], hone, hfft, hcfar, ?_, ?_, ?_⟩
  · rw [hfft, hsf]; norm_num
  · rw [hcfar, hsf]; norm_num
  · rw [hfft, hcfar, hsf]; norm_num

end Unit

namespace Navigation

/-! ## FFT buffer -/

theorem bin_loop_fault_none {α : Type} (L : ℕ) (buffered : List (List ℚ)) (hL : L < 65536)
    (hb : ∀ s ∈ buffered, s.length = L) :
    (bin_loop_fault L buffered : Option (Outcome α)) = none := by
  have hany : buffered.any (fun azimuth => decide (azimuth.length < min L 65536)) = false := by
    rw [List.any_eq_false]
    intro s hs
    have := hb s hs
    simp only [decide_eq_true_eq, not_lt]
    omega
  simp only [bin_loop_fault, hany, Bool.false_eq_true, if_false, if_neg (not_le.mpr hL)]

theorem average_step (exp10 log10 : ℚ → ℚ) (N L : ℕ) (hL : L < 65536) (b : FFT_Buffer)
    (spoke : List ℚ) (hmode : b.mode = Buffer_mode.average) (hsamples : b.samples = N)
    (hbuf : ∀ s ∈ b.buffered_data, s.length = L) (hspoke : spoke.length = L) :
    (b.buffered_data.length + 1 < N →
      b.process_fft exp10 log10 spoke
        = Outcome.returns (none, { b with buffered_data := b.buffered_data ++ [spoke] }))
    ∧ (N ≤ b.buffered_data.length + 1 →
      ∃ out, out.length = L
        ∧ b.process_fft exp10 log10 spoke
          = Outcome.returns (some out, { b with buffered_data := [] })) := by
  have hall : ∀ s ∈ b.buffered_data ++ [spoke], s.length = L := by
    intro s hs
    rcases List.mem_append.mp hs with h | h
    · exact hbuf s h
    · rw [List.mem_singleton.mp h]; exact hspoke
  constructor
  · intro hlt
    simp only [FFT_Buffer.process_fft, FFT_Buffer.buffer_data, hmode, hsamples,
      List.length_append, List.length_singleton, if_pos hlt]
  · intro hge
    refine ⟨(List.range spoke.length).map
      (average_bin exp10 log10 (b.buffered_data ++ [spoke])), by simp [hspoke], ?_⟩
    simp only [FFT_Buffer.process_fft, FFT_Buffer.buffer_data, hmode, hsamples,
      List.length_append, List.length_singleton, if_neg (not_lt.mpr hge), hspoke,
      bin_loop_fault_none L _ hL hall]

theorem average_run (exp10 log10 : ℚ → ℚ) (N L : ℕ) (hN : 1 ≤ N) (hL : L < 65536) :
    ∀ (spokes : List (List ℚ)) (b : FFT_Buffer),
      b.mode = Buffer_mode.average → b.samples = N →
      (∀ s ∈ b.buffered_data, s.length = L) → b.buffered_data.length < N →
      (∀ s ∈ spokes, s.length = L) →
      ∃ outs b', b.run exp10 log10 spokes = Outcome.returns (outs, b')
        ∧ outs.length = spokes.length
        ∧ b'.buffered_data.length = (b.buffered_data.length + spokes.length) % N
        ∧ ∀ k, k < spokes.length →
          ∃ o, outs[k]? = some o
            ∧ (o.isSome = true ↔ N ∣ b.buffered_data.length + k + 1)
            ∧ ∀ s, o = some s → s.length = L := by
  intro spokes
  induction spokes with
  | nil =>
    intro b _ _ _ hlt _
    refine ⟨[], b, rfl, rfl, ?_, ?_⟩
    · simp only [List.length_nil, add_zero]
      exact (Nat.mod_eq_of_lt hlt).symm
    · intro k hk
      simp at hk
  | cons spoke rest ih =>
    intro b hmode hsamples hbuf hlt hspokes
    have hspoke : spoke.length = L := hspokes spoke (List.mem_cons_self _ _)
    have hrest : ∀ s ∈ rest, s.length = L := fun s hs => hspokes s (List.mem_cons_of_mem _ hs)
    obtain ⟨hstep1, hstep2⟩ := average_step exp10 log10 N L hL b spoke hmode hsamples hbuf hspoke
    by_cases hcase : b.buffered_data.length + 1 < N
    · -- the spoke is buffered
      have hall : ∀ s ∈ b.buffered_data ++ [spoke], s.length = L := by
        intro s hs
        rcases List.mem_append.mp hs with h | h
        · exact hbuf s h
        · rw [List.mem_singleton.mp h]; exact hspoke
      obtain ⟨outs, b', hrun, hlen, hmod, hk⟩ :=
        ih { b with buffered_data := b.buffered_data ++ [spoke] } hmode hsamples hall
          (by simpa using hcase) hrest
      refine ⟨none :: outs, b', ?_, by simp [hlen], ?_, ?_⟩
      · simp only [FFT_Buffer.run, hstep1 hcase, Outcome.bind, hrun]
      · rw [hmod]
        have hsum : (b.buffered_data ++ [spoke]).length + rest.length
            = b.buffered_data.length + (spoke :: rest).length := by
          simp only [List.length_append, List.length_cons, List.length_nil]
          omega
        rw [hsum]
      · intro k hklt
        cases k with
        | zero =>
          refine ⟨none, by simp, ?_, by simp⟩
          simp only [Option.isSome_none, Bool.false_eq_true, false_iff]
          intro hdvd
          have := Nat.le_of_dvd (by omega) hdvd
          omega
        | succ j =>
          obtain ⟨o, ho, hiff, hl⟩ := hk j (by simpa using hklt)
          refine ⟨o, by simpa using ho, ?_, hl⟩
          rw [hiff]
          simp only [List.length_append, List.length_singleton]
          rw [show b.buffered_data.length + 1 + j + 1 = b.buffered_data.length + (j + 1) + 1 by
            omega]
    · -- the spoke completes the set: an averaged spoke is returned and the buffer cleared
      have hge : N ≤ b.buffered_data.length + 1 := not_lt.mp hcase
      have heq : b.buffered_data.length + 1 = N := by omega
      obtain ⟨out, hout, hret⟩ := hstep2 hge
      obtain ⟨outs, b', hrun, hlen, hmod, hk⟩ :=
        ih { b with buffered_data := [] } hmode hsamples (by simp) (by simpa using hN) hrest
      refine ⟨some out :: outs, b', ?_, by simp [hlen], ?_, ?_⟩
      · simp only [FFT_Buffer.run, hret, Outcome.bind, hrun]
      · rw [hmod]
        simp only [List.length_nil, zero_add, List.length_cons]
        rw [show b.buffered_data.length + (rest.length + 1) = rest.length + N by omega]
        simp
      · intro k hklt
        cases k with
        | zero =>
          refine ⟨some out, by simp, ?_, ?_⟩
          · simp only [Option.isSome_some, true_iff, add_zero]
            rw [heq]
          · intro s hs
            rw [← Option.some.inj hs]
            exact hout
        | succ j =>
          obtain ⟨o, ho, hiff, hl⟩ := hk j (by simpa using hklt)
          refine ⟨o, by simpa using ho, ?_, hl⟩
          rw [hiff]
          simp only [List.length_nil, zero_add]
          rw [show b.buffered_data.length + (j + 1) + 1 = j + 1 + N by omega]
          simp

theorem max_scan_nil (bin : ℕ) (max : ℚ) : max_scan [] bin max = max := rfl

theorem max_loop_nil : ∀ (todo bin : ℕ), max_loop [] bin todo 0 = List.replicate todo 0 := by
  intro todo
  induction todo with
  | zero => intro bin; rfl
  | succ n ih =>
    intro bin
    simp only [max_loop, max_scan_nil, ih, List.replicate_succ]

theorem max_process_fft_empty (exp10 log10 : ℚ → ℚ) (b : FFT_Buffer) (spoke : List ℚ)
    (hmode : b.mode = Buffer_mode.max) (hbuf : b.buffered_data = []) :
    b.process_fft exp10 log10 spoke
      = if 65536 ≤ spoke.length then Outcome.loops_forever
        else Outcome.returns (some (List.replicate spoke.length 0), b) := by
  simp only [FFT_Buffer.process_fft, FFT_Buffer.buffer_data, hmode, hbuf, bin_loop_fault,
    List.any_nil, Bool.false_eq_true, if_false, max_loop_nil]
  split_ifs <;> rfl

theorem max_run_replicate (exp10 log10 : ℚ → ℚ) (b : FFT_Buffer) (spoke : List ℚ)
    (hmode : b.mode = Buffer_mode.max) (hbuf : b.buffered_data = [])
    (hlen : spoke.length < 65536) :
    ∀ n : ℕ, b.run exp10 log10 (List.replicate n spoke)
      = Outcome.returns (List.replicate n (some (List.replicate spoke.length 0)), b) := by
  intro n
  induction n with
  | zero => rfl
  | succ m ih =>
    simp only [List.replicate_succ, FFT_Buffer.run,
      max_process_fft_empty exp10 log10 b spoke hmode hbuf, if_neg (not_le.mpr hlen),
      Outcome.bind, ih]

theorem average_process_fft_long (exp10 log10 : ℚ → ℚ) (spoke : List ℚ)
    (hlen : spoke.length = 65536) :
    (FFT_Buffer.create Buffer_mode.average 1).process_fft exp10 log10 spoke
      = Outcome.loops_forever := by
  simp [FFT_Buffer.process_fft, FFT_Buffer.buffer_data, FFT_Buffer.create, bin_loop_fault,
    hlen]

/-- C15 fails as stated: in average mode with sample size 1 the first call, with a spoke of
65536 bins, does not return, the 16-bit bin counter of the averaging loop never reaching
the size of the spoke. -/
theorem average_mode_long_spoke_never_returns :
    (List.replicate 65536 (0 : ℚ)).length = 65536
    ∧ (FFT_Buffer.create Buffer_mode.average 1).process_fft (fun x => x) (fun x => x)
        (List.replicate 65536 0) = Outcome.loops_forever := by
  exact ⟨List.length_replicate _ _,
    average_process_fft_long _ _ _ (List.length_replicate _ _)⟩

/-- C15, amended: in average mode with sample size `N >= 1`, for every sequence of spokes
of one length `L <= 65535`, every call returns, the `k`-th call (counting from 1) returns a
value if and only if `N` divides `k`, a returned spoke has length `L`, and the buffer is
empty after a call that returned a value. -/
theorem average_mode_returns_every_nth_call (exp10 log10 : ℚ → ℚ) (N L : ℕ)
    (spokes : List (List ℚ)) (hN : 1 ≤ N) (hL : L < 65536)
    (hs : ∀ s ∈ spokes, s.length = L) :
    ∃ outs b',
      (FFT_Buffer.create Buffer_mode.average N).run exp10 log10 spokes
        = Outcome.returns (outs, b')
      ∧ outs.length = spokes.length
      ∧ (∀ k, k < spokes.length →
          ∃ o, outs[k]? = some o ∧ (o.isSome = true ↔ N ∣ k + 1)
            ∧ ∀ s, o = some s → s.length = L)
      ∧ (N ∣ spokes.length → b'.buffered_data = []) := by
  obtain ⟨outs, b', hrun, hlen, hmod, hk⟩ :=
    average_run exp10 log10 N L hN hL spokes (FFT_Buffer.create Buffer_mode.average N) rfl rfl
      (by simp [FFT_Buffer.create]) (by simpa [FFT_Buffer.create] using hN) hs
  refine ⟨outs, b', hrun, hlen, ?_, ?_⟩
  · intro k hklt
    obtain ⟨o, ho, hiff, hl⟩ := hk k hklt
    refine ⟨o, ho, ?_, hl⟩
    rw [hiff]
    simp [FFT_Buffer.create]
  · intro hdvd
    have h0 : b'.buffered_data.length = 0 := by
      rw [hmod]
      simp only [FFT_Buffer.create, List.length_nil, zero_add]
      exact Nat.mod_eq_zero_of_dvd hdvd
    exact List.length_eq_zero.mp h0

/-- Witness of C15 (amended): sample size 2 and two spokes of two bins. -/
theorem average_mode_returns_every_nth_call_witness :
    ∃ outs b',
      (FFT_Buffer.create Buffer_mode.average 2).run (fun x => x) (fun x => x) [[1, 2], [3, 4]]
        = Outcome.returns (outs, b')
      ∧ outs.length = [[(1 : ℚ), 2], [3, 4]].length
      ∧ (∀ k, k < [[(1 : ℚ), 2], [3, 4]].length →
          ∃ o, outs[k]? = some o ∧ (o.isSome = true ↔ 2 ∣ k + 1)
            ∧ ∀ s, o = some s → s.length = 2)
      ∧ (2 ∣ [[(1 : ℚ), 2], [3, 4]].length → b'.buffered_data = []) :=
  average_mode_returns_every_nth_call (fun x => x) (fun x => x) 2 2 [[1, 2], [3, 4]]
    (by decide) (by decide) (by decide)

/-- C16, evaluated with sample size 2: the first call in max mode returns a value, the
all-zero spoke, and leaves the buffer as it was. -/
theorem max_mode_returns_on_first_call :
    (FFT_Buffer.create Buffer_mode.max 2).process_fft (fun x => x) (fun x => x) [1, 2]
      = Outcome.returns (some [0, 0], FFT_Buffer.create Buffer_mode.max 2) := by
  rw [max_process_fft_empty _ _ (FFT_Buffer.create Buffer_mode.max 2) _ rfl rfl]
  simp

/-- C17, evaluated with sample size 2 on the spokes `{4}` and `{6}`: both calls emit the
spoke `{0}`, where the maximum of the spokes received is 4 after the first call and 6 after
the second. -/
theorem max_mode_emits_zeros :
    (FFT_Buffer.create Buffer_mode.max 2).run (fun x => x) (fun x => x) [[4], [6]]
      = Outcome.returns ([some [0], some [0]], FFT_Buffer.create Buffer_mode.max 2) := by
  have h4 := max_process_fft_empty (fun x => x) (fun x => x)
    (FFT_Buffer.create Buffer_mode.max 2) [4] rfl rfl
  have h6 := max_process_fft_empty (fun x => x) (fun x => x)
    (FFT_Buffer.create Buffer_mode.max 2) [6] rfl rfl
  simp only [List.length_singleton, List.replicate_one] at h4 h6
  rw [if_neg (by decide)] at h4 h6
  simp only [FFT_Buffer.run, h4, h6, Outcome.bind]

/-- C18, evaluated with `N = 2` on the spoke `{4, 6}`: the buffer of sample size 2 emits a
spoke on each of its two calls, where the buffer of sample size 1 that is fed the spoke once
emits one; and each spoke emitted is `{0, 0}`, not the maximum of the spokes received.  In
general a max-mode buffer of any sample size `N` that is fed a spoke of fewer than 65536
bins `N` times emits `N` all-zero spokes and stays empty. -/
theorem max_mode_emits_on_every_call :
    (FFT_Buffer.create Buffer_mode.max 2).run (fun x => x) (fun x => x) [[4, 6], [4, 6]]
      = Outcome.returns ([some [0, 0], some [0, 0]], FFT_Buffer.create Buffer_mode.max 2)
    ∧ (FFT_Buffer.create Buffer_mode.max 1).run (fun x => x) (fun x => x) [[4, 6]]
      = Outcome.returns ([some [0, 0]], FFT_Buffer.create Buffer_mode.max 1)
    ∧ ([some [(0 : ℚ), 0], some [0, 0]].filterMap (fun o => o)).length = 2
    ∧ ([some [(0 : ℚ), 0]].filterMap (fun o => o)).length = 1
    ∧ (∀ (exp10 log10 : ℚ → ℚ) (s : List ℚ) (N : ℕ), s.length < 65536 →
        (FFT_Buffer.create Buffer_mode.max N).run exp10 log10 (List.replicate N s)
          = Outcome.returns (List.replicate N (some (List.replicate s.length 0)),
              FFT_Buffer.create Buffer_mode.max N)) := by
  refine ⟨?_, ?_, rfl, rfl, ?_⟩
  · have h := max_run_replicate (fun x => x) (fun x => x) (FFT_Buffer.create Buffer_mode.max 2)
      [4, 6] rfl rfl (by decide) 2
    exact h
  · have h := max_run_replicate (fun x => x) (fun x => x) (FFT_Buffer.create Buffer_mode.max 1)
      [4, 6] rfl rfl (by decide) 1
    exact h
  · intro exp10 log10 s N hlen
    exact max_run_replicate exp10 log10 (FFT_Buffer.create Buffer_mode.max N) s rfl rfl hlen N

/-! ## Peak selection -/

theorem rising_loop_spec (data : List ℚ) :
    ∀ (fuel itr : ℕ), itr < data.length → data.length - itr ≤ fuel →
      itr ≤ rising_loop data fuel itr ∧ rising_loop data fuel itr < data.length
      ∧ (∀ j, itr ≤ j → j < rising_loop data fuel itr → data.getD (j + 1) 0 > data.getD j 0)
      ∧ (rising_loop data fuel itr + 1 < data.length →
          ¬ data.getD (rising_loop data fuel itr + 1) 0 > data.getD (rising_loop data fuel itr) 0) := by
  intro fuel
  induction fuel with
  | zero => intro itr h1 h2; omega
  | succ f ih =>
    intro itr h1 h2
    by_cases hlt : itr + 1 < data.length
    · by_cases hgt : data.getD (itr + 1) 0 > data.getD itr 0
      · have hr : rising_loop data (f + 1) itr = rising_loop data f (itr + 1) := by
          simp only [rising_loop, if_pos hlt, if_pos hgt]
        obtain ⟨a, b, c, d⟩ := ih (itr + 1) hlt (by omega)
        rw [hr]
        refine ⟨by omega, b, ?_, d⟩
        intro j hj1 hj2
        by_cases hje : j = itr
        · rw [hje]; exact hgt
        · exact c j (by omega) hj2
      · have hr : rising_loop data (f + 1) itr = itr := by
          simp only [rising_loop, if_pos hlt, if_neg hgt]
        rw [hr]
        exact ⟨le_refl _, h1, fun j hj1 hj2 => absurd hj2 (by omega), fun _ => hgt⟩
    · have hr : rising_loop data (f + 1) itr = data.length - 1 := by
        simp only [rising_loop, if_neg hlt]
      rw [hr]
      exact ⟨by omega, by omega, fun j hj1 hj2 => absurd hj2 (by omega),
        fun h => absurd h (by omega)⟩

theorem first_non_zero_spec (data : List ℚ) (hpos : ∃ v ∈ data, v > 0) :
    first_non_zero data < data.length
    ∧ data.getD (first_non_zero data) 0 > 0
    ∧ ∀ j, j < first_non_zero data → ¬ data.getD j 0 > 0 := by
  have hlt : first_non_zero data < data.length := by
    obtain ⟨v, hv, hv0⟩ := hpos
    exact List.findIdx_lt_length_of_exists ⟨v, hv, by simpa using hv0⟩
  refine ⟨hlt, ?_, ?_⟩
  · have h := List.findIdx_getElem (w := hlt)
    rw [List.getD_eq_getElem _ _ hlt]
    simpa [first_non_zero] using h
  · intro j hj
    have hjl : j < data.length := by omega
    have h := List.not_of_lt_findIdx hj
    rw [List.getD_eq_getElem _ _ hjl]
    simpa using h

/-- C19: with `peak_mode = first`, on every range that holds a positive value,
`select_peak` returns the first index `r`, at or after the first positive cell `p`, whose
successor is not larger than it, or the last index when there is none: `p <= r`, every cell
from `p` to `r - 1` is followed by a larger one, and the cell `r` is the last one or is
followed by a cell that is not larger.  Hence, on a sequence of positive values that rises
strictly up to an apex and falls strictly after it, the index of the apex is returned. -/
theorem select_peak_first (data : List ℚ) (hpos : ∃ v ∈ data, v > 0) :
    (first_non_zero data < data.length
      ∧ data.getD (first_non_zero data) 0 > 0
      ∧ (∀ j, j < first_non_zero data → ¬ data.getD j 0 > 0)
      ∧ first_non_zero data ≤ select_peak Peak_mode.first data
      ∧ select_peak Peak_mode.first data < data.length
      ∧ (∀ j, first_non_zero data ≤ j → j < select_peak Peak_mode.first data →
          data.getD (j + 1) 0 > data.getD j 0)
      ∧ (select_peak Peak_mode.first data + 1 < data.length →
          ¬ data.getD (select_peak Peak_mode.first data + 1) 0
              > data.getD (select_peak Peak_mode.first data) 0))
    ∧ ∀ apex, apex < data.length → (∀ v ∈ data, v > 0) →
        (∀ j, j < apex → data.getD j 0 < data.getD (j + 1) 0) →
        (∀ j, apex ≤ j → j + 1 < data.length → data.getD (j + 1) 0 < data.getD j 0) →
        select_peak Peak_mode.first data = apex := by
  obtain ⟨hp, hp0, hbefore⟩ := first_non_zero_spec data hpos
  have hsel : select_peak Peak_mode.first data
      = rising_loop data data.length (first_non_zero data) := by
    simp only [select_peak, if_neg (Nat.ne_of_lt hp)]
  obtain ⟨a, b, c, d⟩ := rising_loop_spec data data.length (first_non_zero data) hp (by omega)
  rw [← hsel] at a b c d
  refine ⟨⟨hp, hp0, hbefore, a, b, c, d⟩, ?_⟩
  intro apex hapex hall hup hdown
  have hp00 : first_non_zero data = 0 := by
    by_contra hne
    have h0 : 0 < data.length := by omega
    have hmem : data.getD 0 0 ∈ data := by
      rw [List.getD_eq_getElem _ _ h0]
      exact List.getElem_mem h0
    exact hbefore 0 (Nat.pos_of_ne_zero hne) (hall _ hmem)
  rcases Nat.lt_trichotomy (select_peak Peak_mode.first data) apex with h | h | h
  · exact absurd (hup _ h) (d (by omega))
  · exact h
  · have h1 := c apex (by omega) h
    have h2 := hdown apex (le_refl _) (by omega)
    exact absurd h1 (not_lt.mpr (le_of_lt h2))

/-- Witness of C19: the sequence `{1, 3, 7, 12, 9, 4, 2}`, whose apex is at index 3. -/
theorem select_peak_first_witness :
    (∃ v ∈ apex_input, v > 0) ∧ select_peak Peak_mode.first apex_input = 3 :=
  ⟨⟨1, by decide, by norm_num⟩,
    (select_peak_first apex_input ⟨1, by decide, by norm_num⟩).2 3 (by decide)
      (by decide) (by decide)
      (by
        intro j h1 h2
        have h6 : j + 1 < 7 := h2
        have hj : j = 3 ∨ j = 4 ∨ j = 5 := by omega
        rcases hj with h | h | h <;> subst h <;> decide)⟩

/-! ## Peak resolution -/

theorem list_sum_range_map (f : ℕ → ℚ) (n : ℕ) :
    ((List.range n).map f).sum = ∑ i in Finset.range n, f i := by
  induction n with
  | zero => rfl
  | succ m ih =>
    rw [List.range_succ, List.map_append, List.sum_append, ih, Finset.sum_range_succ]
    simp

theorem getD_range_map (f : ℕ → ℚ) (n i : ℕ) (hi : i < n) :
    ((List.range n).map f).getD i 0 = f i := by
  rw [List.getD_eq_getElem _ _ (by simpa using hi)]
  simp

theorem scalar_sum_range_map (f : ℕ → ℚ) (n : ℕ) :
    Vector_maths.scalar_sum ((List.range n).map f) n = ∑ i in Finset.range n, f i := by
  rw [Vector_maths.scalar_sum, list_sum_range_map]
  exact Finset.sum_congr rfl (fun i hi => getD_range_map f n i (Finset.mem_range.mp hi))

theorem scalar_square_range_map (f : ℕ → ℚ) (n : ℕ) :
    Vector_maths.scalar_square ((List.range n).map f) n
      = ∑ i in Finset.range n, f i * f i := by
  rw [Vector_maths.scalar_square, list_sum_range_map]
  exact Finset.sum_congr rfl (fun i hi => by
    rw [getD_range_map f n i (Finset.mem_range.mp hi)])

theorem vector_multiply_range_map (f g : ℕ → ℚ) (n : ℕ) :
    Vector_maths.vector_multiply ((List.range n).map f) ((List.range n).map g) n
      = (List.range n).map (fun i => f i * g i) := by
  rw [Vector_maths.vector_multiply]
  apply List.map_congr_left
  intro i hi
  rw [getD_range_map f n i (List.mem_range.mp hi), getD_range_map g n i (List.mem_range.mp hi)]

theorem vector_square_range_map (f : ℕ → ℚ) (n : ℕ) :
    Vector_maths.vector_square ((List.range n).map f) n
      = (List.range n).map (fun i => f i * f i) := by
  rw [Vector_maths.vector_square]
  apply List.map_congr_left
  intro i hi
  rw [getD_range_map f n i (List.mem_range.mp hi)]

theorem vector_cube_range_map (f : ℕ → ℚ) (n : ℕ) :
    Vector_maths.vector_cube ((List.range n).map f) n
      = (List.range n).map (fun i => f i * f i * f i) := by
  rw [Vector_maths.vector_cube]
  apply List.map_congr_left
  intro i hi
  rw [getD_range_map f n i (List.mem_range.mp hi)]

theorem peak_resolve_eq (data : List ℚ) (peak_bin window_sz n off s : ℕ)
    (hw : 1 ≤ window_sz) (hn : (if window_sz ≤ 5 then 5 else window_sz) = n)
    (hoff : (n - 1) / 2 = off) (h15 : n ≤ 15) (hP : peak_bin = s + off)
    (hhi : s + n ≤ data.length) :
    peak_resolve data peak_bin window_sz
      = if (window_elimination data s n off).A0 = 0
          ∨ (window_elimination data s n off).B1 = 0
          ∨ (window_elimination data s n off).C2 = 0
          ∨ (window_elimination data s n off).b2 = 0
        then Outcome.not_finite
        else Outcome.returns
          (-(window_elimination data s n off).b1 / (2 * (window_elimination data s n off).b2)
            + (peak_bin : ℚ)) := by
  have hw0 : ¬ window_sz = 0 := by omega
  have hoff256 : (n - 1) / 2 % 256 = off := by
    rw [hoff]; exact Nat.mod_eq_of_lt (by omega)
  have h15n : ¬ max_bins_to_operate_on < n := by
    simp only [max_bins_to_operate_on]; omega
  have hx : (List.range n).map
        (fun (index : ℕ) => (((0 - (off : ℤ) + (index : ℤ) : ℤ)) : ℚ))
      = (List.range n).map (fun (i : ℕ) => (i : ℚ) - (off : ℚ)) := by
    apply List.map_congr_left
    intro i _
    push_cast
    ring
  have hy : (List.range n).map
        (fun (index : ℕ) => data.getD ((peak_bin : ℤ) - (off : ℤ) + (index : ℤ)).toNat 0)
      = (List.range n).map (fun (i : ℕ) => data.getD (s + i) 0) := by
    apply List.map_congr_left
    intro i _
    have : ((peak_bin : ℤ) - (off : ℤ) + (i : ℤ)).toNat = s + i := by
      rw [hP]; omega
    rw [this]
  have hbounds : ¬ ((peak_bin : ℤ) - (off : ℤ) < 0
      ∨ (data.length : ℤ) < (peak_bin : ℤ) - (off : ℤ) + (n : ℤ)) := by
    rw [hP]; omega
  have hstart : (((peak_bin : ℤ) - (off : ℤ) : ℤ) : ℚ) + (off : ℚ) = (peak_bin : ℚ) := by
    push_cast; ring
  simp only [peak_resolve, if_neg hw0, hn, hoff256, if_neg h15n, if_neg hbounds, hx, hy,
    vector_square_range_map, vector_cube_range_map, vector_multiply_range_map,
    scalar_sum_range_map, scalar_square_range_map, add_assoc, hstart, window_elimination]

theorem eliminate_normal_equations (N Sx Sx2 Sx3 Sx4 Sy Sxy Sx2y : ℚ)
    (hA : (eliminate N Sx Sx2 Sx3 Sx4 Sy Sxy Sx2y).A0 ≠ 0)
    (hB : (eliminate N Sx Sx2 Sx3 Sx4 Sy Sxy Sx2y).B1 ≠ 0)
    (hC : (eliminate N Sx Sx2 Sx3 Sx4 Sy Sxy Sx2y).C2 ≠ 0) :
    N * ((Sx2y - Sx3 * (eliminate N Sx Sx2 Sx3 Sx4 Sy Sxy Sx2y).b1
            - Sx4 * (eliminate N Sx Sx2 Sx3 Sx4 Sy Sxy Sx2y).b2) / Sx2)
        + Sx * (eliminate N Sx Sx2 Sx3 Sx4 Sy Sxy Sx2y).b1
        + Sx2 * (eliminate N Sx Sx2 Sx3 Sx4 Sy Sxy Sx2y).b2 = Sy
    ∧ Sx * ((Sx2y - Sx3 * (eliminate N Sx Sx2 Sx3 Sx4 Sy Sxy Sx2y).b1
            - Sx4 * (eliminate N Sx Sx2 Sx3 Sx4 Sy Sxy Sx2y).b2) / Sx2)
        + Sx2 * (eliminate N Sx Sx2 Sx3 Sx4 Sy Sxy Sx2y).b1
        + Sx3 * (eliminate N Sx Sx2 Sx3 Sx4 Sy Sxy Sx2y).b2 = Sxy
    ∧ Sx2 * ((Sx2y - Sx3 * (eliminate N Sx Sx2 Sx3 Sx4 Sy Sxy Sx2y).b1
            - Sx4 * (eliminate N Sx Sx2 Sx3 Sx4 Sy Sxy Sx2y).b2) / Sx2)
        + Sx3 * (eliminate N Sx Sx2 Sx3 Sx4 Sy Sxy Sx2y).b1
        + Sx4 * (eliminate N Sx Sx2 Sx3 Sx4 Sy Sxy Sx2y).b2 = Sx2y := by
  simp only [eliminate] at hA hB hC ⊢
  have hA2 : Sx2 ≠ 0 := hA
  set B1 := Sx2 - Sx / Sx2 * Sx3 with hB1
  set B2 := Sx3 - Sx / Sx2 * Sx4 with hB2
  set B3 := Sxy - Sx / Sx2 * Sx2y with hB3
  set C1 := Sx - N / Sx2 * Sx3 with hC1
  set C2 := Sx2 - N / Sx2 * Sx4 - C1 / B1 * B2 with hC2
  set C3 := Sy - N / Sx2 * Sx2y - C1 / B1 * B3 with hC3
  set b2 := C3 / C2 with hb2
  set b1 := (B3 - B2 * b2) / B1 with hb1
  have e1 : C2 * b2 = C3 := by rw [hb2]; field_simp
  have e2 : B1 * b1 + B2 * b2 = B3 := by rw [hb1]; field_simp
  have e3 : C1 = C1 / B1 * B1 := by field_simp
  set a := (Sx2y - Sx3 * b1 - Sx4 * b2) / Sx2 with ha
  have e4 : Sx2 * a + Sx3 * b1 + Sx4 * b2 = Sx2y := by rw [ha]; field_simp; ring
  have e5 : Sx = Sx / Sx2 * Sx2 := by field_simp
  have e6 : N = N / Sx2 * Sx2 := by field_simp
  refine ⟨?_, ?_, e4⟩
  · -- row C
    have : N * a + Sx * b1 + Sx2 * b2
        = N / Sx2 * (Sx2 * a + Sx3 * b1 + Sx4 * b2)
          + (C1 / B1 * (B1 * b1 + B2 * b2) + C2 * b2) := by
      rw [hC2, hC1]
      field_simp
      ring
    rw [this, e4, e2, e1, hC3]
    ring
  · -- row B
    have : Sx * a + Sx2 * b1 + Sx3 * b2
        = Sx / Sx2 * (Sx2 * a + Sx3 * b1 + Sx4 * b2) + (B1 * b1 + B2 * b2) := by
      rw [hB1, hB2]
      field_simp
      ring
    rw [this, e4, e2, hB3]
    ring

theorem sum_sq_residual_split (n : ℕ) (r x : ℕ → ℚ)
    (h0 : ∑ i in Finset.range n, r i = 0)
    (h1 : ∑ i in Finset.range n, x i * r i = 0)
    (h2 : ∑ i in Finset.range n, x i * x i * r i = 0) (α β γ : ℚ) :
    ∑ i in Finset.range n, (r i - (α + β * x i + γ * (x i * x i))) ^ 2
      = ∑ i in Finset.range n, r i ^ 2
        + ∑ i in Finset.range n, (α + β * x i + γ * (x i * x i)) ^ 2 := by
  have hterm : ∀ i, (r i - (α + β * x i + γ * (x i * x i))) ^ 2
      = r i ^ 2 + (α + β * x i + γ * (x i * x i)) ^ 2
        - (2 * α * r i + 2 * β * (x i * r i) + 2 * γ * (x i * x i * r i)) := by
    intro i; ring
  simp only [hterm]
  rw [Finset.sum_sub_distrib, Finset.sum_add_distrib, Finset.sum_add_distrib,
    Finset.sum_add_distrib, ← Finset.mul_sum, ← Finset.mul_sum, ← Finset.mul_sum, h0, h1, h2]
  ring

theorem spec_residual_sum_eq (data : List ℚ) (s n off : ℕ) (ar b1 b2 a' b' c' : ℚ) :
    spec_residual_sum data s n a' b' c'
      = ∑ i in Finset.range n,
          ((data.getD (s + i) 0
              - (ar + b1 * ((i : ℚ) - (off : ℚ))
                  + b2 * (((i : ℚ) - (off : ℚ)) * ((i : ℚ) - (off : ℚ)))))
            - ((a' + b' * ((s + off : ℕ) : ℚ) + c' * ((s + off : ℕ) : ℚ) ^ 2 - ar)
                + (b' + 2 * c' * ((s + off : ℕ) : ℚ) - b1) * ((i : ℚ) - (off : ℚ))
                + (c' - b2) * (((i : ℚ) - (off : ℚ)) * ((i : ℚ) - (off : ℚ))))) ^ 2 := by
  rw [spec_residual_sum, list_sum_range_map]
  apply Finset.sum_congr rfl
  intro i _
  push_cast
  ring

theorem least_squares_of_normal_equations (data : List ℚ) (s n off : ℕ) (ar b1 b2 : ℚ)
    (hC : (n : ℚ) * ar + (∑ i in Finset.range n, ((i : ℚ) - (off : ℚ))) * b1
        + (∑ i in Finset.range n, ((i : ℚ) - (off : ℚ)) * ((i : ℚ) - (off : ℚ))) * b2
        = ∑ i in Finset.range n, data.getD (s + i) 0)
    (hB : (∑ i in Finset.range n, ((i : ℚ) - (off : ℚ))) * ar
        + (∑ i in Finset.range n, ((i : ℚ) - (off : ℚ)) * ((i : ℚ) - (off : ℚ))) * b1
        + (∑ i in Finset.range n,
            ((i : ℚ) - (off : ℚ)) * ((i : ℚ) - (off : ℚ)) * ((i : ℚ) - (off : ℚ))) * b2
        = ∑ i in Finset.range n, ((i : ℚ) - (off : ℚ)) * data.getD (s + i) 0)
    (hA : (∑ i in Finset.range n, ((i : ℚ) - (off : ℚ)) * ((i : ℚ) - (off : ℚ))) * ar
        + (∑ i in Finset.range n,
            ((i : ℚ) - (off : ℚ)) * ((i : ℚ) - (off : ℚ)) * ((i : ℚ) - (off : ℚ))) * b1
        + (∑ i in Finset.range n,
            (((i : ℚ) - (off : ℚ)) * ((i : ℚ) - (off : ℚ)))
              * (((i : ℚ) - (off : ℚ)) * ((i : ℚ) - (off : ℚ)))) * b2
        = ∑ i in Finset.range n,
            (((i : ℚ) - (off : ℚ)) * ((i : ℚ) - (off : ℚ))) * data.getD (s + i) 0) :
    spec_least_squares data s n
        (ar - b1 * ((s + off : ℕ) : ℚ) + b2 * ((s + off : ℕ) : ℚ) ^ 2)
        (b1 - 2 * b2 * ((s + off : ℕ) : ℚ)) b2
    ∧ (3 ≤ n → ∀ a' b' c' : ℚ, spec_least_squares data s n a' b' c' →
        a' = ar - b1 * ((s + off : ℕ) : ℚ) + b2 * ((s + off : ℕ) : ℚ) ^ 2
        ∧ b' = b1 - 2 * b2 * ((s + off : ℕ) : ℚ) ∧ c' = b2) := by
  -- the residuals of the fitted quadratic are orthogonal to 1, x and x ^ 2
  have h0 : ∑ i in Finset.range n,
      (data.getD (s + i) 0
        - (ar + b1 * ((i : ℚ) - (off : ℚ))
            + b2 * (((i : ℚ) - (off : ℚ)) * ((i : ℚ) - (off : ℚ))))) = 0 := by
    rw [Finset.sum_sub_distrib, Finset.sum_add_distrib, Finset.sum_add_distrib,
      ← Finset.mul_sum, ← Finset.mul_sum, Finset.sum_const, Finset.card_range, ← hC]
    simp only [nsmul_eq_mul]
    ring
  have h1 : ∑ i in Finset.range n,
      ((i : ℚ) - (off : ℚ)) * (data.getD (s + i) 0
        - (ar + b1 * ((i : ℚ) - (off : ℚ))
            + b2 * (((i : ℚ) - (off : ℚ)) * ((i : ℚ) - (off : ℚ))))) = 0 := by
    have hterm : ∀ i : ℕ, ((i : ℚ) - (off : ℚ)) * (data.getD (s + i) 0
        - (ar + b1 * ((i : ℚ) - (off : ℚ))
            + b2 * (((i : ℚ) - (off : ℚ)) * ((i : ℚ) - (off : ℚ)))))
        = ((i : ℚ) - (off : ℚ)) * data.getD (s + i) 0
          - (ar * ((i : ℚ) - (off : ℚ))
            + b1 * (((i : ℚ) - (off : ℚ)) * ((i : ℚ) - (off : ℚ)))
            + b2 * (((i : ℚ) - (off : ℚ)) * ((i : ℚ) - (off : ℚ)) * ((i : ℚ) - (off : ℚ)))) := by
      intro i; ring
    simp only [hterm]
    rw [Finset.sum_sub_distrib, Finset.sum_add_distrib, Finset.sum_add_distrib,
      ← Finset.mul_sum, ← Finset.mul_sum, ← Finset.mul_sum, ← hB]
    ring
  have h2 : ∑ i in Finset.range n,
      ((i : ℚ) - (off : ℚ)) * ((i : ℚ) - (off : ℚ)) * (data.getD (s + i) 0
        - (ar + b1 * ((i : ℚ) - (off : ℚ))
            + b2 * (((i : ℚ) - (off : ℚ)) * ((i : ℚ) - (off : ℚ))))) = 0 := by
    have hterm : ∀ i : ℕ, ((i : ℚ) - (off : ℚ)) * ((i : ℚ) - (off : ℚ))
        * (data.getD (s + i) 0
        - (ar + b1 * ((i : ℚ) - (off : ℚ))
            + b2 * (((i : ℚ) - (off : ℚ)) * ((i : ℚ) - (off : ℚ)))))
        = ((i : ℚ) - (off : ℚ)) * ((i : ℚ) - (off : ℚ)) * data.getD (s + i) 0
          - (ar * (((i : ℚ) - (off : ℚ)) * ((i : ℚ) - (off : ℚ)))
            + b1 * (((i : ℚ) - (off : ℚ)) * ((i : ℚ) - (off : ℚ)) * ((i : ℚ) - (off : ℚ)))
            + b2 * ((((i : ℚ) - (off : ℚ)) * ((i : ℚ) - (off : ℚ)))
                * (((i : ℚ) - (off : ℚ)) * ((i : ℚ) - (off : ℚ))))) := by
      intro i; ring
    simp only [hterm]
    rw [Finset.sum_sub_distrib, Finset.sum_add_distrib, Finset.sum_add_distrib,
      ← Finset.mul_sum, ← Finset.mul_sum, ← Finset.mul_sum, ← hA]
    ring
  have hsplit : ∀ a' b' c' : ℚ, spec_residual_sum data s n a' b' c'
      = ∑ i in Finset.range n,
          (data.getD (s + i) 0
            - (ar + b1 * ((i : ℚ) - (off : ℚ))
                + b2 * (((i : ℚ) - (off : ℚ)) * ((i : ℚ) - (off : ℚ))))) ^ 2
        + ∑ i in Finset.range n,
          ((a' + b' * ((s + off : ℕ) : ℚ) + c' * ((s + off : ℕ) : ℚ) ^ 2 - ar)
            + (b' + 2 * c' * ((s + off : ℕ) : ℚ) - b1) * ((i : ℚ) - (off : ℚ))
            + (c' - b2) * (((i : ℚ) - (off : ℚ)) * ((i : ℚ) - (off : ℚ)))) ^ 2 := by
    intro a' b' c'
    rw [spec_residual_sum_eq data s n off ar b1 b2 a' b' c']
    exact sum_sq_residual_split n _ (fun i => (i : ℚ) - (off : ℚ)) h0 h1 h2 _ _ _
  have hown : spec_residual_sum data s n
        (ar - b1 * ((s + off : ℕ) : ℚ) + b2 * ((s + off : ℕ) : ℚ) ^ 2)
        (b1 - 2 * b2 * ((s + off : ℕ) : ℚ)) b2
      = ∑ i in Finset.range n,
          (data.getD (s + i) 0
            - (ar + b1 * ((i : ℚ) - (off : ℚ))
                + b2 * (((i : ℚ) - (off : ℚ)) * ((i : ℚ) - (off : ℚ))))) ^ 2 := by
    rw [hsplit]
    have hz : ∀ i : ℕ,
        ((ar - b1 * ((s + off : ℕ) : ℚ) + b2 * ((s + off : ℕ) : ℚ) ^ 2
            + (b1 - 2 * b2 * ((s + off : ℕ) : ℚ)) * ((s + off : ℕ) : ℚ)
            + b2 * ((s + off : ℕ) : ℚ) ^ 2 - ar)
          + (b1 - 2 * b2 * ((s + off : ℕ) : ℚ) + 2 * b2 * ((s + off : ℕ) : ℚ) - b1)
              * ((i : ℚ) - (off : ℚ))
          + (b2 - b2) * (((i : ℚ) - (off : ℚ)) * ((i : ℚ) - (off : ℚ)))) ^ 2 = 0 := by
      intro i; ring
    simp only [hz, Finset.sum_const_zero, add_zero]
  constructor
  · intro a' b' c'
    rw [hown, hsplit a' b' c']
    have : 0 ≤ ∑ i in Finset.range n,
          ((a' + b' * ((s + off : ℕ) : ℚ) + c' * ((s + off : ℕ) : ℚ) ^ 2 - ar)
            + (b' + 2 * c' * ((s + off : ℕ) : ℚ) - b1) * ((i : ℚ) - (off : ℚ))
            + (c' - b2) * (((i : ℚ) - (off : ℚ)) * ((i : ℚ) - (off : ℚ)))) ^ 2 :=
      Finset.sum_nonneg (fun i _ => sq_nonneg _)
    linarith
  · intro hn a' b' c' hls
    have hle := hls (ar - b1 * ((s + off : ℕ) : ℚ) + b2 * ((s + off : ℕ) : ℚ) ^ 2)
        (b1 - 2 * b2 * ((s + off : ℕ) : ℚ)) b2
    rw [hown, hsplit a' b' c'] at hle
    have hnonneg : ∀ i ∈ Finset.range n, 0 ≤
          ((a' + b' * ((s + off : ℕ) : ℚ) + c' * ((s + off : ℕ) : ℚ) ^ 2 - ar)
            + (b' + 2 * c' * ((s + off : ℕ) : ℚ) - b1) * ((i : ℚ) - (off : ℚ))
            + (c' - b2) * (((i : ℚ) - (off : ℚ)) * ((i : ℚ) - (off : ℚ)))) ^ 2 :=
      fun i _ => sq_nonneg _
    have hzero : ∑ i in Finset.range n,
          ((a' + b' * ((s + off : ℕ) : ℚ) + c' * ((s + off : ℕ) : ℚ) ^ 2 - ar)
            + (b' + 2 * c' * ((s + off : ℕ) : ℚ) - b1) * ((i : ℚ) - (off : ℚ))
            + (c' - b2) * (((i : ℚ) - (off : ℚ)) * ((i : ℚ) - (off : ℚ)))) ^ 2 = 0 :=
      le_antisymm (by linarith) (Finset.sum_nonneg hnonneg)
    have hall := (Finset.sum_eq_zero_iff_of_nonneg hnonneg).mp hzero
    have d0 := pow_eq_zero_iff (two_ne_zero) |>.mp (hall 0 (Finset.mem_range.mpr (by omega)))
    have d1 := pow_eq_zero_iff (two_ne_zero) |>.mp (hall 1 (Finset.mem_range.mpr (by omega)))
    have d2 := pow_eq_zero_iff (two_ne_zero) |>.mp (hall 2 (Finset.mem_range.mpr (by omega)))
    push_cast at d0 d1 d2
    have hc : c' = b2 := by linear_combination (1 / 2) * d0 - d1 + (1 / 2) * d2
    subst hc
    have hb : b' = b1 - 2 * c' * ((s : ℚ) + (off : ℚ)) := by
      linear_combination d1 - d0
    have ha : a' = ar - b1 * ((s : ℚ) + (off : ℚ)) + c' * ((s : ℚ) + (off : ℚ)) ^ 2 := by
      rw [hb] at d0
      linear_combination d0 
    push_cast
    exact ⟨ha, hb, rfl⟩

theorem window_elimination_divisors (data : List ℚ) (s n : ℕ) (h5 : 5 ≤ n) (h15 : n ≤ 15) :
    (window_elimination data s n ((n - 1) / 2)).A0 ≠ 0
    ∧ (window_elimination data s n ((n - 1) / 2)).B1 ≠ 0
    ∧ (window_elimination data s n ((n - 1) / 2)).C2 ≠ 0 := by
  simp only [window_elimination, eliminate]
  interval_cases n <;>
    (simp only [Finset.sum_range_succ, Finset.sum_range_zero]; norm_num)

theorem sum_range_reflect_odd (off : ℕ) (f : ℕ → ℚ)
    (h : ∀ j, j ≤ 2 * off → f (2 * off - j) = - f j) :
    ∑ j in Finset.range (2 * off + 1), f j = 0 := by
  have hr := Finset.sum_range_reflect f (2 * off + 1)
  have hneg : ∑ j in Finset.range (2 * off + 1), f (2 * off + 1 - 1 - j)
      = ∑ j in Finset.range (2 * off + 1), - f j := by
    apply Finset.sum_congr rfl
    intro j hj
    have hj2 : j ≤ 2 * off := by
      have := Finset.mem_range.mp hj
      omega
    rw [Nat.add_sub_cancel]
    exact h j hj2
  rw [hneg, Finset.sum_neg_distrib] at hr
  linarith

theorem window_elimination_symmetric (data : List ℚ) (s off : ℕ)
    (hsym : ∀ k, k ≤ off → data.getD (s + off - k) 0 = data.getD (s + off + k) 0)
    :
    (window_elimination data s (2 * off + 1) off).b1 = 0 := by
  have hcast : ∀ j, j ≤ 2 * off →
      (((2 * off - j : ℕ) : ℚ) - (off : ℚ)) = - ((j : ℚ) - (off : ℚ)) := by
    intro j hj
    rw [Nat.cast_sub hj]
    push_cast
    ring
  have hy : ∀ j, j ≤ 2 * off →
      data.getD (s + (2 * off - j)) 0 = data.getD (s + j) 0 := by
    intro j hj
    by_cases hjo : j ≤ off
    · have h := hsym (off - j) (by omega)
      rw [show s + off - (off - j) = s + j by omega,
        show s + off + (off - j) = s + (2 * off - j) by omega] at h
      exact h.symm
    · have h := hsym (j - off) (by omega)
      rw [show s + off - (j - off) = s + (2 * off - j) by omega,
        show s + off + (j - off) = s + j by omega] at h
      exact h
  have hSx : ∑ i in Finset.range (2 * off + 1), ((i : ℚ) - (off : ℚ)) = 0 :=
    sum_range_reflect_odd off _ (fun j hj => hcast j hj)
  have hSx3 : ∑ i in Finset.range (2 * off + 1),
      ((i : ℚ) - (off : ℚ)) * ((i : ℚ) - (off : ℚ)) * ((i : ℚ) - (off : ℚ)) = 0 :=
    sum_range_reflect_odd off
      (fun i => ((i : ℚ) - (off : ℚ)) * ((i : ℚ) - (off : ℚ)) * ((i : ℚ) - (off : ℚ)))
      (fun j hj => by
        show (((2 * off - j : ℕ) : ℚ) - (off : ℚ)) * (((2 * off - j : ℕ) : ℚ) - (off : ℚ))
            * (((2 * off - j : ℕ) : ℚ) - (off : ℚ)) = _
        rw [hcast j hj]; ring)
  have hSxy : ∑ i in Finset.range (2 * off + 1),
      ((i : ℚ) - (off : ℚ)) * data.getD (s + i) 0 = 0 :=
    sum_range_reflect_odd off (fun i => ((i : ℚ) - (off : ℚ)) * data.getD (s + i) 0)
      (fun j hj => by
        show (((2 * off - j : ℕ) : ℚ) - (off : ℚ)) * data.getD (s + (2 * off - j)) 0 = _
        rw [hcast j hj, hy j hj]; ring)
  simp only [window_elimination, eliminate, hSx, hSx3, hSxy]
  simp

theorem vertex_shift (b1 b2 P : ℚ) :
    (if b2 = 0 then Outcome.not_finite else Outcome.returns (-b1 / (2 * b2) + P))
      = if b2 = 0 then Outcome.not_finite
        else Outcome.returns (-(b1 - 2 * b2 * P) / (2 * b2)) := by
  by_cases h : b2 = 0
  · rw [if_pos h, if_pos h]
  · rw [if_neg h, if_neg h]
    congr 1
    field_simp
    ring

/-- C20 fails as stated: the window `{5, 4, 6, 4, 5}` is symmetric about the peak bin 2,
and the call does not resolve to the peak bin: the fitted quadratic has no curvature, it
has no vertex, and the result of the division by zero is not a finite number. -/
theorem peak_resolve_flat_fit :
    (∀ k, k ≤ 2 → flat_fit_input.getD (2 - k) 0 = flat_fit_input.getD (2 + k) 0)
    ∧ peak_resolve flat_fit_input 2 5 = Outcome.not_finite := by
  refine ⟨by decide, ?_⟩
  rw [peak_resolve_eq flat_fit_input 2 5 5 2 0 (by decide) (by decide) (by decide) (by decide)
    (by decide) (by decide)]
  have hb2 : (window_elimination flat_fit_input 0 5 2).b2 = 0 := by
    simp only [window_elimination, eliminate, Finset.sum_range_succ, Finset.sum_range_zero,
      flat_fit_input]
    norm_num
  rw [hb2]
  simp

/-- C20, amended: for a window size from 1 to 15, with `n = max(5, window_sz)` and
`off = (n - 1) / 2`, when the cells `peak_bin - off, ..., peak_bin - off + n - 1` lie within
the data, there is one least-squares quadratic `y = a + b * x + c * x ^ 2` of these `n`
cells over their bin indices; `peak_resolve` returns its vertex abscissa `-b / (2 * c)`, in
absolute bin units, when the curvature `c` is not zero, and no finite number when it is
zero.  When `n` is odd and the data are symmetric about the peak bin, a finite result is
exactly the peak bin. -/
theorem peak_resolve_least_squares (data : List ℚ) (peak_bin window_sz : ℕ)
    (hw : 1 ≤ window_sz) (h15 : window_sz ≤ 15)
    (hlo : (max 5 window_sz - 1) / 2 ≤ peak_bin)
    (hhi : peak_bin - (max 5 window_sz - 1) / 2 + max 5 window_sz ≤ data.length) :
    (∃ a b c : ℚ,
        spec_least_squares data (peak_bin - (max 5 window_sz - 1) / 2) (max 5 window_sz) a b c
        ∧ (∀ a' b' c' : ℚ,
            spec_least_squares data (peak_bin - (max 5 window_sz - 1) / 2) (max 5 window_sz)
              a' b' c' → a' = a ∧ b' = b ∧ c' = c)
        ∧ peak_resolve data peak_bin window_sz
            = if c = 0 then Outcome.not_finite else Outcome.returns (-b / (2 * c)))
    ∧ (max 5 window_sz % 2 = 1 →
        (∀ k, k ≤ (max 5 window_sz - 1) / 2 →
          data.getD (peak_bin - k) 0 = data.getD (peak_bin + k) 0) →
        peak_resolve data peak_bin window_sz ≠ Outcome.not_finite →
        peak_resolve data peak_bin window_sz = Outcome.returns (peak_bin : ℚ)) := by
  obtain ⟨n, hn⟩ : ∃ n, n = max 5 window_sz := ⟨_, rfl⟩
  obtain ⟨off, hoff⟩ : ∃ off, off = (n - 1) / 2 := ⟨_, rfl⟩
  obtain ⟨s, hs⟩ : ∃ s, s = peak_bin - off := ⟨_, rfl⟩
  rw [← hn, ← hoff] at hlo hhi ⊢
  rw [← hs] at hhi ⊢
  have h5 : 5 ≤ n := by rw [hn]; exact le_max_left _ _
  have hn15 : n ≤ 15 := by rw [hn]; exact max_le (by decide) h15
  have hif : (if window_sz ≤ 5 then 5 else window_sz) = n := by
    rw [hn]; split_ifs <;> omega
  have hP : peak_bin = s + off := by omega
  have heq := peak_resolve_eq data peak_bin window_sz n off s hw hif hoff.symm hn15 hP hhi
  obtain ⟨hA, hB, hC⟩ := window_elimination_divisors data s n h5 hn15
  rw [← hoff] at hA hB hC
  have hcond : ((window_elimination data s n off).A0 = 0
      ∨ (window_elimination data s n off).B1 = 0
      ∨ (window_elimination data s n off).C2 = 0
      ∨ (window_elimination data s n off).b2 = 0)
      ↔ (window_elimination data s n off).b2 = 0 := by
    constructor
    · rintro (h | h | h | h)
      · exact absurd h hA
      · exact absurd h hB
      · exact absurd h hC
      · exact h
    · intro h; exact Or.inr (Or.inr (Or.inr h))
  simp only [hcond] at heq
  constructor
  · obtain ⟨eC, eB, eA⟩ := eliminate_normal_equations _ _ _ _ _ _ _ _ hA hB hC
    obtain ⟨hls, huniq⟩ := least_squares_of_normal_equations data s n off _ _ _ eC eB eA
    refine ⟨_, _, _, hls, huniq (by omega), ?_⟩
    rw [heq, hP]
    exact vertex_shift _ _ _
  · intro hodd hsym hfin
    have hn2 : n = 2 * off + 1 := by omega
    rw [heq] at hfin ⊢
    by_cases hb2 : (window_elimination data s n off).b2 = 0
    · rw [if_pos hb2] at hfin
      exact absurd rfl hfin
    · rw [if_neg hb2]
      have hb1 : (window_elimination data s n off).b1 = 0 := by
        rw [hn2]
        exact window_elimination_symmetric data s off
          (fun k hk => by rw [← hP]; exact hsym k hk)
      rw [hb1]
      simp

/-- Witness of C20 (amended): the curve-fit scenario of the specification, the data
`{0, 0, 0, 0, 0, 10, 30, 90, 30, 10, 0, 0, 0, 0, 0}` with a window of 5 cells around the
index 7, resolves to 7. -/
theorem peak_resolve_least_squares_witness :
    peak_resolve curve_fit_input 7 5 = Outcome.returns 7 :=
  (peak_resolve_least_squares curve_fit_input 7 5 (by decide) (by decide) (by decide)
    (by decide)).2 (by decide) (by decide)
    (by
      rw [peak_resolve_eq curve_fit_input 7 5 5 2 5 (by decide) (by decide) (by decide)
        (by decide) (by decide) (by decide)]
      have hb2 : (window_elimination curve_fit_input 5 5 2).b2 ≠ 0 := by
        simp only [window_elimination, eliminate, Finset.sum_range_succ,
          Finset.sum_range_zero, curve_fit_input]
        norm_num
      have hA : (window_elimination curve_fit_input 5 5 2).A0 ≠ 0 :=
        (window_elimination_divisors curve_fit_input 5 5 (by decide) (by decide)).1
      have hB : (window_elimination curve_fit_input 5 5 2).B1 ≠ 0 :=
        (window_elimination_divisors curve_fit_input 5 5 (by decide) (by decide)).2.1
      have hC : (window_elimination curve_fit_input 5 5 2).C2 ≠ 0 :=
        (window_elimination_divisors curve_fit_input 5 5 (by decide) (by decide)).2.2
      rw [if_neg (by
        rintro (h | h | h | h)
        · exact hA h
        · exact hB h
        · exact hC h
        · exact hb2 h)]
      exact fun h => Outcome.noConfusion h)

/-! ## The number of points of the fit -/

/-- C32 fails as stated: a window of 6 cells is fitted on 6 points, an even number.  On the
spoke `{0, 1, 4, 9, 4, 1, 0, 0}` with the peak bin 3 the fit takes the cells 1 to 6: the
result, `417 / 130`, is the same for every value of the cell 0, and becomes `331 / 90` when
the cell 6 holds 5; a window of 5 cells, the cells 1 to 5, resolves to the peak bin 3. -/
theorem peak_resolve_fits_six_points :
    fitted_points 6 = 6
    ∧ peak_resolve six_point_spoke 3 6 = Outcome.returns (417 / 130)
    ∧ (∀ v : ℚ, peak_resolve (v :: six_point_spoke.tail) 3 6 = Outcome.returns (417 / 130))
    ∧ six_point_spoke_changed = six_point_spoke.set 6 5
    ∧ peak_resolve six_point_spoke_changed 3 6 = Outcome.returns (331 / 90)
    ∧ peak_resolve six_point_spoke 3 5 = Outcome.returns 3 := by
  refine ⟨by decide, ?_, ?_, by decide, ?_, ?_⟩
  · rw [peak_resolve_eq six_point_spoke 3 6 6 2 1 (by decide) (by decide) (by decide)
      (by decide) (by decide) (by decide)]
    simp only [window_elimination, eliminate, Finset.sum_range_succ, Finset.sum_range_zero,
      six_point_spoke]
    norm_num
  · intro v
    rw [peak_resolve_eq (v :: six_point_spoke.tail) 3 6 6 2 1 (by decide) (by decide)
      (by decide) (by decide) (by decide) (by simp [six_point_spoke])]
    simp only [window_elimination, eliminate, Finset.sum_range_succ, Finset.sum_range_zero,
      six_point_spoke, List.tail_cons]
    norm_num
  · rw [peak_resolve_eq six_point_spoke_changed 3 6 6 2 1 (by decide) (by decide) (by decide)
      (by decide) (by decide) (by decide)]
    simp only [window_elimination, eliminate, Finset.sum_range_succ, Finset.sum_range_zero,
      six_point_spoke_changed]
    norm_num
  · rw [peak_resolve_eq six_point_spoke 3 5 5 2 1 (by decide) (by decide) (by decide)
      (by decide) (by decide) (by decide)]
    simp only [window_elimination, eliminate, Finset.sum_range_succ, Finset.sum_range_zero,
      six_point_spoke]
    norm_num

/-- C32, amended: for a window size from 1 to 15, `peak_resolve` fits
`n = max(5, window_sz)` points, the cells `peak_bin - (n - 1) / 2 + i` for `i < n` (when
they lie within the data): at least 5, and an odd number exactly when `window_sz` is at
most 5 or odd. -/
theorem peak_resolve_fits_max_5_points (data : List ℚ) (peak_bin window_sz : ℕ)
    (hw : 1 ≤ window_sz) (h15 : window_sz ≤ 15)
    (hlo : (fitted_points window_sz - 1) / 2 ≤ peak_bin)
    (hhi : peak_bin - (fitted_points window_sz - 1) / 2 + fitted_points window_sz
      ≤ data.length) :
    fitted_points window_sz = max 5 window_sz
    ∧ 5 ≤ fitted_points window_sz
    ∧ (fitted_points window_sz % 2 = 1 ↔ (window_sz ≤ 5 ∨ window_sz % 2 = 1))
    ∧ peak_resolve data peak_bin window_sz
      = if (window_elimination data (peak_bin - (fitted_points window_sz - 1) / 2)
              (fitted_points window_sz) ((fitted_points window_sz - 1) / 2)).A0 = 0
          ∨ (window_elimination data (peak_bin - (fitted_points window_sz - 1) / 2)
              (fitted_points window_sz) ((fitted_points window_sz - 1) / 2)).B1 = 0
          ∨ (window_elimination data (peak_bin - (fitted_points window_sz - 1) / 2)
              (fitted_points window_sz) ((fitted_points window_sz - 1) / 2)).C2 = 0
          ∨ (window_elimination data (peak_bin - (fitted_points window_sz - 1) / 2)
              (fitted_points window_sz) ((fitted_points window_sz - 1) / 2)).b2 = 0
        then Outcome.not_finite
        else Outcome.returns
          (-(window_elimination data (peak_bin - (fitted_points window_sz - 1) / 2)
                (fitted_points window_sz) ((fitted_points window_sz - 1) / 2)).b1
              / (2 * (window_elimination data (peak_bin - (fitted_points window_sz - 1) / 2)
                (fitted_points window_sz) ((fitted_points window_sz - 1) / 2)).b2)
            + (peak_bin : ℚ)) := by
  have hf : fitted_points window_sz = max 5 window_sz := by
    simp only [fitted_points]
    split_ifs with h
    · omega
    · omega
  refine ⟨hf, by omega, ?_, ?_⟩
  · simp only [fitted_points]
    split_ifs with h
    · simp [h]
    · constructor
      · intro h1; exact Or.inr h1
      · rintro (h1 | h1)
        · exact absurd h1 h
        · exact h1
  · exact peak_resolve_eq data peak_bin window_sz (fitted_points window_sz)
      ((fitted_points window_sz - 1) / 2) (peak_bin - (fitted_points window_sz - 1) / 2)
      hw rfl rfl (by omega) (by omega) hhi

/-- Witness of C32 (amended): a window of 7 cells around the bin 3 of the spoke
`{0, 1, 4, 9, 4, 1, 0, 0}` is fitted on 7 points. -/
theorem peak_resolve_fits_max_5_points_witness :
    fitted_points 7 = max 5 7 ∧ 5 ≤ fitted_points 7
    ∧ (fitted_points 7 % 2 = 1 ↔ (7 ≤ 5 ∨ 7 % 2 = 1)) :=
  ⟨(peak_resolve_fits_max_5_points six_point_spoke 3 7 (by decide) (by decide) (by decide)
      (by decide)).1,
    (peak_resolve_fits_max_5_points six_point_spoke 3 7 (by decide) (by decide) (by decide)
      (by decide)).2.1,
    (peak_resolve_fits_max_5_points six_point_spoke 3 7 (by decide) (by decide) (by decide)
      (by decide)).2.2.1⟩

/-! ## Targets -/

theorem send_target_isSome (p : CFAR_Peak_finder) (bin az : Float_value) :
    (p.send_target bin az).isSome
      = (p.has_target_callback && !(p.to_metre bin).isinf
          && !((p.to_metre bin).lt p.min_range) && !(p.max_range.lt (p.to_metre bin))) := by
  simp only [CFAR_Peak_finder.send_target]
  cases (p.to_metre bin).isinf <;> cases (p.to_metre bin).lt p.min_range <;>
    cases p.max_range.lt (p.to_metre bin) <;> cases p.has_target_callback <;> rfl

/-- C21, evaluated on a resolved bin that is a NaN, with a callback installed, the range
gain 1, the resolution 0.1752 m and the ranges from 0 to 500 m: the computed range is a NaN
and the callback is called with it.  In general the callback is called exactly when the
range is not an infinity and neither `range < min_range` nor `range > max_range` holds:
with finite limits, when the range is a finite value between them or a NaN. -/
theorem send_target_passes_nan :
    staring_finder.to_metre Float_value.nan = Float_value.nan
    ∧ staring_finder.send_target Float_value.nan (Float_value.finite 0)
        = some { bearing := Float_value.finite 0, range := Float_value.nan }
    ∧ staring_finder.send_target (Float_value.infinity false) (Float_value.finite 0) = none
    ∧ (∀ (p : CFAR_Peak_finder) (bin az : Float_value) (lo hi : ℚ),
        p.has_target_callback = true → p.min_range = Float_value.finite lo →
        p.max_range = Float_value.finite hi →
        ((p.send_target bin az).isSome = true
          ↔ (p.to_metre bin = Float_value.nan
              ∨ ∃ q : ℚ, p.to_metre bin = Float_value.finite q ∧ lo ≤ q ∧ q ≤ hi))) := by
  refine ⟨rfl, rfl, ?_, ?_⟩
  · simp [CFAR_Peak_finder.send_target, CFAR_Peak_finder.to_metre, staring_finder,
      Float_value.mul, Float_value.add, Float_value.isinf]
  · intro p bin az lo hi hcb hlo hhi
    rw [send_target_isSome, hcb, hlo, hhi]
    cases h : p.to_metre bin with
    | finite q =>
      simp only [Float_value.isinf, Float_value.lt, Bool.true_and, Bool.not_false,
        Bool.and_eq_true, Bool.not_eq_true', decide_eq_false_iff_not, not_lt]
      constructor
      · intro hq
        exact Or.inr ⟨q, rfl, hq.1, hq.2⟩
      · rintro (hn | ⟨q', hq', h1, h2⟩)
        · exact absurd hn (by simp)
        · cases hq'
          exact ⟨h1, h2⟩
    | infinity s =>
      simp [Float_value.isinf]
    | nan =>
      simp [Float_value.isinf, Float_value.lt]

/-! ## The peak finder on a spoke -/

theorem max_element_foldl_le (data : List ℚ) :
    ∀ m : ℕ, (List.range m).foldl
        (fun (largest k : ℕ) =>
          if data.getD largest 0 < data.getD (k + 1) 0 then k + 1 else largest) 0 ≤ m := by
  intro m
  induction m with
  | zero => simp
  | succ n ih =>
    rw [List.range_succ, List.foldl_append]
    simp only [List.foldl_cons, List.foldl_nil]
    split_ifs
    · exact le_refl _
    · omega

theorem select_peak_max_lt (data : List ℚ) (h : data ≠ []) :
    select_peak Peak_mode.max data < data.length := by
  have hpos : 0 < data.length := List.length_pos.mpr h
  simp only [select_peak, max_element, if_neg (Nat.ne_of_gt hpos)]
  have := max_element_foldl_le data (data.length - 1)
  omega

theorem select_peak_first_of_no_positive (data : List ℚ) (h : ∀ v ∈ data, ¬ v > 0) :
    select_peak Peak_mode.first data = data.length := by
  have hidx : first_non_zero data = data.length := by
    simp only [first_non_zero]
    rw [List.findIdx_eq_length]
    intro x hx
    simpa using h x hx
  simp only [select_peak, hidx, if_true]

theorem forward_loop_ge (data : List ℚ) :
    ∀ (fuel it : ℕ), it ≤ forward_loop data fuel it := by
  intro fuel
  induction fuel with
  | zero => intro it; exact le_refl _
  | succ n ih =>
    intro it
    simp only [forward_loop]
    split_ifs
    · exact le_refl _
    · exact le_trans (Nat.le_succ it) (ih (it + 1))
    · exact le_refl _

theorem forward_loop_pos (data : List ℚ) :
    ∀ (fuel it : ℕ), data.getD it 0 > 0 → data.getD (forward_loop data fuel it) 0 > 0 := by
  intro fuel
  induction fuel with
  | zero => intro it h; exact h
  | succ n ih =>
    intro it h
    simp only [forward_loop]
    split_ifs with h1 h2
    · exact h
    · exact ih (it + 1) (not_le.mp h2)
    · exact h

theorem reverse_loop_le (data : List ℚ) (min_it : ℕ) :
    ∀ (fuel it : ℕ), reverse_loop data min_it fuel it ≤ it := by
  intro fuel
  induction fuel with
  | zero => intro it; exact le_refl _
  | succ n ih =>
    intro it
    simp only [reverse_loop]
    split_ifs
    · exact le_refl _
    · exact le_trans (ih (it - 1)) (Nat.sub_le it 1)
    · exact le_refl _

/-- C34, evaluated on an encoder of 5600 steps and 360 azimuth samples: `configure` sets
`steps_per_azimuth` to 15, the integer quotient, where the exact quotient is 140/9 (about
15.56).  In general the value set is the exact quotient if and only if `azimuth_samples`
divides `encoder_size`. -/
theorem steps_per_azimuth_is_truncated :
    configured_steps_per_azimuth 5600 360 = Outcome.returns 15
    ∧ ((5600 : ℚ) / 360 = 140 / 9 ∧ (15 : ℚ) ≠ 140 / 9)
    ∧ configured_steps_per_azimuth 5600 400 = Outcome.returns ((5600 : ℚ) / 400)
    ∧ (∀ encoder_size azimuth_samples : ℕ, 0 < azimuth_samples →
        (configured_steps_per_azimuth encoder_size azimuth_samples
            = Outcome.returns ((encoder_size : ℚ) / (azimuth_samples : ℚ))
          ↔ azimuth_samples ∣ encoder_size)) := by
  refine ⟨?_, ⟨by norm_num, by norm_num⟩, ?_, ?_⟩
  · simp [configured_steps_per_azimuth]
  · simp only [configured_steps_per_azimuth]
    norm_num
  · intro e a ha
    have ha0 : ¬ a = 0 := by omega
    have haq : (a : ℚ) ≠ 0 := by exact_mod_cast ha0
    simp only [configured_steps_per_azimuth, if_neg ha0, Outcome.returns.injEq]
    constructor
    · intro h
      have h2 : ((e / a : ℕ) : ℚ) * (a : ℚ) = (e : ℚ) := by
        rw [h]; field_simp
      have h3 : e / a * a = e := by exact_mod_cast h2
      exact ⟨e / a, by rw [Nat.mul_comm]; exact h3.symm⟩
    · intro hdvd
      rw [Nat.cast_div hdvd haq]

set_option maxRecDepth 8000 in
theorem peak_window_wide_peak_spoke :
    peak_window Peak_mode.max wide_peak_spoke 20 0
      = Outcome.returns
          { max_it := 9, forward_it := 17, reverse_it := 1, window_sz := 16, peak_bin := 9 } := by
  decide

set_option maxRecDepth 8000 in
theorem peak_resolve_wide_peak_spoke :
    peak_resolve (resized wide_peak_spoke 20) 9 16 = Outcome.out_of_bounds
    ∧ essentially_zero ((resized wide_peak_spoke 20).getD 9 0) = false := by
  decide

/-- C35, evaluated on two spokes with `peak_mode = max` and `minimum_bin = 0`.  On the
spoke `{5, 9, 0, ...}` `process_data` passes the peak bin 1 and the window width 1:
`peak_resolve` fits 5 points from the bin `1 - 2` on and reads `data[-1]`.  On a spoke with
a run of 17 positive cells it passes the window width 16: `peak_resolve` writes 16 values
into its arrays of 15 elements. -/
theorem peak_resolve_reads_outside :
    peak_window Peak_mode.max early_peak_spoke 8 0
      = Outcome.returns
          { max_it := 1, forward_it := 1, reverse_it := 0, window_sz := 1, peak_bin := 1 }
    ∧ peak_resolve (resized early_peak_spoke 8) 1 1 = Outcome.out_of_bounds
    ∧ process_data_curve_fit Peak_mode.max early_peak_spoke 8 0 = Outcome.out_of_bounds
    ∧ peak_window Peak_mode.max wide_peak_spoke 20 0
      = Outcome.returns
          { max_it := 9, forward_it := 17, reverse_it := 1, window_sz := 16, peak_bin := 9 }
    ∧ peak_resolve (resized wide_peak_spoke 20) 9 16 = Outcome.out_of_bounds
    ∧ process_data_curve_fit Peak_mode.max wide_peak_spoke 20 0 = Outcome.out_of_bounds := by
  have h1 : peak_window Peak_mode.max early_peak_spoke 8 0
      = Outcome.returns
          { max_it := 1, forward_it := 1, reverse_it := 0, window_sz := 1, peak_bin := 1 } := by
    decide
  have h2 : peak_resolve (resized early_peak_spoke 8) 1 1 = Outcome.out_of_bounds := by
    decide
  have h3 := peak_window_wide_peak_spoke
  have h4 := peak_resolve_wide_peak_spoke.1
  have e1 : essentially_zero ((resized early_peak_spoke 8).getD 1 0) = false := by decide
  have e2 := peak_resolve_wide_peak_spoke.2
  refine ⟨h1, h2, ?_, h3, h4, ?_⟩
  · simp only [process_data_curve_fit, h1, Outcome.bind, e1, h2, Outcome.map]
    rfl
  · simp only [process_data_curve_fit, h3, Outcome.bind, e2, h4, Outcome.map]
    rfl

/-- C36, evaluated on the range `{0, 0, 0}` with `peak_mode = first`: `select_peak` returns
`end`, as it does for every range without a positive value, and `process_data` dereferences
it.  With `peak_mode = max` the result lies inside every non-empty range. -/
theorem select_peak_first_returns_end :
    select_peak Peak_mode.first [0, 0, 0] = ([0, 0, 0] : List ℚ).length
    ∧ peak_window Peak_mode.first [0, 0, 0] 3 0 = Outcome.out_of_bounds
    ∧ (∀ data : List ℚ, (∀ v ∈ data, ¬ v > 0) →
        select_peak Peak_mode.first data = data.length)
    ∧ (∀ data : List ℚ, data ≠ [] → select_peak Peak_mode.max data < data.length) := by
  refine ⟨by decide, by decide, select_peak_first_of_no_positive, select_peak_max_lt⟩

/-- C37, evaluated on the spoke `{0, 0, 3, 9, 3, 0, 0}`, whose peak is symmetric about the
bin 3: the run of positive cells is `[2, 5)` and the window handed to `centre_of_mass` is
`[2, 4)`, without the cell 4.  In general, whenever the peak is positive, the cell at
`window_end` is positive: the window ends before the last positive cell of the run. -/
theorem centre_of_mass_window_drops_last_cell :
    centre_of_mass_window Peak_mode.max symmetric_peak_spoke 7 0 = Outcome.returns (some (2, 4))
    ∧ symmetric_peak_spoke.getD 4 0 > 0
    ∧ (∀ (peak_mode : Peak_mode) (cfar_data : List ℚ) (range_in_bins minimum_bin : ℕ)
        (w : Peak_window),
        peak_window peak_mode cfar_data range_in_bins minimum_bin = Outcome.returns w →
        (resized cfar_data range_in_bins).getD w.max_it 0 > 0 →
        centre_of_mass_window peak_mode cfar_data range_in_bins minimum_bin
            = Outcome.returns (some (w.reverse_it, w.forward_it))
          ∧ w.reverse_it ≤ w.max_it ∧ w.max_it ≤ w.forward_it
          ∧ (resized cfar_data range_in_bins).getD w.forward_it 0 > 0) := by
  refine ⟨by decide, by decide, ?_⟩
  intro peak_mode cfar_data range_in_bins minimum_bin w hw hpos
  have hw2 := hw
  simp only [peak_window] at hw2
  split_ifs at hw2 with hlen
  simp only [Outcome.returns.injEq] at hw2
  have hmax : w.max_it
      = minimum_bin + select_peak peak_mode ((resized cfar_data range_in_bins).drop minimum_bin) := by
    rw [← hw2]
  have hfwd : w.forward_it
      = forward_loop (resized cfar_data range_in_bins) (resized cfar_data range_in_bins).length
          w.max_it := by
    rw [hmax, ← hw2]
  have hrev : w.reverse_it
      = reverse_loop (resized cfar_data range_in_bins) minimum_bin
          (resized cfar_data range_in_bins).length w.max_it := by
    rw [hmax, ← hw2]
  have hsz : w.window_sz = w.forward_it - w.reverse_it := by
    rw [hfwd, hrev, hmax, ← hw2]
  have h1 : w.reverse_it ≤ w.max_it := by rw [hrev]; exact reverse_loop_le _ _ _ _
  have h2 : w.max_it ≤ w.forward_it := by rw [hfwd]; exact forward_loop_ge _ _ _
  have hz : essentially_zero ((resized cfar_data range_in_bins).getD w.max_it 0) = false := by
    simp only [essentially_zero, decide_eq_false_iff_not]
    exact ne_of_gt hpos
  refine ⟨?_, h1, h2, ?_⟩
  · simp only [centre_of_mass_window, hw, Outcome.bind, hz, hsz]
    have : w.reverse_it + (w.forward_it - w.reverse_it) = w.forward_it := by omega
    simp [this]
  · rw [hfwd]
    exact forward_loop_pos _ _ _ hpos

/-! ## Two-scan accumulation -/

theorem feed_stores_cons (minimum_bin max_peaks : ℕ) (st : Rotation_store)
    (call : ℕ × List ℚ) (rest : List (ℕ × List ℚ)) :
    feed_stores minimum_bin max_peaks st (call :: rest)
      = (store_rotation minimum_bin max_peaks st call.1 call.2).bind (fun r =>
          (feed_stores minimum_bin max_peaks r.2 rest).bind (fun rs =>
            Outcome.returns (r.1 :: rs.1, rs.2))) := rfl

theorem outcome_returns_bind {α β : Type} (a : α) (f : α → Outcome β) :
    (Outcome.returns a).bind f = f a := rfl

theorem outcome_bind_assoc {α β γ : Type} (o : Outcome α) (f : α → Outcome β)
    (g : β → Outcome γ) : (o.bind f).bind g = o.bind (fun a => (f a).bind g) := by
  cases o <;> rfl

theorem feed_stores_append (minimum_bin max_peaks : ℕ) :
    ∀ (xs ys : List (ℕ × List ℚ)) (st : Rotation_store),
      feed_stores minimum_bin max_peaks st (xs ++ ys)
        = (feed_stores minimum_bin max_peaks st xs).bind (fun r =>
            (feed_stores minimum_bin max_peaks r.2 ys).bind (fun rs =>
              Outcome.returns (r.1 ++ rs.1, rs.2))) := by
  intro xs
  induction xs with
  | nil =>
    intro ys st
    have h0 : feed_stores minimum_bin max_peaks st [] = Outcome.returns ([], st) := rfl
    rw [List.nil_append, h0, outcome_returns_bind]
    show feed_stores minimum_bin max_peaks st ys
      = (feed_stores minimum_bin max_peaks st ys).bind _
    cases feed_stores minimum_bin max_peaks st ys <;> rfl
  | cons x rest ih =>
    intro ys st
    rw [List.cons_append, feed_stores_cons, feed_stores_cons]
    simp only [ih, outcome_bind_assoc, outcome_returns_bind, List.cons_append]

theorem store_rotation_step (minimum_bin max_peaks : ℕ) (st : Rotation_store) (azi_idx : ℕ)
    (resized_data : List ℚ) (hlen : azi_idx < st.rotation_data.length)
    (h16 : azi_idx < 65536)
    (hc : st.counter + (if azi_idx < st.last_azimuth then 1 else 0) < 2 ^ 32) :
    ∃ e st', store_rotation minimum_bin max_peaks st azi_idx resized_data
        = Outcome.returns (e, st')
      ∧ st'.counter = st.counter + (if azi_idx < st.last_azimuth then 1 else 0)
      ∧ st'.last_azimuth = azi_idx
      ∧ st'.rotation_data.length = st.rotation_data.length
      ∧ (e.stored.isSome = true
          ↔ 1 ≤ st.counter + (if azi_idx < st.last_azimuth then 1 else 0))
      ∧ (e.stored.isSome = true → e.stored = some azi_idx)
      ∧ (e.find_shapes.isSome = true
          ↔ azi_idx < st.last_azimuth
            ∧ 2 ≤ st.counter + (if azi_idx < st.last_azimuth then 1 else 0))
      ∧ (e.find_shapes.isSome = true → e.find_shapes = some st.rotation_data) := by
  have hmod16 : azi_idx % 65536 = azi_idx := Nat.mod_eq_of_lt h16
  have hnlen : ¬ st.rotation_data.length ≤ azi_idx := by omega
  by_cases hw : azi_idx < st.last_azimuth
  · simp only [if_pos hw] at hc ⊢
    have hmod : (st.counter + 1) % 2 ^ 32 = st.counter + 1 := Nat.mod_eq_of_lt hc
    have h1 : 1 ≤ st.counter + 1 := by omega
    simp only [store_rotation, hw, decide_True, if_true, hmod, if_pos h1, if_neg hnlen, hmod16,
      true_and]
    refine ⟨_, _, rfl, rfl, rfl, by simp, ?_, ?_, ?_, ?_⟩
    · simp [h1]
    · intro _; rfl
    · by_cases h2 : 2 ≤ st.counter + 1
      · simp [h2]
      · simp [h2]
    · by_cases h2 : 2 ≤ st.counter + 1
      · simp [h2]
      · simp [h2]
  · simp only [if_neg hw, add_zero] at hc ⊢
    by_cases h1 : 1 ≤ st.counter
    · simp only [store_rotation, hw, decide_False, Bool.false_eq_true, if_false, if_pos h1,
        if_neg hnlen, hmod16, false_and]
      refine ⟨_, _, rfl, rfl, rfl, by simp, ?_, ?_, ?_, ?_⟩
      · simp [h1]
      · intro _; rfl
      · simp
      · simp
    · simp only [store_rotation, hw, decide_False, Bool.false_eq_true, if_false, if_neg h1,
        hmod16, false_and]
      refine ⟨_, _, rfl, rfl, rfl, rfl, ?_, ?_, ?_, ?_⟩
      · simp [h1]
      · simp
      · simp
      · simp

theorem spec_wrap_count_cons (prev azimuth : ℕ) (rest : List ℕ) :
    spec_wrap_count prev (azimuth :: rest)
      = (if azimuth < prev then 1 else 0) + spec_wrap_count azimuth rest := rfl

theorem feed_stores_spec (minimum_bin max_peaks : ℕ) :
    ∀ (calls : List (ℕ × List ℚ)) (st : Rotation_store),
      (∀ call ∈ calls, call.1 < st.rotation_data.length ∧ call.1 < 65536) →
      st.counter + spec_wrap_count st.last_azimuth (calls.map Prod.fst) < 2 ^ 32 →
      ∃ events st', feed_stores minimum_bin max_peaks st calls = Outcome.returns (events, st')
        ∧ events.length = calls.length
        ∧ st'.counter = st.counter + spec_wrap_count st.last_azimuth (calls.map Prod.fst)
        ∧ st'.rotation_data.length = st.rotation_data.length
        ∧ ∀ k, k < calls.length → ∃ e, events[k]? = some e
            ∧ (e.stored.isSome = true
                ↔ 1 ≤ st.counter
                    + spec_wrap_count st.last_azimuth ((calls.map Prod.fst).take (k + 1)))
            ∧ (e.find_shapes.isSome = true
                ↔ (calls.getD k (0, [])).1
                      < (if k = 0 then st.last_azimuth else (calls.getD (k - 1) (0, [])).1)
                  ∧ 2 ≤ st.counter
                    + spec_wrap_count st.last_azimuth ((calls.map Prod.fst).take (k + 1))) := by
  intro calls
  induction calls with
  | nil =>
    intro st _ _
    exact ⟨[], st, rfl, rfl, by simp [spec_wrap_count], rfl, fun k hk => absurd hk (by simp)⟩
  | cons call rest ih =>
    intro st hcalls hcount
    simp only [List.map_cons, spec_wrap_count_cons] at hcount
    obtain ⟨hl, h16⟩ := hcalls call (List.mem_cons_self _ _)
    obtain ⟨e, st1, hstep, hc1, hp1, hlen1, hstored, -, hshapes, -⟩ :=
      store_rotation_step minimum_bin max_peaks st call.1 call.2 hl h16 (by omega)
    obtain ⟨events, st', hfeed, hlen, hc', hlen', hk⟩ := ih st1
      (fun c hc => by
        rw [hlen1]
        exact hcalls c (List.mem_cons_of_mem _ hc))
      (by rw [hc1, hp1]; omega)
    refine ⟨e :: events, st', ?_, by simp [hlen], ?_, by rw [hlen', hlen1], ?_⟩
    · rw [feed_stores_cons, hstep]
      simp only [Outcome.bind, hfeed]
    · rw [hc', hc1, hp1]
      simp only [List.map_cons, spec_wrap_count_cons]
      omega
    · intro k hklt
      cases k with
      | zero =>
        refine ⟨e, by simp, ?_, ?_⟩
        · simp only [List.map_cons, zero_add, List.take_succ_cons, List.take_zero,
            spec_wrap_count_cons, spec_wrap_count, add_zero]
          exact hstored
        · simp only [List.map_cons, zero_add, List.take_succ_cons, List.take_zero,
            spec_wrap_count_cons, spec_wrap_count, add_zero, List.getD_cons_zero, if_true]
          exact hshapes
      | succ j =>
        have hj : j < rest.length := by simpa using hklt
        obtain ⟨e', he', hs', hf'⟩ := hk j hj
        refine ⟨e', by simpa using he', ?_, ?_⟩
        · rw [hs', hc1, hp1]
          simp only [List.map_cons, List.take_succ_cons, spec_wrap_count_cons]
          omega
        · rw [hf', hc1, hp1]
          simp only [List.map_cons, List.take_succ_cons, spec_wrap_count_cons,
            List.getD_cons_succ, Nat.add_sub_cancel, if_neg (Nat.succ_ne_zero j)]
          cases j with
          | zero => simp only [if_true, List.getD_cons_zero]; constructor <;> rintro ⟨a, b⟩ <;> exact ⟨a, by omega⟩
          | succ i =>
            simp only [if_neg (Nat.succ_ne_zero i), Nat.add_sub_cancel, List.getD_cons_succ]
            constructor <;> rintro ⟨a, b⟩ <;> exact ⟨a, by omega⟩

theorem store_rotation_wrap (minimum_bin max_peaks : ℕ) (st : Rotation_store) (azi_idx : ℕ)
    (resized_data : List ℚ) (hlen : azi_idx < st.rotation_data.length)
    (h16 : azi_idx < 65536) (hw : azi_idx < st.last_azimuth) :
    ∃ e st', store_rotation minimum_bin max_peaks st azi_idx resized_data
        = Outcome.returns (e, st')
      ∧ st'.counter = (st.counter + 1) % 2 ^ 32
      ∧ st'.last_azimuth = azi_idx
      ∧ st'.rotation_data.length = st.rotation_data.length
      ∧ e.find_shapes.isSome = decide (2 ≤ (st.counter + 1) % 2 ^ 32) := by
  have hmod16 : azi_idx % 65536 = azi_idx := Nat.mod_eq_of_lt h16
  have hnlen : ¬ st.rotation_data.length ≤ azi_idx := by omega
  by_cases h1 : 1 ≤ (st.counter + 1) % 2 ^ 32
  · simp only [store_rotation, hw, decide_True, if_true, if_pos h1, if_neg hnlen, hmod16,
      true_and]
    refine ⟨_, _, rfl, rfl, rfl, by simp, ?_⟩
    by_cases h2 : 2 ≤ (st.counter + 1) % 2 ^ 32
    · rw [if_pos h2, decide_eq_true h2]; rfl
    · rw [if_neg h2, decide_eq_false h2]; rfl
  · simp only [store_rotation, hw, decide_True, if_true, if_neg h1, hmod16, true_and]
    refine ⟨_, _, rfl, rfl, rfl, rfl, ?_⟩
    have h2 : ¬ 2 ≤ (st.counter + 1) % 2 ^ 32 := by omega
    rw [if_neg h2, decide_eq_false h2]; rfl

theorem feed_stores_pairs (minimum_bin max_peaks : ℕ) (spoke : List ℚ) :
    ∀ (k : ℕ) (st : Rotation_store), st.last_azimuth = 0 → 2 ≤ st.rotation_data.length →
      st.counter < 2 ^ 32 →
      ∃ events st',
        feed_stores minimum_bin max_peaks st
            (List.replicate k [(1, spoke), (0, spoke)]).flatten
          = Outcome.returns (events, st')
        ∧ st'.counter = (st.counter + k) % 2 ^ 32
        ∧ st'.last_azimuth = 0
        ∧ st'.rotation_data.length = st.rotation_data.length
        ∧ (1 ≤ k → ∃ e, events.getLast? = some e
            ∧ e.find_shapes.isSome = decide (2 ≤ (st.counter + k) % 2 ^ 32)) := by
  intro k
  induction k with
  | zero =>
    intro st h0 _ hc
    refine ⟨[], st, rfl, ?_, h0, rfl, fun h => absurd h (by decide)⟩
    rw [add_zero, Nat.mod_eq_of_lt hc]
  | succ n ih =>
    intro st h0 hlen hc
    obtain ⟨e1, st1, hs1, hc1, hp1, hl1, -, -, -, -⟩ :=
      store_rotation_step minimum_bin max_peaks st 1 spoke (by omega) (by decide)
        (by rw [h0]; simpa using hc)
    have hc1' : st1.counter = st.counter := by
      rw [hc1, h0]; simp
    obtain ⟨e2, st2, hs2, hc2, hp2, hl2, hf2⟩ :=
      store_rotation_wrap minimum_bin max_peaks st1 0 spoke (by omega) (by decide)
        (by rw [hp1]; decide)
    have hc2lt : st2.counter < 2 ^ 32 := by
      rw [hc2]; exact Nat.mod_lt _ (by decide)
    obtain ⟨events, st', hfeed, hc', hp', hl', hlast⟩ := ih st2 hp2 (by omega) hc2lt
    refine ⟨e1 :: e2 :: events, st', ?_, ?_, hp', by omega, ?_⟩
    · rw [List.replicate_succ, List.flatten_cons]
      show feed_stores minimum_bin max_peaks st
        ((1, spoke) :: (0, spoke) :: (List.replicate n [(1, spoke), (0, spoke)]).flatten) = _
      rw [feed_stores_cons, hs1, outcome_returns_bind, feed_stores_cons, hs2,
        outcome_returns_bind, hfeed]
      rfl
    · rw [hc', hc2, hc1']
      rw [Nat.add_mod, Nat.mod_mod, ← Nat.add_mod]
      congr 1
      omega
    · intro _
      by_cases hn : 1 ≤ n
      · obtain ⟨e, he, hf⟩ := hlast hn
        refine ⟨e, ?_, ?_⟩
        · cases events with
          | nil => simp at he
          | cons ev evs =>
            rw [List.getLast?_cons_cons, List.getLast?_cons_cons]
            exact he
        · rw [hf, hc2, hc1']
          congr 2
          rw [Nat.add_mod, Nat.mod_mod, ← Nat.add_mod]
          congr 1
          omega
      · have hn0 : n = 0 := by omega
        subst hn0
        have hev : events = [] := by
          have h1 : feed_stores minimum_bin max_peaks st2
              (List.replicate 0 [(1, spoke), (0, spoke)]).flatten = Outcome.returns ([], st2) := rfl
          rw [h1] at hfeed
          simp only [Outcome.returns.injEq, Prod.mk.injEq] at hfeed
          exact hfeed.1.symm
        subst hev
        refine ⟨e2, rfl, ?_⟩
        rw [hf2, hc1']

theorem spec_wrap_count_pairs (spoke : List ℚ) :
    ∀ k : ℕ, spec_wrap_count 0
        (((List.replicate k [((1 : ℕ), spoke), (0, spoke)]).flatten).map Prod.fst) = k := by
  intro k
  induction k with
  | zero => rfl
  | succ n ih =>
    rw [List.replicate_succ, List.flatten_cons]
    show spec_wrap_count 0
      (1 :: 0 :: ((List.replicate n [((1 : ℕ), spoke), (0, spoke)]).flatten).map Prod.fst) = n + 1
    rw [spec_wrap_count_cons, spec_wrap_count_cons, ih]
    simp
    omega

theorem resized_length (cfar_data : List ℚ) (range_in_bins : ℕ) :
    (resized cfar_data range_in_bins).length = range_in_bins := by
  simp only [resized, List.length_append, List.length_take, List.length_replicate]
  omega

theorem select_peak_first_lt (data : List ℚ) (hpos : ∃ v ∈ data, v > 0) :
    select_peak Peak_mode.first data < data.length := by
  obtain ⟨hp, -, -⟩ := first_non_zero_spec data hpos
  have hsel : select_peak Peak_mode.first data
      = rising_loop data data.length (first_non_zero data) := by
    simp only [select_peak, if_neg (Nat.ne_of_lt hp)]
  rw [hsel]
  exact (rising_loop_spec data data.length (first_non_zero data) hp (by omega)).2.1

theorem peak_window_returns (peak_mode : Peak_mode) (cfar_data : List ℚ)
    (range_in_bins minimum_bin : ℕ)
    (h : (peak_mode = Peak_mode.max ∧ minimum_bin < range_in_bins)
      ∨ (peak_mode = Peak_mode.first
        ∧ ∃ v ∈ (resized cfar_data range_in_bins).drop minimum_bin, v > 0)) :
    ∃ w, peak_window peak_mode cfar_data range_in_bins minimum_bin = Outcome.returns w := by
  have hlen := resized_length cfar_data range_in_bins
  have hdrop : ((resized cfar_data range_in_bins).drop minimum_bin).length
      = range_in_bins - minimum_bin := by
    rw [List.length_drop, hlen]
  have hsel : select_peak peak_mode ((resized cfar_data range_in_bins).drop minimum_bin)
      < range_in_bins - minimum_bin := by
    rw [← hdrop]
    rcases h with ⟨hm, hlt⟩ | ⟨hm, hpos⟩
    · rw [hm]
      apply select_peak_max_lt
      intro hnil
      rw [hnil] at hdrop
      simp only [List.length_nil] at hdrop
      omega
    · rw [hm]
      exact select_peak_first_lt _ hpos
  have hnot : ¬ (resized cfar_data range_in_bins).length
      ≤ minimum_bin
        + select_peak peak_mode ((resized cfar_data range_in_bins).drop minimum_bin) := by
    rw [hlen]; omega
  simp only [peak_window, if_neg hnot]
  exact ⟨_, rfl⟩

theorem feed_rotations_cons (peak_mode : Peak_mode)
    (range_in_bins minimum_bin max_peaks : ℕ) (st : Rotation_store)
    (call : ℕ × List ℚ) (rest : List (ℕ × List ℚ)) :
    feed_rotations peak_mode range_in_bins minimum_bin max_peaks st (call :: rest)
      = (process_data_2d peak_mode range_in_bins minimum_bin max_peaks st call.1 call.2).bind
          (fun r =>
            (feed_rotations peak_mode range_in_bins minimum_bin max_peaks r.2 rest).bind
              (fun rs => Outcome.returns (r.1 :: rs.1, rs.2))) := rfl

theorem feed_rotations_eq_feed_stores (peak_mode : Peak_mode)
    (range_in_bins minimum_bin max_peaks : ℕ) :
    ∀ (calls : List (ℕ × List ℚ)) (st : Rotation_store),
      (∀ call ∈ calls, ∃ w,
        peak_window peak_mode call.2 range_in_bins minimum_bin = Outcome.returns w) →
      feed_rotations peak_mode range_in_bins minimum_bin max_peaks st calls
        = feed_stores minimum_bin max_peaks st
            (calls.map (fun c => (c.1, resized c.2 range_in_bins))) := by
  intro calls
  induction calls with
  | nil => intro st _; rfl
  | cons call rest ih =>
    intro st h
    obtain ⟨w, hw⟩ := h call (List.mem_cons_self _ _)
    rw [feed_rotations_cons, List.map_cons, feed_stores_cons]
    simp only [process_data_2d, hw, outcome_returns_bind]
    congr 1
    funext r
    rw [ih r.2 (fun c hc => h c (List.mem_cons_of_mem _ hc))]

theorem getD_map_fst (calls : List (ℕ × List ℚ)) (g : List ℚ → List ℚ) (k : ℕ) :
    ((calls.map (fun c => (c.1, g c.2))).getD k (0, [])).1 = (calls.getD k (0, [])).1 := by
  by_cases hk : k < calls.length
  · rw [List.getD_eq_getElem _ _ (by simpa using hk), List.getD_eq_getElem _ _ hk,
      List.getElem_map]
  · rw [List.getD_eq_default _ _ (by simpa using hk), List.getD_eq_default _ _ (by omega)]

theorem map_fst_map (calls : List (ℕ × List ℚ)) (g : List ℚ → List ℚ) :
    (calls.map (fun c => (c.1, g c.2))).map Prod.fst = calls.map Prod.fst := by
  rw [List.map_map]
  rfl

/-- C33 fails as stated, in three ways.  With two azimuths per rotation, the calls with the
azimuths 1, 0, 1, 0, ... hold `2 ^ 32` wraps after `2 ^ 33` calls, the last call being the
last of these wraps, and the shape finder is not invoked on it: `counter`, a
`std::uint32_t`, is back at 0.  With `peak_mode = first` a spoke without a positive cell
makes `select_peak` return `end`, which `process_data` dereferences before the `switch`:
the call does not return.  So does a call with `range_in_bins = 0`, the data being
empty. -/
theorem shape_finder_misses_a_wrap :
    (spec_wrap_count 0
        (((List.replicate (2 ^ 32) [((1 : ℕ), ([0] : List ℚ)), (0, [0])]).flatten).map Prod.fst)
      = 2 ^ 32
    ∧ ∃ events st',
        feed_rotations Peak_mode.max 1 0 5 (Rotation_store.configured 2)
            (List.replicate (2 ^ 32) [(1, [0]), (0, [0])]).flatten
          = Outcome.returns (events, st')
        ∧ st'.counter = 0
        ∧ ∃ e, events.getLast? = some e ∧ e.find_shapes = none)
    ∧ process_data_2d Peak_mode.first 3 0 5 (Rotation_store.configured 2) 1 [0, 0, 0]
      = Outcome.out_of_bounds
    ∧ process_data_2d Peak_mode.max 0 0 5 (Rotation_store.configured 2) 1 []
      = Outcome.out_of_bounds := by
  refine ⟨⟨spec_wrap_count_pairs [0] (2 ^ 32), ?_⟩, by decide, by decide⟩
  obtain ⟨events, st', hfeed, hc, -, -, hlast⟩ :=
    feed_stores_pairs 0 5 [0] (2 ^ 32) (Rotation_store.configured 2) rfl
      (by simp [Rotation_store.configured]) (by simp [Rotation_store.configured])
  obtain ⟨e, he, hf⟩ := hlast (by decide)
  have hmap : (List.replicate (2 ^ 32) [((1 : ℕ), ([0] : List ℚ)), (0, [0])]).flatten.map
        (fun c => (c.1, resized c.2 1))
      = (List.replicate (2 ^ 32) [((1 : ℕ), ([0] : List ℚ)), (0, [0])]).flatten := by
    have hid : ∀ c ∈ (List.replicate (2 ^ 32) [((1 : ℕ), ([0] : List ℚ)), (0, [0])]).flatten,
        (fun (c : ℕ × List ℚ) => (c.1, resized c.2 1)) c = id c := ?_
    · rw [List.map_congr_left hid, List.map_id]
    intro c hc
    rw [List.mem_flatten] at hc
    obtain ⟨l, hl, hcl⟩ := hc
    rw [List.eq_of_mem_replicate hl] at hcl
    simp only [List.mem_cons, List.mem_singleton, List.not_mem_nil, or_false] at hcl
    rcases hcl with rfl | rfl <;> rfl
  have hpw : ∀ call ∈ (List.replicate (2 ^ 32) [((1 : ℕ), ([0] : List ℚ)), (0, [0])]).flatten,
      ∃ w, peak_window Peak_mode.max call.2 1 0 = Outcome.returns w := fun call _ =>
    peak_window_returns Peak_mode.max call.2 1 0 (Or.inl ⟨rfl, by decide⟩)
  refine ⟨events, st', ?_, ?_, e, he, ?_⟩
  · rw [feed_rotations_eq_feed_stores Peak_mode.max 1 0 5 _ _ hpw, hmap]
    exact hfeed
  · rw [hc]
    simp [Rotation_store.configured]
  · have h0 : (Rotation_store.configured 2).counter + 2 ^ 32 = 2 ^ 32 := by
      simp [Rotation_store.configured]
    rw [h0, Nat.mod_self] at hf
    simpa using hf

/-- C33, amended: in the mode `centre_of_mass_2d`, with the peak mode `max` and
`minimum_bin < range_in_bins`, or with the peak mode `first` when every spoke, resized to
`range_in_bins`, holds a positive cell from `minimum_bin` on, for every sequence of calls
whose azimuths are below `azimuth_samples` (and below `2 ^ 16`) and hold fewer than `2 ^ 32`
wraps, every call returns; the spoke of a call is stored in `rotation_data` if and only if
a wrap has occurred at that call or before it; and the shape finder is invoked exactly on
the calls that are a wrap, the second or a later one.  So the spokes before the first wrap
are discarded and no target is emitted before the second wrap. -/
theorem two_scan_discards_first_rotation (peak_mode : Peak_mode)
    (range_in_bins minimum_bin max_peaks azimuth_samples : ℕ) (calls : List (ℕ × List ℚ))
    (hsel : (peak_mode = Peak_mode.max ∧ minimum_bin < range_in_bins)
      ∨ (peak_mode = Peak_mode.first
        ∧ ∀ call ∈ calls, ∃ v ∈ (resized call.2 range_in_bins).drop minimum_bin, v > 0))
    (haz : ∀ call ∈ calls, call.1 < azimuth_samples ∧ call.1 < 65536)
    (hwraps : spec_wrap_count 0 (calls.map Prod.fst) < 2 ^ 32) :
    ∃ events st',
      feed_rotations peak_mode range_in_bins minimum_bin max_peaks
          (Rotation_store.configured azimuth_samples) calls
        = Outcome.returns (events, st')
      ∧ events.length = calls.length
      ∧ ∀ k, k < calls.length → ∃ e, events[k]? = some e
          ∧ (e.stored.isSome = true
              ↔ 1 ≤ spec_wrap_count 0 ((calls.map Prod.fst).take (k + 1)))
          ∧ (e.find_shapes.isSome = true
              ↔ k ≠ 0 ∧ (calls.getD k (0, [])).1 < (calls.getD (k - 1) (0, [])).1
                ∧ 2 ≤ spec_wrap_count 0 ((calls.map Prod.fst).take (k + 1))) := by
  have hpw : ∀ call ∈ calls, ∃ w,
      peak_window peak_mode call.2 range_in_bins minimum_bin = Outcome.returns w := by
    intro call hcall
    apply peak_window_returns
    rcases hsel with h | ⟨hm, hpos⟩
    · exact Or.inl h
    · exact Or.inr ⟨hm, hpos call hcall⟩
  obtain ⟨events, st', hfeed, hlen, -, -, hk⟩ :=
    feed_stores_spec minimum_bin max_peaks
      (calls.map (fun c => (c.1, resized c.2 range_in_bins)))
      (Rotation_store.configured azimuth_samples)
      (by
        intro c hc
        rw [List.mem_map] at hc
        obtain ⟨c0, hc0, rfl⟩ := hc
        simpa [Rotation_store.configured] using haz c0 hc0)
      (by
        rw [map_fst_map calls (fun d => resized d range_in_bins)]
        simpa [Rotation_store.configured] using hwraps)
  rw [List.length_map] at hlen
  refine ⟨events, st', ?_, hlen, ?_⟩
  · rw [feed_rotations_eq_feed_stores peak_mode range_in_bins minimum_bin max_peaks _ _ hpw]
    exact hfeed
  intro k hklt
  obtain ⟨e, he, hs, hf⟩ := hk k (by rw [List.length_map]; exact hklt)
  rw [map_fst_map calls (fun d => resized d range_in_bins)] at hs hf
  rw [getD_map_fst calls (fun d => resized d range_in_bins),
    getD_map_fst calls (fun d => resized d range_in_bins)] at hf
  refine ⟨e, he, ?_, ?_⟩
  · rw [hs]
    simp [Rotation_store.configured]
  · rw [hf]
    simp only [Rotation_store.configured, zero_add]
    by_cases hk0 : k = 0
    · subst hk0
      simp
    · simp [hk0]

/-- Witness of C33 (amended): three azimuths per rotation and the azimuths 0, 1, 2, 0, 1,
2, 0, 1, with the peak mode `max` on spokes of one bin. -/
theorem two_scan_discards_first_rotation_witness :
    ∃ events st',
      feed_rotations Peak_mode.max 1 0 5 (Rotation_store.configured 3)
          [(0, [1]), (1, [2]), (2, [3]), (0, [4]), (1, [5]), (2, [0]), (0, [7]), (1, [8])]
        = Outcome.returns (events, st')
      ∧ events.length
          = [((0 : ℕ), ([1] : List ℚ)), (1, [2]), (2, [3]), (0, [4]), (1, [5]), (2, [0]),
              (0, [7]), (1, [8])].length
      ∧ ∀ k, k < [((0 : ℕ), ([1] : List ℚ)), (1, [2]), (2, [3]), (0, [4]), (1, [5]), (2, [0]),
              (0, [7]), (1, [8])].length → ∃ e, events[k]? = some e
          ∧ (e.stored.isSome = true
              ↔ 1 ≤ spec_wrap_count 0
                  (([((0 : ℕ), ([1] : List ℚ)), (1, [2]), (2, [3]), (0, [4]), (1, [5]),
                      (2, [0]), (0, [7]), (1, [8])].map Prod.fst).take (k + 1)))
          ∧ (e.find_shapes.isSome = true
              ↔ k ≠ 0
                ∧ ([((0 : ℕ), ([1] : List ℚ)), (1, [2]), (2, [3]), (0, [4]), (1, [5]),
                      (2, [0]), (0, [7]), (1, [8])].getD k (0, [])).1
                  < ([((0 : ℕ), ([1] : List ℚ)), (1, [2]), (2, [3]), (0, [4]), (1, [5]),
                      (2, [0]), (0, [7]), (1, [8])].getD (k - 1) (0, [])).1
                ∧ 2 ≤ spec_wrap_count 0
                  (([((0 : ℕ), ([1] : List ℚ)), (1, [2]), (2, [3]), (0, [4]), (1, [5]),
                      (2, [0]), (0, [7]), (1, [8])].map Prod.fst).take (k + 1))) :=
  two_scan_discards_first_rotation Peak_mode.max 1 0 5 3
    [(0, [1]), (1, [2]), (2, [3]), (0, [4]), (1, [5]), (2, [0]), (0, [7]), (1, [8])]
    (Or.inl ⟨rfl, by decide⟩) (by simp) (by decide)

end Navigation

namespace Colossus_protocol

/-! ## Colossus TCP server -/

/-- C22: `start` on a running `Server` and `stop` on a stopped one change nothing, neither
the flag `running` nor the calls made to the owned components nor the log; hence
`start(); start()` is `start()`, `stop(); stop()` is `stop()`, and both
`start(); stop(); start(); stop()` and `start(); stop()` end with `running = false`. -/
theorem server_start_stop_idempotent (s : Server) :
    (s.running = true → s.start = s)
    ∧ (s.running = false → s.stop = s)
    ∧ s.start.start = s.start
    ∧ s.stop.stop = s.stop
    ∧ s.start.running = true
    ∧ s.stop.running = false
    ∧ s.start.stop.start.stop.running = false
    ∧ s.start.stop.start.stop.running = s.start.stop.running := by
  have hstart : ∀ t : Server, t.start.running = true := by
    intro t
    simp only [Server.start]
    split_ifs with h
    · exact h
    · rfl
  have hstop : ∀ t : Server, t.stop.running = false := by
    intro t
    simp only [Server.stop]
    split_ifs with h
    · simpa using h
    · rfl
  have h1 : ∀ t : Server, t.running = true → t.start = t := by
    intro t h
    simp only [Server.start, h, if_true]
  have h2 : ∀ t : Server, t.running = false → t.stop = t := by
    intro t h
    simp [Server.stop, h]
  exact ⟨h1 s, h2 s, h1 _ (hstart s), h2 _ (hstop s), hstart s, hstop s, hstop _,
    (hstop _).trans (hstop _).symm⟩

/-- Witness of C22: a running server that has been started once. -/
theorem server_start_stop_idempotent_witness :
    Server.start
        { running := true
          calls := [Server_call.server_start, Server_call.msg_dispatcher_start]
          log := ["Colossus server - starting..."] }
      = { running := true
          calls := [Server_call.server_start, Server_call.msg_dispatcher_start]
          log := ["Colossus server - starting..."] } :=
  (server_start_stop_idempotent
    { running := true
      calls := [Server_call.server_start, Server_call.msg_dispatcher_start]
      log := ["Colossus server - starting..."] }).1 rfl

end Colossus_protocol

namespace Colossus_client

/-! ## Lost packets -/

theorem feed_counters_running :
    ∀ (packets : List (ℕ × ℕ)) (p : ℕ),
      (feed_counters { first_update := false, prev := p } packets).1.length = packets.length
      ∧ (∀ k, k < packets.length →
          (feed_counters { first_update := false, prev := p } packets).1[k]?
            = some (if (packets.getD k (0, 0)).1
                    ≠ ((if k = 0 then p else (packets.getD (k - 1) (0, 0)).1) + 1) % 65536
                then some { packet_count := (packets.getD k (0, 0)).2
                            counter := (packets.getD k (0, 0)).1
                            prev := if k = 0 then p else (packets.getD (k - 1) (0, 0)).1 }
                else none))
      ∧ (feed_counters { first_update := false, prev := p } packets).2
          = { first_update := false, prev := ((packets.getLast?).map Prod.fst).getD p } := by
  intro packets
  induction packets with
  | nil => intro p; simp [feed_counters]
  | cons pk rest ih =>
    intro p
    have hstep : (check_for_lost_packet { first_update := false, prev := p } pk.1 pk.2).2
        = { first_update := false, prev := pk.1 } := by
      simp only [check_for_lost_packet]
      split_ifs <;> simp_all
    have hout : (check_for_lost_packet { first_update := false, prev := p } pk.1 pk.2).1
        = (if pk.1 ≠ (p + 1) % 65536
            then some { packet_count := pk.2, counter := pk.1, prev := p } else none) := by
      simp only [check_for_lost_packet]
      split_ifs <;> simp_all
    obtain ⟨ih1, ih2, ih3⟩ := ih pk.1
    simp only [feed_counters, hstep, hout]
    refine ⟨by simp [ih1], ?_, ?_⟩
    · intro k hk
      cases k with
      | zero => simp
      | succ j =>
        have hj : j < rest.length := by simpa using hk
        have := ih2 j hj
        simp only [List.getElem?_cons_succ, this, List.getD_cons_succ, Nat.add_sub_cancel]
        cases j with
        | zero => simp
        | succ i => simp
    · rw [ih3]
      cases rest with
      | nil => simp
      | cons q qs =>
        rw [List.getLast?_cons_cons, List.getLast?_eq_getLast _ (List.cons_ne_nil _ _)]
        simp

/-- C23: for every sequence of sweep counters (each with its packet count) passed to
successive calls of `check_for_lost_packet`, starting from the initial statics, the call
`k` reports a loss if and only if it is not the first call and its counter differs from
`(prev + 1) mod 2 ^ 16`, `prev` being the counter of the call before; the report names that
`prev` and the current counter; and the last counter is the `prev` after the calls.  The
counters 100, 101, 103 give one report, with `prev = 101` and `counter = 103`; 65535
followed by 0 gives none. -/
theorem lost_packet_reports (packets : List (ℕ × ℕ)) :
    ((feed_counters Lost_packet_state.initial packets).1.length = packets.length
      ∧ (∀ k, k < packets.length →
          (feed_counters Lost_packet_state.initial packets).1[k]?
            = some (if k ≠ 0 ∧ (packets.getD k (0, 0)).1
                      ≠ ((packets.getD (k - 1) (0, 0)).1 + 1) % 65536
                then some { packet_count := (packets.getD k (0, 0)).2
                            counter := (packets.getD k (0, 0)).1
                            prev := (packets.getD (k - 1) (0, 0)).1 }
                else none))
      ∧ (∀ last, (packets.getLast?).map Prod.fst = some last →
          (feed_counters Lost_packet_state.initial packets).2
            = { first_update := false, prev := last }))
    ∧ (feed_counters Lost_packet_state.initial [(100, 1), (101, 2), (103, 3)]).1
        = [none, none, some { packet_count := 3, counter := 103, prev := 101 }]
    ∧ (feed_counters Lost_packet_state.initial [(65535, 1), (0, 2)]).1 = [none, none] := by
  refine ⟨?_, by decide, by decide⟩
  cases packets with
  | nil => simp [feed_counters]
  | cons pk rest =>
    obtain ⟨ih1, ih2, ih3⟩ := feed_counters_running rest pk.1
    have hstep : check_for_lost_packet Lost_packet_state.initial pk.1 pk.2
        = (none, { first_update := false, prev := pk.1 }) := by
      simp [check_for_lost_packet, Lost_packet_state.initial]
    simp only [feed_counters, hstep]
    refine ⟨by simp [ih1], ?_, ?_⟩
    · intro k hk
      cases k with
      | zero => simp
      | succ j =>
        have hj : j < rest.length := by simpa using hk
        have := ih2 j hj
        simp only [List.getElem?_cons_succ, this, List.getD_cons_succ, Nat.add_sub_cancel]
        cases j with
        | zero => simp
        | succ i => simp
    · intro last hlast
      rw [ih3]
      cases rest with
      | nil => simp at hlast ⊢; exact hlast
      | cons q qs =>
        simp only [List.getLast?_cons_cons] at hlast
        simp [hlast]

/-! ## Full rotations -/

theorem feed_azimuths_append (st : Rotation_state) (xs ys : List ℕ) :
    feed_azimuths st (xs ++ ys)
      = ((feed_azimuths st xs).1 ++ (feed_azimuths (feed_azimuths st xs).2 ys).1,
          (feed_azimuths (feed_azimuths st xs).2 ys).2) := by
  induction xs generalizing st with
  | nil => simp [feed_azimuths]
  | cons x rest ih => simp [feed_azimuths, ih]

theorem feed_azimuths_rising_unarmed (c : ℕ) :
    ∀ (len a p : ℕ), p ≤ a →
      feed_azimuths { has_rotated_once := false, rotated_prev := p, completed_prev := c }
          (List.range' a len)
        = (List.replicate len false,
            { has_rotated_once := false
              rotated_prev := if len = 0 then p else a + len - 1
              completed_prev := c }) := by
  intro len
  induction len with
  | zero => intro a p _; simp [feed_azimuths]
  | succ n ih =>
    intro a p hpa
    have hstep : completed_full_rotation
        { has_rotated_once := false, rotated_prev := p, completed_prev := c } a
        = (false, { has_rotated_once := false, rotated_prev := a, completed_prev := c }) := by
      simp [completed_full_rotation, rotated_once, not_lt.mpr hpa]
    have hlast : (if n = 0 then a else a + 1 + n - 1)
        = (if n + 1 = 0 then p else a + (n + 1) - 1) := by
      rw [if_neg (Nat.succ_ne_zero n)]
      split_ifs with h <;> omega
    simp only [List.range'_succ, feed_azimuths, hstep, ih (a + 1) a (by omega),
      List.replicate_succ, hlast]

theorem feed_azimuths_rising_armed (rp : ℕ) :
    ∀ (len a c : ℕ), c ≤ a →
      feed_azimuths { has_rotated_once := true, rotated_prev := rp, completed_prev := c }
          (List.range' a len)
        = (List.replicate len false,
            { has_rotated_once := true
              rotated_prev := rp
              completed_prev := if len = 0 then c else a + len - 1 }) := by
  intro len
  induction len with
  | zero => intro a c _; simp [feed_azimuths]
  | succ n ih =>
    intro a c hca
    have hstep : completed_full_rotation
        { has_rotated_once := true, rotated_prev := rp, completed_prev := c } a
        = (false, { has_rotated_once := true, rotated_prev := rp, completed_prev := a }) := by
      simp [completed_full_rotation, rotated_once, not_lt.mpr hca]
    have hlast : (if n = 0 then a else a + 1 + n - 1)
        = (if n + 1 = 0 then c else a + (n + 1) - 1) := by
      rw [if_neg (Nat.succ_ne_zero n)]
      split_ifs with h <;> omega
    simp only [List.range'_succ, feed_azimuths, hstep, ih (a + 1) a (by omega),
      List.replicate_succ, hlast]

theorem replicate_false_twice (k : ℕ) :
    List.replicate (k + 1 + 1) false ++ (List.replicate k false ++ [true])
      = List.replicate (2 * (k + 1)) false ++ [true] := by
  have key : ∀ a b : ℕ, List.replicate a false ++ (List.replicate b false ++ [true])
      = List.replicate (a + b) false ++ [true] := by
    intro a b
    rw [List.replicate_add, List.append_assoc]
  rw [key, show k + 1 + 1 + k = 2 * (k + 1) by omega]

theorem feed_first_rotation (n : ℕ) (hn : 2 ≤ n) :
    feed_azimuths Rotation_state.initial (List.range n ++ [0])
      = (List.replicate (n + 1) false,
          { has_rotated_once := true, rotated_prev := 0, completed_prev := 0 }) := by
  rw [feed_azimuths_append, List.range_eq_range', Rotation_state.initial,
    feed_azimuths_rising_unarmed 0 n 0 0 (le_refl 0)]
  have hn0 : ¬ n = 0 := by omega
  have hlt : 0 < n - 1 := by omega
  simp only [if_neg hn0, zero_add]
  simp [feed_azimuths, completed_full_rotation, rotated_once, hlt, List.replicate_succ']

/-- C24 fails as stated: starting from the initial statics, the azimuths 0, 1, ..., 5599
followed by 0 give `false` on each of the 5601 calls, the wrap-back call included: that
call is the one on which `rotated_once` turns true, and `completed_full_rotation` then
compares the azimuth 0 with its own `prev`, which is still 0. -/
theorem first_wrap_is_not_signalled :
    (feed_azimuths Rotation_state.initial (List.range 5600 ++ [0])).1
      = List.replicate 5601 false := by
  rw [feed_first_rotation 5600 (by decide)]

/-- C24, amended: for a rotation of `n >= 2` azimuths, starting from the initial statics,
the azimuths 0, ..., n - 1, then 0, ..., n - 1 again, then 0 give `true` exactly once, on
the last call, the second wrap back to 0, and `false` on each of the `2n` calls before
it. -/
theorem second_wrap_is_signalled (n : ℕ) (hn : 2 ≤ n) :
    (feed_azimuths Rotation_state.initial (List.range n ++ List.range n ++ [0])).1
      = List.replicate (2 * n) false ++ [true] := by
  obtain ⟨m, rfl⟩ : ∃ m, n = m + 1 := ⟨n - 1, by omega⟩
  have hsplit : List.range (m + 1) ++ List.range (m + 1) ++ [0]
      = (List.range (m + 1) ++ [0]) ++ (List.range' 1 m ++ [0]) := by
    rw [List.range_eq_range', List.range'_succ 0 m]
    simp
  rw [hsplit, feed_azimuths_append, feed_first_rotation (m + 1) hn, feed_azimuths_append,
    feed_azimuths_rising_armed 0 m 1 0 (by omega)]
  have hm0 : ¬ m = 0 := by omega
  have hlt : 0 < 1 + m - 1 := by omega
  simp only [if_neg hm0]
  simp only [feed_azimuths, completed_full_rotation, rotated_once, if_true, Bool.not_true,
    Bool.false_eq_true, if_false, hlt, decide_True]
  exact replicate_false_twice m

/-- Witness of C24 (amended): the rotation of 5600 azimuths. -/
theorem second_wrap_is_signalled_witness :
    (feed_azimuths Rotation_state.initial (List.range 5600 ++ List.range 5600 ++ [0])).1
      = List.replicate (2 * 5600) false ++ [true] :=
  second_wrap_is_signalled 5600 (by decide)

end Colossus_client

namespace Time

/-! ## Durations and observations -/

theorem to_int_of_small (z : ℤ) (h0 : -(2 ^ 31) ≤ z) (h1 : z < 2 ^ 31) : to_int z = z := by
  simp only [to_int]
  omega

theorem duration_div_of_nonneg (a b : ℕ) (hb : 0 < b) (hq : a / b < 2 ^ 31) :
    Duration.div { ticks := (a : ℤ) } { ticks := (b : ℤ) } = Call.returns ((a / b : ℕ) : ℤ) := by
  have hb0 : ¬ ((b : ℤ) = 0) := by omega
  have hb1 : ¬ ((a : ℤ) = tick_min ∧ (b : ℤ) = -1) := by
    rintro ⟨-, h⟩
    omega
  have hdiv : Int.tdiv (a : ℤ) (b : ℤ) = ((a / b : ℕ) : ℤ) := by
    rw [Int.tdiv_eq_ediv (Int.natCast_nonneg a) (Int.natCast_nonneg b)]
    exact (Int.natCast_div a b).symm
  have hq2 : ((a / b : ℕ) : ℤ) < 2 ^ 31 := by exact_mod_cast hq
  have hq0 : -(2 ^ 31) ≤ ((a / b : ℕ) : ℤ) := by
    have := Int.natCast_nonneg (a / b)
    omega
  simp only [Duration.div]
  rw [if_neg hb0, if_neg hb1, hdiv, to_int_of_small _ hq0 hq2]

/-- C25, evaluated: `Duration { -10 } / Duration { 3 }` is -3, `Duration { 1 } /
Duration { 2 }` is 0, and `Duration { 2147483648 } / Duration { 1 }`, about 36 minutes
over one microsecond, is -2147483648, the quotient being converted to `int`: none is a
positive integer.  The division by a zero `Duration` throws. -/
theorem duration_quotient_not_positive :
    Duration.div { ticks := -10 } { ticks := 3 } = Call.returns (-3)
    ∧ Duration.div { ticks := 1 } { ticks := 2 } = Call.returns 0
    ∧ Duration.div { ticks := 2147483648 } { ticks := 1 } = Call.returns (-2147483648)
    ∧ (∀ a : Duration, Duration.div a { ticks := 0 } = Call.throws "divide by zero!") := by
  refine ⟨by decide, by decide, by decide, ?_⟩
  intro a
  simp [Duration.div]

/-- C26 fails as stated: one microsecond after the epoch plus `Duration::forever()` is
`2 ^ 63` ticks, which the tick type does not hold: the sum overflows.  So does the
difference of the epoch and the least `Duration`. -/
theorem observation_plus_forever_overflows :
    Duration.forever.ticks = 2 ^ 63 - 1
    ∧ Observation.add { since_epoch := { ticks := 1 } } Duration.forever = Call.overflow
    ∧ Duration.add_observation Duration.forever { since_epoch := { ticks := 1 } }
        = Call.overflow
    ∧ Observation.sub { since_epoch := { ticks := 0 } } { ticks := tick_min } = Call.overflow := by
  refine ⟨by decide, by decide, by decide, by decide⟩

/-- C26, amended: for every `Observation` `t` and `Duration` `d` whose sum of ticks fits the
tick type, `t + d` and `d + t` are the `Observation` of `max(0, t + d)` ticks since the
epoch; and when the difference of their ticks fits the tick type, `t - d` is the
`Observation` of `max(0, t - d)` ticks since the epoch. -/
theorem observation_not_before_epoch (t : Observation) (d : Duration) :
    (tick_min ≤ t.since_epoch.ticks + d.ticks → t.since_epoch.ticks + d.ticks ≤ tick_max →
      t.add d = Call.returns { since_epoch := { ticks := max 0 (t.since_epoch.ticks + d.ticks) } }
      ∧ d.add_observation t
          = Call.returns { since_epoch := { ticks := max 0 (t.since_epoch.ticks + d.ticks) } })
    ∧ (tick_min ≤ t.since_epoch.ticks - d.ticks → t.since_epoch.ticks - d.ticks ≤ tick_max →
      t.sub d
        = Call.returns { since_epoch := { ticks := max 0 (t.since_epoch.ticks - d.ticks) } }) := by
  have key : ∀ r : ℤ, tick_min ≤ r → r ≤ tick_max →
      (if r < tick_min ∨ tick_max < r then (Call.overflow : Call Observation)
        else if r < 0 then Call.returns { since_epoch := { ticks := 0 } }
        else Call.returns { since_epoch := { ticks := r } })
      = Call.returns { since_epoch := { ticks := max 0 r } } := by
    intro r h0 h1
    rw [if_neg (by omega)]
    split_ifs with h
    · rw [max_eq_left (by omega)]
    · rw [max_eq_right (by omega)]
  refine ⟨fun h0 h1 => ⟨?_, ?_⟩, fun h0 h1 => ?_⟩
  · simp only [Observation.add]
    exact key _ h0 h1
  · simp only [Duration.add_observation]
    exact key _ h0 h1
  · simp only [Observation.sub]
    exact key _ h0 h1

/-- Witness of C26 (amended): 5 microseconds after the epoch, and a `Duration` of 8
microseconds: the sum is at 13, the difference at the epoch. -/
theorem observation_not_before_epoch_witness :
    Observation.add { since_epoch := { ticks := 5 } } { ticks := 8 }
        = Call.returns { since_epoch := { ticks := max 0 (5 + 8) } }
    ∧ Observation.sub { since_epoch := { ticks := 5 } } { ticks := 8 }
        = Call.returns { since_epoch := { ticks := max 0 (5 - 8) } } :=
  ⟨((observation_not_before_epoch { since_epoch := { ticks := 5 } } { ticks := 8 }).1
      (by decide) (by decide)).1,
    (observation_not_before_epoch { since_epoch := { ticks := 5 } } { ticks := 8 }).2
      (by decide) (by decide)⟩

/-- C39, evaluated on the `timeval` of one second: `Duration(tv)` holds 1000000 ticks, and
`to_timeval` returns 0 seconds and 1000 microseconds, its divisions taking the ticks for
nanoseconds. -/
theorem timeval_round_trip_fails :
    (Duration.of_timeval { tv_sec := 1, tv_usec := 0 }).ticks = 1000000
    ∧ (Duration.of_timeval { tv_sec := 1, tv_usec := 0 }).to_timeval
        = { tv_sec := 0, tv_usec := 1000 }
    ∧ (Duration.of_timeval { tv_sec := 3, tv_usec := 250000 }).to_timeval
        = { tv_sec := 0, tv_usec := 3250 } := by
  decide

/-- C40, evaluated on the `timespec` of one second and 5000 nanoseconds: `Duration(ts)`
holds 1000005 ticks and `to_timespec` returns 1 second and 5, the microseconds, in the
nanosecond field.  For 5 ticks `Duration::to_timespec` returns 5 nanoseconds and
`Observation::to_timespec` 5000.  The round trip holds when the sub-second part is zero. -/
theorem timespec_round_trip_fails :
    (Duration.of_timespec { tv_sec := 1, tv_nsec := 5000 }).ticks = 1000005
    ∧ (Duration.of_timespec { tv_sec := 1, tv_nsec := 5000 }).to_timespec
        = { tv_sec := 1, tv_nsec := 5 }
    ∧ Duration.to_timespec { ticks := 5 } = { tv_sec := 0, tv_nsec := 5 }
    ∧ Observation.to_timespec { since_epoch := { ticks := 5 } } = { tv_sec := 0, tv_nsec := 5000 }
    ∧ (∀ sec : ℕ, (Duration.of_timespec { tv_sec := (sec : ℤ), tv_nsec := 0 }).to_timespec
        = { tv_sec := (sec : ℤ), tv_nsec := 0 }) := by
  refine ⟨by decide, by decide, by decide, by decide, ?_⟩
  intro sec
  have h : Int.tdiv ((sec : ℤ) * 1000000) 1000000 = (sec : ℤ) := by
    rw [Int.tdiv_eq_ediv (by positivity) (by decide)]
    exact Int.mul_ediv_cancel _ (by decide)
  simp only [Duration.of_timespec, Duration.to_timespec, Int.zero_tdiv, add_zero, h, sub_self]

end Time

namespace Pointcloud_target_writer

/-! ## From CFAR to the peak finder -/

theorem cfar_output_getElem {V : Type} (T : CA_CFAR.Slider_traits V) (fft_data : List V)
    (outside : ℤ → V) (min_bin : ℕ) (cfar_window : CA_CFAR.Window) (j : ℕ)
    (hj : min_bin + j < fft_data.length) :
    (cfar_output T fft_data outside min_bin cfar_window)[j]?
      = some (CA_CFAR.cell_power T (CA_CFAR.vector_memory fft_data outside) cfar_window
          (min_bin : ℤ) (fft_data.length : ℤ) ((min_bin : ℤ) + (j : ℤ))) := by
  simp only [cfar_output, CA_CFAR.process]
  rw [CA_CFAR.process_loop_getElem _ _ _ _ _ j (by omega)]
  rfl

/-- C38, evaluated on a spoke of 5 bins with a return in the bin 3, with `min_bin = 1` and
`Window(3, 0, 30)`: the vector passed to `find_peaks` is `{0, 0, 90, 0}`, the CFAR results
of the bins 1 to 4, and the peak finder, which skips its first `minimum_bin = 1` elements,
finds the peak at the bin 2.  In general the element `j` of that vector is the CFAR result
of the bin `min_bin + j`. -/
theorem find_peaks_sees_shifted_bins :
    cfar_output CA_CFAR.float_traits single_return_spoke (fun _ => 0) 1
        (CA_CFAR.Window.create_delta 16 3 0 30) = [0, 0, 90, 0]
    ∧ peak_of_spoke CA_CFAR.float_traits single_return_spoke (fun _ => 0) 1
        (CA_CFAR.Window.create_delta 16 3 0 30) Navigation.Peak_mode.max 5
      = Outcome.returns
          { max_it := 2, forward_it := 2, reverse_it := 2, window_sz := 0, peak_bin := 2 }
    ∧ (∀ (fft_data : List ℚ) (outside : ℤ → ℚ) (min_bin : ℕ) (cfar_window : CA_CFAR.Window)
        (j : ℕ), min_bin + j < fft_data.length →
        (cfar_output CA_CFAR.float_traits fft_data outside min_bin cfar_window)[j]?
          = some (CA_CFAR.cell_power CA_CFAR.float_traits
              (CA_CFAR.vector_memory fft_data outside) cfar_window
              (min_bin : ℤ) (fft_data.length : ℤ) ((min_bin : ℤ) + (j : ℤ)))) := by
  have hw : CA_CFAR.Window.create_delta 16 3 0 30
      = { size := 3, guard_cells := 0, threshold_delta := 30 } := by
    simp [CA_CFAR.Window.create_delta, CA_CFAR.Window.resize, CA_CFAR.force_odd]
  have m0 : CA_CFAR.vector_memory single_return_spoke (fun _ => (0:ℚ)) 0 = 0 := by rfl
  have m1 : CA_CFAR.vector_memory single_return_spoke (fun _ => (0:ℚ)) 1 = 0 := by rfl
  have m2 : CA_CFAR.vector_memory single_return_spoke (fun _ => (0:ℚ)) 2 = 0 := by rfl
  have m3 : CA_CFAR.vector_memory single_return_spoke (fun _ => (0:ℚ)) 3 = 90 := by rfl
  have m4 : CA_CFAR.vector_memory single_return_spoke (fun _ => (0:ℚ)) 4 = 0 := by rfl
  have hb1 : CA_CFAR.training_bounds { size := 3, guard_cells := 0, threshold_delta := 30 } 1 5 1
      = ⟨1, 1, 2, 4⟩ := by decide
  have hb2 : CA_CFAR.training_bounds { size := 3, guard_cells := 0, threshold_delta := 30 } 1 5 2
      = ⟨1, 2, 3, 4⟩ := by decide
  have hb3 : CA_CFAR.training_bounds { size := 3, guard_cells := 0, threshold_delta := 30 } 1 5 3
      = ⟨2, 3, 4, 5⟩ := by decide
  have hb4 : CA_CFAR.training_bounds { size := 3, guard_cells := 0, threshold_delta := 30 } 1 5 4
      = ⟨2, 4, 5, 5⟩ := by decide
  have e1 : ¬ CA_CFAR.cell_exceeds CA_CFAR.float_traits
      (CA_CFAR.vector_memory single_return_spoke (fun _ => 0))
      { size := 3, guard_cells := 0, threshold_delta := 30 } 1 5 1 := by
    simp only [CA_CFAR.cell_exceeds, hb1, CA_CFAR.Training_bounds.elems]
    norm_num [CA_CFAR.accumulate_lt, CA_CFAR.accumulate_ge, round_to_float_ofNat,
      round_to_float_zero, round_to_float_one, CA_CFAR.float_traits, m1, m2, m3, m4]
  have e2 : ¬ CA_CFAR.cell_exceeds CA_CFAR.float_traits
      (CA_CFAR.vector_memory single_return_spoke (fun _ => 0))
      { size := 3, guard_cells := 0, threshold_delta := 30 } 1 5 2 := by
    simp only [CA_CFAR.cell_exceeds, hb2, CA_CFAR.Training_bounds.elems]
    norm_num [CA_CFAR.accumulate_lt, CA_CFAR.accumulate_ge, round_to_float_ofNat,
      round_to_float_zero, round_to_float_one, CA_CFAR.float_traits, m1, m2, m3, m4]
  have e3 : CA_CFAR.cell_exceeds CA_CFAR.float_traits
      (CA_CFAR.vector_memory single_return_spoke (fun _ => 0))
      { size := 3, guard_cells := 0, threshold_delta := 30 } 1 5 3 := by
    simp only [CA_CFAR.cell_exceeds, hb3, CA_CFAR.Training_bounds.elems]
    norm_num [CA_CFAR.accumulate_lt, CA_CFAR.accumulate_ge, round_to_float_ofNat,
      round_to_float_zero, round_to_float_one, CA_CFAR.float_traits, m1, m2, m3, m4]
  have e4 : ¬ CA_CFAR.cell_exceeds CA_CFAR.float_traits
      (CA_CFAR.vector_memory single_return_spoke (fun _ => 0))
      { size := 3, guard_cells := 0, threshold_delta := 30 } 1 5 4 := by
    simp only [CA_CFAR.cell_exceeds, hb4, CA_CFAR.Training_bounds.elems]
    norm_num [CA_CFAR.accumulate_lt, CA_CFAR.accumulate_ge, round_to_float_ofNat,
      round_to_float_zero, round_to_float_one, CA_CFAR.float_traits, m1, m2, m3, m4]
  have hlen : ((single_return_spoke.length : ℕ) : ℤ) = 5 := by rfl
  have hout : cfar_output CA_CFAR.float_traits single_return_spoke (fun _ => 0) 1
        { size := 3, guard_cells := 0, threshold_delta := 30 } = [0, 0, 90, 0] := by
    simp only [cfar_output, CA_CFAR.process, hlen, CA_CFAR.process_loop, CA_CFAR.process_cell_eq,
      CA_CFAR.Window_slider.create, Nat.cast_one, Int.reduceSub, Int.reduceToNat, Int.reduceAdd,
      e1, e2, e3, e4, if_true, if_false]
    norm_num [CA_CFAR.float_traits, m3]
  rw [hw]
  refine ⟨hout, ?_, ?_⟩
  · simp only [peak_of_spoke, hout]
    decide
  · intro fft_data outside min_bin cfar_window j hj
    exact cfar_output_getElem _ _ _ _ _ j hj

end Pointcloud_target_writer

end Navtech
